import Mathlib

/-!
# Graphik: document/connection store, adjacency maps, indexes and authorization

A shallow embedding of the storage core of graphik (`database/db.go`,
`database/interceptors.go`, `vm/node.go`, `graph/graph.go`) together with theorems
about it.

Conventions of the embedding

* A Go call either returns a value, returns an error value, or faults with a runtime
  panic (nil dereference, write into a nil map).  `Res` keeps the three apart.
* Functions that run inside a bbolt transaction take the state they work on and give
  back the state they leave behind, also when they fail: the in-memory adjacency maps
  are not rolled back by bbolt, so the state after an error matters.
* bbolt, protobuf, cel-go, uuid and the clock are libraries outside the repository.
  bbolt buckets are finite maps with ordered keys; the protobuf codec and the CEL
  compiler are fields of `Env`; the clock reading and the fresh uuid of one call are
  fields of `Step`.
-/

namespace Graphik

/-! ## Data model -/

/-- Error values returned by the store, by bbolt and by the interceptor. -/
inductive Err where
  /-- The error of a context that is cancelled or past its deadline, `ctx.Err()`. -/
  | cancelled
  /-- The error `ErrNotFound`. -/
  | notFound
  /-- The error "from doc ... does not exist". -/
  | fromMissing
  /-- The error "to doc ... does not exist". -/
  | toMissing
  /-- An error of `proto.Marshal`. -/
  | marshal
  /-- An error of `proto.Unmarshal`. -/
  | unmarshal
  /-- The bbolt error `ErrKeyRequired`. -/
  | keyRequired
  /-- The bbolt error `ErrKeyTooLarge`. -/
  | keyTooLarge
  /-- The bbolt error `ErrValueTooLarge`. -/
  | valueTooLarge
  /-- The bbolt error `ErrBucketNameRequired`. -/
  | bucketNameRequired
  /-- The error "email not present in userinfo". -/
  | emailMissing
  /-- The gRPC status `Unauthenticated`. -/
  | unauthenticated
  /-- The gRPC status `Internal`. -/
  | internal
  /-- The gRPC status `PermissionDenied`. -/
  | permissionDenied
  /-- A runtime error of an expression program, passed on unchanged. -/
  | eval (msg : String)
  /-- An expression that is empty or does not compile. -/
  | compile
  deriving DecidableEq, Repr

/-- Outcome of a Go call: a value, a returned error, or a runtime panic. -/
inductive Res (α : Type) where
  | ok (a : α)
  | err (e : Err)
  | panic
  deriving DecidableEq, Repr

/-- Serialized bytes. -/
abbrev Bytes := List Nat

/-- A `structpb.Value`.  A number is a double; the integral ones are carried.  Nested
structs and lists are carried by their JSON text: no operation of the store looks inside
them. -/
inductive Value where
  | null
  | number (n : Int)
  | string (s : String)
  | bool (b : Bool)
  | nested (json : String)
  deriving DecidableEq, Repr

/-- The address of an entity (`apipb.Path`, called `Ref` in later revisions). -/
structure Path where
  gtype : String
  gid : String
  deriving DecidableEq, Repr

/-- Entity metadata (`apipb.Metadata`); `version` and `sequence` are `uint64`. -/
structure Metadata where
  createdAt : Option Nat
  updatedAt : Option Nat
  createdBy : Option Path
  updatedBy : Option Path
  version : Nat
  sequence : Nat
  deriving DecidableEq, Repr

/-- The zero `Metadata` message, `&apipb.Metadata{}`. -/
def Metadata.zero : Metadata :=
  { createdAt := none, updatedAt := none, createdBy := none, updatedBy := none,
    version := 0, sequence := 0 }

/-- A document (`apipb.Doc`).  Every field is a pointer in Go and may be nil;
`attributes = none` stands for a nil struct or a nil field map. -/
structure Doc where
  path : Option Path
  attributes : Option (List (String × Value))
  metadata : Option Metadata
  deriving DecidableEq, Repr

/-- The zero `Doc` message, what `proto.Unmarshal` yields on empty input. -/
def Doc.zero : Doc := { path := none, attributes := none, metadata := none }

/-- A connection (`apipb.Connection`); `from_` and `to_` are its fields `From` and `To`. -/
structure Connection where
  path : Option Path
  attributes : Option (List (String × Value))
  metadata : Option Metadata
  directed : Bool
  from_ : Option Path
  to_ : Option Path
  deriving DecidableEq, Repr

/-- The zero `Connection` message. -/
def Connection.zero : Connection :=
  { path := none, attributes := none, metadata := none, directed := false,
    from_ := none, to_ := none }

/-- An index descriptor (`apipb.Index`). -/
structure Index where
  name : String
  gtype : String
  expression : String
  docs : Bool
  connections : Bool
  sequence : Nat
  deriving DecidableEq, Repr

/-- The zero `Index` message. -/
def Index.zero : Index :=
  { name := "", gtype := "", expression := "", docs := false, connections := false,
    sequence := 0 }

/-! ## Text form of a path -/

/-- Escape the quote and the backslash, as the protobuf text format does. -/
def escapeChars : List Char → List Char
  | [] => []
  | c :: cs =>
    if c = Char.ofNat 34 ∨ c = Char.ofNat 92 then Char.ofNat 92 :: c :: escapeChars cs
    else c :: escapeChars cs

/-- A quoted string of the protobuf text format. -/
def quoteString (s : String) : String :=
  String.mk (Char.ofNat 34 :: escapeChars s.data ++ [Char.ofNat 34])

/-- The method `(*apipb.Path).String`: the compact protobuf text form, which leaves out
fields that hold the empty string. -/
def Path.String (p : Path) : String :=
  let a := if p.gtype = "" then "" else "gtype:" ++ quoteString p.gtype
  let b := if p.gid = "" then "" else "gid:" ++ quoteString p.gid
  if a = "" then b else if b = "" then a else a ++ " " ++ b

/-- The method `String` called on a possibly nil `*apipb.Path`. -/
def optPathString : Option Path → String
  | none => "<nil>"
  | some p => p.String

/-- The Go operator `<` on strings: lexicographic order of the bytes, which for UTF-8 is the
lexicographic order of the characters. -/
def strLess (a b : String) : Bool := decide (a.data < b.data)

/-! ## bbolt buckets -/

/-- A finite map with string keys, kept as an association list in key order.  It models
the key/value part of a bbolt bucket, the sub-bucket table of a bucket, and a Go map. -/
def Bucket (β : Type) := List (String × β)

instance {β : Type} [DecidableEq β] : DecidableEq (Bucket β) :=
  inferInstanceAs (DecidableEq (List (String × β)))

namespace Bucket

/-- The empty bucket. -/
def empty {β : Type} : Bucket β := ([] : List (String × β))

/-- Value stored under `k`, `none` when the key is absent (`Bucket.Get`, `Bucket.Bucket`,
map lookup). -/
def lookup {β : Type} : Bucket β → String → Option β
  | [], _ => none
  | (k', v) :: rest, k => if k = k' then some v else lookup rest k

/-- Store `v` under `k`, replacing a previous value and keeping key order. -/
def insert {β : Type} : Bucket β → String → β → Bucket β
  | [], k, v => [(k, v)]
  | (k', v') :: rest, k, v =>
    if k = k' then (k, v) :: rest
    else if strLess k k' then (k, v) :: (k', v') :: rest
    else (k', v') :: insert rest k v

/-- Remove every entry stored under `k`. -/
def erase {β : Type} : Bucket β → String → Bucket β
  | [], _ => []
  | (k', v) :: rest, k => if k = k' then erase rest k else (k', v) :: erase rest k

/-- The keys in iteration order. -/
def keys {β : Type} (b : Bucket β) : List String := List.map Prod.fst b

/-- The keys and values in iteration order, what `ForEach` visits. -/
def entries {β : Type} (b : Bucket β) : List (String × β) := b

end Bucket

/-- Largest key bbolt accepts, `MaxKeySize`. -/
def maxKeySize : Nat := 32768

/-- Largest value bbolt accepts, `MaxValueSize`. -/
def maxValueSize : Nat := 2147483646

/-- A bucket of entities: its sequence counter and its keys and values. -/
structure Sub where
  sequence : Nat
  kv : Bucket Bytes
  deriving DecidableEq

namespace Sub

/-- A freshly created bucket. -/
def empty : Sub := { sequence := 0, kv := Bucket.empty }

/-- The method `Bucket.Get`: nil (here `none`) when the key is absent. -/
def Get (b : Sub) (key : String) : Option Bytes := b.kv.lookup key

/-- The method `Bucket.Put` in a writable transaction. -/
def Put (b : Sub) (key : String) (value : Bytes) : Except Err Sub :=
  if key.utf8ByteSize = 0 then .error .keyRequired
  else if key.utf8ByteSize > maxKeySize then .error .keyTooLarge
  else if value.length > maxValueSize then .error .valueTooLarge
  else .ok { b with kv := b.kv.insert key value }

/-- The method `Bucket.Delete` in a writable transaction: deleting an absent key is no
error. -/
def Delete (b : Sub) (key : String) : Sub := { b with kv := b.kv.erase key }

/-- The method `Bucket.NextSequence`. -/
def NextSequence (b : Sub) : Nat × Sub :=
  (b.sequence + 1, { b with sequence := b.sequence + 1 })

end Sub

/-- The call `CreateBucketIfNotExists` on a bucket of sub-buckets: the sub-bucket and the
parent that holds it. -/
def createBucketIfNotExists (parent : Bucket Sub) (name : String) :
    Except Err (Sub × Bucket Sub) :=
  if name.utf8ByteSize = 0 then .error .bucketNameRequired
  else
    match parent.lookup name with
    | some b => .ok (b, parent)
    | none => .ok (Sub.empty, parent.insert name Sub.empty)

/-- The statements `bucket := parent.Bucket(name)` and, when that is nil,
`bucket, err = parent.CreateBucketIfNotExists(name)`. -/
def bucketOrCreate (parent : Bucket Sub) (name : String) : Except Err (Sub × Bucket Sub) :=
  match parent.lookup name with
  | some b => .ok (b, parent)
  | none => createBucketIfNotExists parent name

/-- The buckets of the database file as a transaction sees them.  The top-level buckets
exist from start-up on. -/
structure Store where
  docs : Bucket Sub
  connections : Bucket Sub
  indexes : Sub
  indexDocs : Bucket Sub
  indexConnections : Bucket Sub
  deriving DecidableEq

/-- The database right after the first start-up. -/
def Store.empty : Store :=
  { docs := Bucket.empty, connections := Bucket.empty, indexes := Sub.empty,
    indexDocs := Bucket.empty, indexConnections := Bucket.empty }

/-! ## External collaborators -/

/-- What running a compiled CEL program on an input gives: its value when that is a
boolean, some other value, an error whose text contains "no such key", or any other
runtime error. -/
inductive ProgResult where
  | bool (b : Bool)
  | nonBool
  | noSuchKey
  | fail (msg : String)
  deriving DecidableEq, Repr

/-- A compiled `cel.Program` over inputs of type `α`. -/
abbrev Program (α : Type) := α → ProgResult

/-- The request an authorizer program is evaluated on (`apipb.Request`). -/
structure Request where
  method : String
  user : Option Doc
  timestamp : Nat
  request : Option (List (String × Value))
  deriving DecidableEq, Repr

/-- The libraries the store calls: the protobuf codec of docs, connections and index
descriptors, the CEL compiler of each environment (`none` is a compile error), and the
`Sort` methods of `apipb.Docs` and `apipb.Connections`, whose declarations are not part
of the sources: they reorder the slice they are called on. -/
structure Env where
  marshalDoc : Doc → Option Bytes
  unmarshalDoc : Bytes → Option Doc
  marshalConnection : Connection → Option Bytes
  unmarshalConnection : Bytes → Option Connection
  compileDoc : String → Option (Program Doc)
  compileConnection : String → Option (Program Connection)
  marshalIndex : Index → Option Bytes
  unmarshalIndex : Bytes → Option Index
  sortDocs : List Doc → List Doc
  sortDocs_perm : ∀ docs, (sortDocs docs).Perm docs
  sortConnections : List Connection → List Connection
  sortConnections_perm : ∀ connections, (sortConnections connections).Perm connections

/-- What one call reads from the outside: the clock (`timestamppb.Now()`) and the fresh
identifier (`uuid.New().String()`). -/
structure Step where
  now : Nat
  uuid : String
  deriving DecidableEq, Repr

/-- The request context: whether `ctx.Err()` is non-nil, the identity doc stored under
`authCtxKey` and the method stored under `methodCtxKey`. -/
structure Ctx where
  done : Bool
  identity : Option Doc
  method : String
  deriving DecidableEq, Repr

/-- The call `proto.Unmarshal` into a `Doc`: empty input carries no field and gives the zero
message; anything else is up to the codec. -/
def protoUnmarshalDoc (env : Env) (bits : Bytes) : Option Doc :=
  if bits.length = 0 then some Doc.zero else env.unmarshalDoc bits

/-- The call `proto.Unmarshal` into a `Connection`. -/
def protoUnmarshalConnection (env : Env) (bits : Bytes) : Option Connection :=
  if bits.length = 0 then some Connection.zero else env.unmarshalConnection bits

/-- The call `proto.Unmarshal` into an `Index`. -/
def protoUnmarshalIndex (env : Env) (bits : Bytes) : Option Index :=
  if bits.length = 0 then some Index.zero else env.unmarshalIndex bits

/-- A registered authorizer with its compiled program. -/
structure Authorizer where
  name : String
  expression : String
  program : Option (Program Request)

/-- The `Graph` value: the database (as the running transaction sees it), the two
adjacency maps keyed by the text form of a doc path, the cached indexes, the cached
authorizers and the configured root users. -/
structure Graph where
  db : Store
  connectionsTo : Bucket (List Path)
  connectionsFrom : Bucket (List Path)
  indexes : List Index
  authorizers : List Authorizer
  rootUsers : List String

/-- Reading a Go map of values: `m[key]`, `none` when the key is absent. -/
def mapGet (m : List (String × Value)) (key : String) : Option Value :=
  (m.find? (fun kv => kv.1 = key)).map Prod.snd

/-- The expression `x.GetAttributes().GetFields()[key]` on a possibly nil field map. -/
def fieldOf (fields : Option (List (String × Value))) (key : String) : Option Value :=
  match fields with
  | none => none
  | some m => mapGet m key

/-- The getter `GetStringValue` on a possibly absent value: the empty string unless the
value is a string. -/
def getStringValue : Option Value → String
  | some (.string s) => s
  | _ => ""

/-! ## Expression VM (`vm/node.go`) -/

/-- The loop of `Eval`: a program that fails ends the loop at once, with `false` on a
"no such key" error and with the error otherwise; a program whose value is not the
boolean `true` clears `passes`.  Calling a nil program faults. -/
def evalLoop {α : Type} (x : α) : List (Option (Program α)) → Bool → Res Bool
  | [], passes => .ok passes
  | none :: _, _ => .panic
  | some program :: rest, passes =>
    match program x with
    | .noSuchKey => .ok false
    | .fail msg => .err (.eval msg)
    | .bool true => evalLoop x rest passes
    | .bool false => evalLoop x rest false
    | .nonBool => evalLoop x rest false

/-- The body shared by the `Eval` methods of the VMs. -/
def vmEval {α : Type} (x : α) (programs : List (Option (Program α))) : Res Bool :=
  match programs with
  | [] => .ok true
  | none :: _ => .ok true
  | some program :: rest => evalLoop x (some program :: rest) true

/-- The method `(*DocVM).Eval`. -/
def DocVM.Eval (doc : Doc) (programs : List (Option (Program Doc))) : Res Bool :=
  vmEval doc programs

/-- The method `(*DocVM).Program`: the empty expression is refused before compiling. -/
def DocVM.Program (env : Env) (expression : String) : Option (Program Doc) :=
  if expression = "" then none else env.compileDoc expression

/-- Modelled from the spec: `ConnectionVM.Eval`, whose file is not part of the sources;
the spec gives every environment the one `eval` contract that `DocVM.Eval` implements. -/
def ConnectionVM.Eval (connection : Connection)
    (programs : List (Option (Program Connection))) : Res Bool :=
  vmEval connection programs

/-- Modelled from the spec: `ConnectionVM.Program`, which compiles an expression against
the connection environment and fails on a compile error. -/
def ConnectionVM.Program (env : Env) (expression : String) : Option (Program Connection) :=
  if expression = "" then none else env.compileConnection expression

/-- Modelled from the spec: `AuthVM.Eval`, the same `eval` contract over a request. -/
def AuthVM.Eval (request : Request) (programs : List (Option (Program Request))) :
    Res Bool :=
  vmEval request programs

/-! ## Entity store (`database/db.go`) -/

/-- The function `updateMeta`, as the value the caller's metadata pointer refers to
afterwards.  A nil pointer is replaced by a fresh message only in the local variable, so
the caller's entity keeps no metadata.  The identity is read from the context. -/
def updateMeta (st : Step) (ctx : Ctx) (metadata : Option Metadata) : Option Metadata :=
  match metadata with
  | none => none
  | some m =>
    let identityPath : Option Path := ctx.identity.bind (fun d => d.path)
    some
      { createdAt := if m.createdAt.isNone then some st.now else m.createdAt
        createdBy := if m.createdBy.isNone then identityPath else m.createdBy
        updatedBy := if ctx.identity.isSome then identityPath else m.updatedBy
        updatedAt := some st.now
        version := (m.version + 1) % 2 ^ 64
        sequence := m.sequence }

/-- The method `rangeIndexes`: call `fn` on each cached index until it returns false. -/
def rangeIndexes {σ : Type} (fn : σ → Index → σ × Bool) : List Index → σ → σ
  | [], s => s
  | i :: rest, s =>
    match fn s i with
    | (s', true) => rangeIndexes fn rest s'
    | (s', false) => s'

/-- The method `setIndexedDoc`. -/
def setIndexedDoc (ctx : Ctx) (tx : Store) (index gid : String) (doc : Bytes) :
    Except Err Store :=
  if ctx.done then .error .cancelled
  else
    match tx.indexDocs.lookup index with
    | none => .error .notFound
    | some bucket =>
      match bucket.Put gid doc with
      | .error e => .error e
      | .ok bucket' => .ok { tx with indexDocs := tx.indexDocs.insert index bucket' }

/-- The method `setIndexedConnection`. -/
def setIndexedConnection (ctx : Ctx) (tx : Store) (index gid : String)
    (connection : Bytes) : Except Err Store :=
  if ctx.done then .error .cancelled
  else
    match tx.indexConnections.lookup index with
    | none => .error .notFound
    | some bucket =>
      match bucket.Put gid connection with
      | .error e => .error e
      | .ok bucket' =>
        .ok { tx with indexConnections := tx.indexConnections.insert index bucket' }

/-- The method `delIndexedDoc`. -/
def delIndexedDoc (ctx : Ctx) (tx : Store) (index gid : String) : Except Err Store :=
  if ctx.done then .error .cancelled
  else
    match tx.indexDocs.lookup index with
    | none => .error .notFound
    | some bucket =>
      .ok { tx with indexDocs := tx.indexDocs.insert index (bucket.Delete gid) }

/-- The method `delIndexedConnection`. -/
def delIndexedConnection (ctx : Ctx) (tx : Store) (index gid : String) :
    Except Err Store :=
  if ctx.done then .error .cancelled
  else
    match tx.indexConnections.lookup index with
    | none => .error .notFound
    | some bucket =>
      .ok { tx with
        indexConnections := tx.indexConnections.insert index (bucket.Delete gid) }

/-- The first statements of `setDoc` and `setConnection`: a nil path becomes the empty
path, and an empty gid becomes a fresh uuid. -/
def ensurePath (st : Step) (path : Option Path) : Path :=
  let path0 : Path := path.getD { gtype := "", gid := "" }
  if path0.gid = "" then { path0 with gid := st.uuid } else path0

/-- The callback `setDoc` hands to `rangeIndexes`: for an index over docs, compile its
expression, evaluate it on the doc and, when the result is true, put the doc bytes under
the doc gid in the bucket of the index.  Every failure is logged and skipped; nothing
is done when the result is false. -/
def setDocIndexStep (env : Env) (ctx : Ctx) (doc : Doc) (gid : String) (bits : Bytes)
    (tx : Store) (i : Index) : Store × Bool :=
  if i.docs then
    match DocVM.Program env i.expression with
    | none => (tx, true)
    | some program =>
      match DocVM.Eval doc [some program] with
      | .ok true =>
        match setIndexedDoc ctx tx i.name gid bits with
        | .ok tx' => (tx', true)
        | .error _ => (tx, true)
      | _ => (tx, true)
  else (tx, true)

/-- The method `setDoc`. -/
def setDoc (env : Env) (st : Step) (ctx : Ctx) (g : Graph) (doc : Doc) :
    Res Doc × Graph :=
  if ctx.done then (.err .cancelled, g)
  else
    let path : Path := ensurePath st doc.path
    let doc : Doc := { doc with path := some path, metadata := updateMeta st ctx doc.metadata }
    match env.marshalDoc doc with
    | none => (.err .marshal, g)
    | some bits =>
      match bucketOrCreate g.db.docs path.gtype with
      | .error e => (.err e, g)
      | .ok (bucket, docs1) =>
        match bucket.Put path.gid bits with
        | .error e => (.err e, { g with db := { g.db with docs := docs1 } })
        | .ok bucket' =>
          let tx1 : Store := { g.db with docs := docs1.insert path.gtype bucket' }
          let tx2 : Store :=
            rangeIndexes (setDocIndexStep env ctx doc path.gid bits) g.indexes tx1
          (.ok doc, { g with db := tx2 })

/-- Insertion of a path into a list ordered by text form. -/
def insertPath (p : Path) : List Path → List Path
  | [] => [p]
  | q :: qs => if strLess p.String q.String then p :: q :: qs else q :: insertPath p qs

/-- The function `sortPaths`: order the paths by their text form. -/
def sortPaths (paths : List Path) : List Path := paths.foldr insertPath []

/-- Reading a Go map of path slices: an absent key gives the nil slice. -/
def pathsAt (m : Bucket (List Path)) (key : String) : List Path := (m.lookup key).getD []

/-- The statement `m[key] = append(m[key], p)`. -/
def appendPath (m : Bucket (List Path)) (key : String) (p : Path) : Bucket (List Path) :=
  m.insert key (pathsAt m key ++ [p])

/-- The statement `sortPaths(m[key])`, which sorts the stored slice in place. -/
def sortAt (m : Bucket (List Path)) (key : String) : Bucket (List Path) :=
  match m.lookup key with
  | none => m
  | some paths => m.insert key (sortPaths paths)

/-- The callback `setConnection` hands to `rangeIndexes`. -/
def setConnectionIndexStep (env : Env) (ctx : Ctx) (connection : Connection)
    (gid : String) (bits : Bytes) (tx : Store) (i : Index) : Store × Bool :=
  if i.connections then
    match ConnectionVM.Program env i.expression with
    | none => (tx, true)
    | some program =>
      match ConnectionVM.Eval connection [some program] with
      | .ok true =>
        match setIndexedConnection ctx tx i.name gid bits with
        | .ok tx' => (tx', true)
        | .error _ => (tx, true)
      | _ => (tx, true)
  else (tx, true)

/-- The method `setConnection`.  Reading `connection.From.Gtype` or `connection.To.Gtype`
through a nil pointer faults, and so does `CreateBucketIfNotExists` called on the nil
bucket when the connection type has no bucket yet. -/
def setConnection (env : Env) (st : Step) (ctx : Ctx) (g : Graph)
    (connection : Connection) : Res Connection × Graph :=
  if ctx.done then (.err .cancelled, g)
  else
    match connection.from_ with
    | none => (.panic, g)
    | some fromPath =>
    match g.db.docs.lookup fromPath.gtype with
    | none => (.err .fromMissing, g)
    | some fromBucket =>
    match fromBucket.Get fromPath.gid with
    | none => (.err .fromMissing, g)
    | some _ =>
    match connection.to_ with
    | none => (.panic, g)
    | some toPath =>
    match g.db.docs.lookup toPath.gtype with
    | none => (.err .toMissing, g)
    | some toBucket =>
    match toBucket.Get toPath.gid with
    | none => (.err .toMissing, g)
    | some _ =>
    let path : Path := ensurePath st connection.path
    let connection : Connection :=
      { connection with path := some path, metadata := updateMeta st ctx connection.metadata }
    match env.marshalConnection connection with
    | none => (.err .marshal, g)
    | some bits =>
    match g.db.connections.lookup path.gtype with
    | none => (.panic, g)
    | some connectionBucket =>
    match connectionBucket.Put path.gid bits with
    | .error e => (.err e, g)
    | .ok bucket' =>
      let tx1 : Store :=
        { g.db with connections := g.db.connections.insert path.gtype bucket' }
      let from1 := appendPath g.connectionsFrom fromPath.String path
      let to1 := appendPath g.connectionsTo toPath.String path
      let to2 := if connection.directed then to1 else appendPath to1 fromPath.String path
      let from2 := if connection.directed then from1 else appendPath from1 toPath.String path
      let from3 := sortAt from2 fromPath.String
      let to3 := sortAt to2 toPath.String
      let tx2 : Store :=
        rangeIndexes (setConnectionIndexStep env ctx connection path.gid bits) g.indexes tx1
      (.ok connection,
        { g with db := tx2, connectionsFrom := from3, connectionsTo := to3 })

/-- The method `getDoc`.  Reading `path.Gtype` through a nil pointer faults. -/
def getDoc (env : Env) (ctx : Ctx) (tx : Store) (path : Option Path) : Res Doc :=
  if ctx.done then .err .cancelled
  else
    match path with
    | none => .panic
    | some p =>
      match tx.docs.lookup p.gtype with
      | none => .err .notFound
      | some bucket =>
        let bits : Bytes := (bucket.Get p.gid).getD []
        if bits.length = 0 then .err .notFound
        else
          match protoUnmarshalDoc env bits with
          | none => .err .unmarshal
          | some doc => .ok doc

/-- The method `getConnection`. -/
def getConnection (env : Env) (ctx : Ctx) (tx : Store) (path : Option Path) :
    Res Connection :=
  if ctx.done then .err .cancelled
  else
    match path with
    | none => .panic
    | some p =>
      match tx.connections.lookup p.gtype with
      | none => .err .notFound
      | some bucket =>
        let bits : Bytes := (bucket.Get p.gid).getD []
        if bits.length = 0 then .err .notFound
        else
          match protoUnmarshalConnection env bits with
          | none => .err .unmarshal
          | some connection => .ok connection

/-- The function `removeConnection`: the loop keeps an entry when its gid and gtype both
equal those of `path`, then sorts what it kept. -/
def removeConnection (path : Path) (paths : List Path) : List Path :=
  sortPaths (paths.filter (fun p => path.gid = p.gid && path.gtype = p.gtype))

/-- The callback `delConnection` hands to `rangeIndexes`; the result of
`delIndexedConnection` is dropped. -/
def delConnectionIndexStep (ctx : Ctx) (path : Path) (tx : Store) (i : Index) :
    Store × Bool :=
  if i.connections && i.gtype = path.gtype then
    match delIndexedConnection ctx tx i.name path.gid with
    | .ok tx' => (tx', true)
    | .error _ => (tx, true)
  else (tx, true)

/-- The method `delConnection`.  The adjacency slots are looked up by the endpoints of
the stored record, and the record is deleted from the bucket named by its own path;
`Delete` on a nil bucket faults. -/
def delConnection (env : Env) (ctx : Ctx) (g : Graph) (path : Option Path) :
    Res Unit × Graph :=
  match getConnection env ctx g.db path, path with
  | .err e, _ => (.err e, g)
  | .panic, _ => (.panic, g)
  | .ok _, none => (.panic, g)
  | .ok connection, some p =>
    let fromKey := optPathString connection.from_
    let from1 := g.connectionsFrom.insert fromKey (removeConnection p (pathsAt g.connectionsFrom fromKey))
    let toKey := optPathString connection.to_
    let to1 := g.connectionsTo.insert toKey (removeConnection p (pathsAt g.connectionsTo toKey))
    let tx1 : Store := rangeIndexes (delConnectionIndexStep ctx p) g.indexes g.db
    let own : Path := connection.path.getD { gtype := "", gid := "" }
    match tx1.connections.lookup own.gtype with
    | none => (.panic, { g with db := tx1, connectionsFrom := from1, connectionsTo := to1 })
    | some bucket =>
      (.ok (),
        { g with
          db := { tx1 with connections := tx1.connections.insert own.gtype (bucket.Delete own.gid) }
          connectionsFrom := from1
          connectionsTo := to1 })

/-- The loop shared by `rangeFrom` and `rangeTo`: for each path read the record from the
connection bucket as the transaction holds it now, decode it (an absent record decodes
to the zero connection) and hand it to `fn`, which may change the state, stops the loop
by returning false, and may fault (`none`). -/
def rangePaths {σ : Type} (env : Env) (ctx : Ctx) (tx : σ → Store)
    (fn : σ → Connection → Option Bool × σ) : List Path → σ → Res Unit × σ
  | [], s => (.ok (), s)
  | path :: rest, s =>
    if ctx.done then (.err .cancelled, s)
    else
      match (tx s).connections.lookup path.gtype with
      | none => (.err .notFound, s)
      | some bucket =>
        match protoUnmarshalConnection env ((bucket.Get path.gid).getD []) with
        | none => (.err .unmarshal, s)
        | some connection =>
          match fn s connection with
          | (none, s') => (.panic, s')
          | (some false, s') => (.ok (), s')
          | (some true, s') => rangePaths env ctx tx fn rest s'

/-- The method `rangeTo`: the paths are read from `connectionsTo` once, before the loop. -/
def rangeTo {σ : Type} (env : Env) (ctx : Ctx) (graph : σ → Graph) (docPath : Option Path)
    (fn : σ → Connection → Option Bool × σ) (s : σ) : Res Unit × σ :=
  rangePaths env ctx (fun s => (graph s).db) fn
    (pathsAt (graph s).connectionsTo (optPathString docPath)) s

/-- The method `rangeFrom`. -/
def rangeFrom {σ : Type} (env : Env) (ctx : Ctx) (graph : σ → Graph)
    (docPath : Option Path) (fn : σ → Connection → Option Bool × σ) (s : σ) :
    Res Unit × σ :=
  rangePaths env ctx (fun s => (graph s).db) fn
    (pathsAt (graph s).connectionsFrom (optPathString docPath)) s

/-- The callback `delDoc` hands to `rangeFrom` and `rangeTo`: delete the connection at
the path of the record, drop the returned error and go on. -/
def delDocCascadeStep (env : Env) (ctx : Ctx) (g : Graph) (e : Connection) :
    Option Bool × Graph :=
  match delConnection env ctx g e.path with
  | (.panic, g') => (none, g')
  | (_, g') => (some true, g')

/-- The callback `delDoc` hands to `rangeIndexes`. -/
def delDocIndexStep (ctx : Ctx) (path : Path) (tx : Store) (i : Index) : Store × Bool :=
  if i.docs && i.gtype = path.gtype then
    match delIndexedDoc ctx tx i.name path.gid with
    | .ok tx' => (tx', true)
    | .error _ => (tx, true)
  else (tx, true)

/-- The method `delDoc`.  The errors `rangeFrom` and `rangeTo` return are dropped; a
fault inside them is not. -/
def delDoc (env : Env) (ctx : Ctx) (g : Graph) (path : Option Path) : Res Unit × Graph :=
  match getDoc env ctx g.db path, path with
  | .err e, _ => (.err e, g)
  | .panic, _ => (.panic, g)
  | .ok _, none => (.panic, g)
  | .ok doc, some p =>
    match rangeFrom env ctx id path (delDocCascadeStep env ctx) g with
    | (.panic, g1) => (.panic, g1)
    | (_, g1) =>
      match rangeTo env ctx id path (delDocCascadeStep env ctx) g1 with
      | (.panic, g2) => (.panic, g2)
      | (_, g2) =>
        let tx3 : Store := rangeIndexes (delDocIndexStep ctx p) g2.indexes g2.db
        let own : Path := doc.path.getD { gtype := "", gid := "" }
        match tx3.docs.lookup own.gtype with
        | none => (.panic, { g2 with db := tx3 })
        | some bucket =>
          (.ok (),
            { g2 with db := { tx3 with docs := tx3.docs.insert own.gtype (bucket.Delete own.gid) } })

/-- The function `db.Update` of bbolt around a closure: the closure runs on the
transaction; a returned error or a fault rolls the database back, and nothing rolls back
what the closure did to the memory of the `Graph`. -/
def dbUpdate {α : Type} (g : Graph) (fn : Graph → Res α × Graph) : Res α × Graph :=
  match fn g with
  | (.ok a, g') => (.ok a, g')
  | (.err e, g') => (.err e, { g' with db := g.db })
  | (.panic, g') => (.panic, { g' with db := g.db })

/-! ## Identity and authorization (`database/interceptors.go`) -/

/-- Modelled from the spec: the constant `userType`, the reserved gtype `user` of
identity docs; its declaration is not part of the sources. -/
def userType : String := "user"

/-- A doc constructor (`apipb.DocConstructor`). -/
structure DocConstructor where
  path : Option Path
  attributes : Option (List (String × Value))
  deriving DecidableEq, Repr

/-- The tail of the closure of `createIdentity`: take the next sequence number of the
bucket, stamp it on the doc and write the doc with `setDoc`. -/
def createIdentityWrite (env : Env) (st : Step) (ctx : Ctx) (newDock : Doc)
    (gtype : String) (bucket0 : Sub) (tx : Graph) : Res Doc × Graph :=
  setDoc env st ctx
    { tx with db := { tx.db with docs := tx.db.docs.insert gtype bucket0.NextSequence.2 } }
    { newDock with
      metadata := newDock.metadata.map (fun m => { m with sequence := bucket0.NextSequence.1 }) }

/-- The closure `createIdentity` runs inside `db.Update`: the bucket of the gtype is
created when it is absent (`CreateBucket` refuses the empty name). -/
def createIdentityTx (env : Env) (st : Step) (ctx : Ctx) (newDock : Doc) (gtype : String)
    (tx : Graph) : Res Doc × Graph :=
  match tx.db.docs.lookup gtype with
  | none =>
    if gtype.utf8ByteSize = 0 then (.err .bucketNameRequired, tx)
    else createIdentityWrite env st ctx newDock gtype Sub.empty tx
  | some bucket0 => createIdentityWrite env st ctx newDock gtype bucket0 tx

/-- The doc `createIdentity` builds from a constructor path. -/
def identityDoc (st : Step) (path : Path) (attributes : Option (List (String × Value))) :
    Doc :=
  { path := some path
    attributes := attributes
    metadata := some
      { createdAt := some st.now, updatedAt := some st.now, createdBy := some path,
        updatedBy := some path, version := 0, sequence := 0 } }

/-- The method `createIdentity`.  Reading `constructor.Path.Gid` through a nil pointer
faults; the write runs in its own `db.Update`. -/
def createIdentity (env : Env) (st : Step) (ctx : Ctx) (g : Graph)
    (constructor : DocConstructor) : Res Doc × Graph :=
  match constructor.path with
  | none => (.panic, g)
  | some cpath =>
    dbUpdate g
      (createIdentityTx env st ctx
        (identityDoc st (ensurePath st (some cpath)) constructor.attributes)
        (ensurePath st (some cpath)).gtype)

/-- The method `userToContext`: the identity doc is looked up under `user/<email>`,
created from the payload when the read gives none, and placed in the context.  The
payload comes from a JSON document, on which `structpb.NewStruct` does not fail. -/
def userToContext (env : Env) (st : Step) (ctx : Ctx) (g : Graph)
    (payload : List (String × Value)) : Res (Ctx × Doc) × Graph :=
  match mapGet payload "email" with
  | some (.string email) =>
    match getDoc env ctx g.db (some { gtype := userType, gid := email }) with
    | .ok doc => (.ok ({ ctx with identity := some doc }, doc), g)
    | _ =>
      match createIdentity env st ctx g
          { path := some { gtype := userType, gid := email }, attributes := some payload } with
      | (.ok doc, g') => (.ok ({ ctx with identity := some doc }, doc), g')
      | (.err e, g') => (.err e, g')
      | (.panic, g') => (.panic, g')
  | _ => (.err .emailMissing, g)

/-- The method `isGraphikAdmin`: the string under `email` in the attributes of the
identity doc is looked up in the root users. -/
def isGraphikAdmin (g : Graph) (user : Doc) : Bool :=
  match user.attributes with
  | none => false
  | some fields => g.rootUsers.contains (getStringValue (mapGet fields "email"))

/-- The `req` argument of `check`: a value that is no protobuf message, or a message
with the map its JSON form parses into (`none` when it does not parse into a map). -/
inductive ReqBody where
  | notMessage
  | message (json : Option (List (String × Value)))
  deriving DecidableEq, Repr

/-- The request `check` builds for the authorizers; `none` when the JSON form of the
message does not parse, in which case `check` answers `Internal`. -/
def buildRequest (st : Step) (method : String) (user : Doc) (req : ReqBody) :
    Option Request :=
  match req with
  | .notMessage =>
    some { method := method, user := some user, timestamp := st.now, request := none }
  | .message (some m) =>
    some { method := method, user := some user, timestamp := st.now, request := some m }
  | .message none => none

/-- The programs `rangeAuthorizers` collects: the program of every cached authorizer. -/
def authorizerPrograms (g : Graph) : List (Option (Program Request)) :=
  g.authorizers.map (fun a => a.program)

/-- The method `check`. -/
def check (env : Env) (st : Step) (ctx : Ctx) (g : Graph) (method : String)
    (req : ReqBody) (payload : List (String × Value)) : Res Ctx × Graph :=
  match userToContext env st { ctx with method := method } g payload with
  | (.err _, g') => (.err .unauthenticated, g')
  | (.panic, g') => (.panic, g')
  | (.ok (ctx', user), g') =>
    if isGraphikAdmin g' user then (.ok ctx', g')
    else
      match buildRequest st method user req with
      | none => (.err .internal, g')
      | some request =>
        match AuthVM.Eval request (authorizerPrograms g') with
        | .err e => (.err e, g')
        | .panic => (.panic, g')
        | .ok false => (.err .permissionDenied, g')
        | .ok true => (.ok ctx', g')

/-! ## Index descriptors (`database/db.go`) -/

/-- The statement `g.indexes.Set(name, ind, 0)`: the cache holds one entry for a name. -/
def cacheSet : List Index → Index → List Index
  | [], i => [i]
  | j :: rest, i => if j.name = i.name then i :: rest else j :: cacheSet rest i

/-- The callback of `cacheIndexes` run over the entries of the bucket `indexes`: decode
the descriptor, compile its expression with the doc compiler and put it in the cache.
The first failure ends the loop; the entries cached before it stay. -/
def cacheIndexesLoop (env : Env) : List (String × Bytes) → List Index →
    Except Err Unit × List Index
  | [], cache => (.ok (), cache)
  | (_, v) :: rest, cache =>
    match protoUnmarshalIndex env v with
    | none => (.error .unmarshal, cache)
    | some i =>
      match DocVM.Program env i.expression with
      | none => (.error .compile, cache)
      | some _ => cacheIndexesLoop env rest (cacheSet cache i)

/-- The method `cacheIndexes`.  It opens its own read transaction with `g.db.View`, which
sees the database as last committed: `committed` is that state. -/
def cacheIndexes (env : Env) (committed : Store) (cache : List Index) :
    Except Err Unit × List Index :=
  cacheIndexesLoop env committed.indexes.kv.entries cache

/-- The statement `parent.CreateBucketIfNotExists(name)` whose results are dropped. -/
def createBucketDropErr (parent : Bucket Sub) (name : String) : Bucket Sub :=
  match createBucketIfNotExists parent name with
  | .ok (_, parent') => parent'
  | .error _ => parent

/-- The method `setIndex`, run on the transaction in `g.db` while the database as last
committed is `committed`.  It puts the descriptor, creates the index buckets and
refreshes the cache; it reads no doc and no connection. -/
def setIndex (env : Env) (ctx : Ctx) (committed : Store) (g : Graph) (i : Index) :
    Res Index × Graph :=
  if ctx.done then (.err .cancelled, g)
  else
    let indexBucket : Sub := g.db.indexes.NextSequence.2
    let i : Index := { i with sequence := g.db.indexes.NextSequence.1 }
    match env.marshalIndex i with
    | none => (.err .marshal, { g with db := { g.db with indexes := indexBucket } })
    | some bits =>
      match indexBucket.Put i.name bits with
      | .error e => (.err e, { g with db := { g.db with indexes := indexBucket } })
      | .ok indexBucket' =>
        let tx1 : Store := { g.db with indexes := indexBucket' }
        let tx2 : Store :=
          if i.connections then
            { tx1 with indexConnections := createBucketDropErr tx1.indexConnections i.name }
          else tx1
        let tx3 : Store :=
          if i.docs then { tx2 with indexDocs := createBucketDropErr tx2.indexDocs i.name }
          else tx2
        match cacheIndexes env committed g.indexes with
        | (.error e, cache) => (.err e, { g with db := tx3, indexes := cache })
        | (.ok (), cache) => (.ok i, { g with db := tx3, indexes := cache })

/-! ## Batches and the change feed -/

/-- One entry of `Change.DocChanges`. -/
structure DocChange where
  before : Option Doc
  after : Option Doc
  deriving DecidableEq, Repr

/-- One entry of `Change.ConnectionChanges`. -/
structure ConnectionChange where
  before : Option Connection
  after : Option Connection
  deriving DecidableEq, Repr

/-- A change event (`apipb.Change`). -/
structure Change where
  method : String
  identity : Option Doc
  timestamp : Option Nat
  docChanges : List DocChange
  connectionChanges : List ConnectionChange
  deriving DecidableEq, Repr

/-- What an operation does to the outside, in the order it does it: publishing a change
on a topic of the bus, committing its transaction, rolling it back. -/
inductive Effect where
  | publish (channel : String) (change : Change)
  | commit
  | rollback
  deriving DecidableEq, Repr

/-- The constant `changeChannel`. -/
def changeChannel : String := "changes"

/-- The function `db.Update` with the effects in order: what the closure did, then the
commit, or the rollback when the closure returned an error or faulted. -/
def dbUpdateT {α : Type} (g : Graph) (fn : Graph → Res α × Graph × List Effect) :
    Res α × Graph × List Effect :=
  match fn g with
  | (.ok a, g', effects) => (.ok a, g', effects ++ [Effect.commit])
  | (.err e, g', effects) => (.err e, { g' with db := g.db }, effects ++ [Effect.rollback])
  | (.panic, g', effects) => (.panic, { g' with db := g.db }, effects ++ [Effect.rollback])

/-- The loop of the closure of `setConnections`: the connection at position `i` is
written with the clock reading and uuid `steps i`; the first error ends the loop. -/
def setConnectionsLoop (env : Env) (steps : Nat → Step) (ctx : Ctx) :
    Nat → List Connection → Graph → List Connection → Res (List Connection) × Graph
  | _, [], tx, done => (.ok done, tx)
  | i, connection :: rest, tx, done =>
    match setConnection env (steps i) ctx tx connection with
    | (.ok e, tx') => setConnectionsLoop env steps ctx (i + 1) rest tx' (done ++ [e])
    | (.err err, tx') => (.err err, tx')
    | (.panic, tx') => (.panic, tx')

/-- The method `setConnections`. -/
def setConnections (env : Env) (steps : Nat → Step) (ctx : Ctx) (g : Graph)
    (connections : List Connection) : Res (List Connection) × Graph :=
  if ctx.done then (.err .cancelled, g)
  else
    match dbUpdate g (fun tx => setConnectionsLoop env steps ctx 0 connections tx []) with
    | (.ok edgs, g') => (.ok (env.sortConnections edgs), g')
    | (.err e, g') => (.err e, g')
    | (.panic, g') => (.panic, g')

/-! ## Query layer and API (`graph/graph.go`, `database/db.go`) -/

/-- The constant `apipb.Any`, the wildcard gtype. -/
def anyType : String := "*"

/-- A search filter (`apipb.Filter`). -/
structure Filter where
  gtype : String
  expressions : List String
  limit : Int
  deriving DecidableEq, Repr

/-- A patch (`apipb.Patch`). -/
structure Patch where
  path : Option Path
  attributes : Option (List (String × Value))
  deriving DecidableEq, Repr

/-- The method `(*DocVM).Programs`: empty expressions are skipped, the first expression
that does not compile fails the call. -/
def DocVM.Programs (env : Env) : List String → Option (List (Graphik.Program Doc))
  | [] => some []
  | exp :: rest =>
    if exp = "" then DocVM.Programs env rest
    else
      match DocVM.Program env exp with
      | none => none
      | some program =>
        match DocVM.Programs env rest with
        | none => none
        | some programs => some (program :: programs)

/-- Insertion of a string into an ordered list. -/
def insertString (a : String) : List String → List String
  | [] => [a]
  | b :: rest => if strLess a b then a :: b :: rest else b :: insertString a rest

/-- The function `sort.Strings`. -/
def sortStrings (l : List String) : List String := l.foldr insertString []

/-- The names `DocTypes` returns: the sub-buckets of `docs`, sorted. -/
def docTypes (tx : Store) : List String := sortStrings tx.docs.keys

/-- The call `bucket.ForEach` of `rangeDocs`: each value is decoded and handed to `fn`;
when `fn` returns false the callback returns `DONE`, which `rangeDocs` turns into a nil
error, so the scan of this bucket ends without error. -/
def forEachDoc {σ : Type} (env : Env) (ctx : Ctx) (fn : σ → Doc → σ × Bool) :
    List (String × Bytes) → σ → Res Unit × σ
  | [], s => (.ok (), s)
  | (_, v) :: rest, s =>
    if ctx.done then (.err .cancelled, s)
    else
      match protoUnmarshalDoc env v with
      | none => (.err .unmarshal, s)
      | some doc =>
        match fn s doc with
        | (s', true) => forEachDoc env ctx fn rest s'
        | (s', false) => (.ok (), s')

/-- The method `rangeDocs` called with a gtype other than the wildcard. -/
def rangeDocsType {σ : Type} (env : Env) (ctx : Ctx) (tx : Store) (gType : String)
    (fn : σ → Doc → σ × Bool) (s : σ) : Res Unit × σ :=
  if ctx.done then (.err .cancelled, s)
  else
    match tx.docs.lookup gType with
    | none => (.err .notFound, s)
    | some bucket => forEachDoc env ctx fn bucket.kv.entries s

/-- The loop of `rangeDocs` over the doc types under the wildcard: each type is scanned
by a call of `rangeDocs` of its own, whose `DONE` does not reach this loop, so the next
type is scanned even after `fn` returned false.  A type that is itself named `*` makes
the call recurse without end, which is modelled as a fault. -/
def rangeDocsAll {σ : Type} (env : Env) (ctx : Ctx) (tx : Store) (fn : σ → Doc → σ × Bool) :
    List String → σ → Res Unit × σ
  | [], s => (.ok (), s)
  | docType :: rest, s =>
    if docType = anyType then (.panic, s)
    else
      match rangeDocsType env ctx tx docType fn s with
      | (.ok (), s') => rangeDocsAll env ctx tx fn rest s'
      | (.err e, s') => (.err e, s')
      | (.panic, s') => (.panic, s')

/-- The method `rangeDocs`. -/
def rangeDocs {σ : Type} (env : Env) (ctx : Ctx) (tx : Store) (gType : String)
    (fn : σ → Doc → σ × Bool) (s : σ) : Res Unit × σ :=
  if ctx.done then (.err .cancelled, s)
  else if gType = anyType then rangeDocsAll env ctx tx fn (docTypes tx) s
  else rangeDocsType env ctx tx gType fn s

/-- The callback of `SearchDocs`: a doc that passes every program is appended; an
evaluation error skips the doc; the scan goes on while fewer than `limit` docs are
collected, which is tested after the append. -/
def searchDocsStep (programs : List (Program Doc)) (limit : Int) (docs : List Doc)
    (doc : Doc) : List Doc × Bool :=
  match DocVM.Eval doc (programs.map some) with
  | .ok true => (docs ++ [doc], decide (((docs ++ [doc]).length : Int) < limit))
  | .ok false => (docs, decide ((docs.length : Int) < limit))
  | .err _ => (docs, true)
  | .panic => (docs, true)

/-- The method `SearchDocs`. -/
def SearchDocs (env : Env) (ctx : Ctx) (g : Graph) (filter : Filter) : Res (List Doc) :=
  match DocVM.Programs env filter.expressions with
  | none => .err .compile
  | some programs =>
    match rangeDocs env ctx g.db filter.gtype (searchDocsStep programs filter.limit) [] with
    | (.ok (), docs) => .ok (env.sortDocs docs)
    | (.err e, _) => .err e
    | (.panic, _) => .panic

/-- The method `GetDoc`. -/
def GetDoc (env : Env) (ctx : Ctx) (g : Graph) (path : Option Path) : Res Doc :=
  if ctx.done then .err .cancelled
  else
    match ctx.identity with
    | none => .err .unauthenticated
    | some _ => getDoc env ctx g.db path

/-- The statement `m[k] = v` on a non-nil Go map. -/
def mapSet : List (String × Value) → String → Value → List (String × Value)
  | [], k, v => [(k, v)]
  | (k', v') :: rest, k, v =>
    if k' = k then (k, v) :: rest else (k', v') :: mapSet rest k v

/-- The loop `for k, v := range fields { target[k] = v }`: with no field nothing is
written; writing into a nil map faults (`none`). -/
def patchFields (target : Option (List (String × Value))) (fields : List (String × Value)) :
    Option (Option (List (String × Value))) :=
  match fields, target with
  | [], _ => some target
  | _ :: _, none => none
  | f :: fs, some m => some (some ((f :: fs).foldl (fun acc kv => mapSet acc kv.1 kv.2) m))

/-- The change `PatchDoc` publishes.  `Before` and `After` hold the same pointer, the
doc that was patched in place and written. -/
def patchDocChange (ctx : Ctx) (doc : Doc) (updatedAt : Option Nat) : Change :=
  { method := ctx.method, identity := ctx.identity, timestamp := updatedAt,
    docChanges := [{ before := some doc, after := some doc }], connectionChanges := [] }

/-- The closure `PatchDoc` runs inside `db.Update`: read the doc, merge the fields of
the patch into its attribute map, write it with `setDoc` and publish the change.
Reading `doc.Metadata.UpdatedAt` of a doc without metadata faults. -/
def patchDocTx (env : Env) (st : Step) (ctx : Ctx) (value : Patch) (tx : Graph) :
    Res Doc × Graph × List Effect :=
  match getDoc env ctx tx.db value.path with
  | .err e => (.err e, tx, [])
  | .panic => (.panic, tx, [])
  | .ok doc =>
    match patchFields doc.attributes (value.attributes.getD []) with
    | none => (.panic, tx, [])
    | some attributes =>
      match setDoc env st ctx tx { doc with attributes := attributes } with
      | (.err e, tx') => (.err e, tx', [])
      | (.panic, tx') => (.panic, tx', [])
      | (.ok doc', tx') =>
        match doc'.metadata with
        | none => (.panic, tx', [])
        | some m =>
          (.ok doc', tx', [Effect.publish changeChannel (patchDocChange ctx doc' m.updatedAt)])

/-- The method `PatchDoc`. -/
def PatchDoc (env : Env) (st : Step) (ctx : Ctx) (g : Graph) (value : Patch) :
    Res Doc × Graph × List Effect :=
  dbUpdateT g (patchDocTx env st ctx value)

/-- The closure `PatchConnection` runs inside `db.Update`.  The record is decoded into
the local `e`, but the fields of the patch and the metadata are written through the
variable `connection`, which is still nil: with a field in the patch the write
`connection.Attributes.GetFields()[k] = v` faults, and without one the write
`connection.GetMetadata().UpdatedAt = ...` does.  `setConnection` is never reached. -/
def patchConnectionTx (env : Env) (value : Patch) (tx : Graph) :
    Res Connection × Graph × List Effect :=
  match value.path with
  | none => (.panic, tx, [])
  | some p =>
    match tx.db.connections.lookup p.gtype with
    | none => (.err .notFound, tx, [])
    | some bucket =>
      match protoUnmarshalConnection env ((bucket.Get p.gid).getD []) with
      | none => (.err .unmarshal, tx, [])
      | some _ => (.panic, tx, [])

/-- The method `PatchConnection`. -/
def PatchConnection (env : Env) (g : Graph) (value : Patch) :
    Res Connection × Graph × List Effect :=
  dbUpdateT g (patchConnectionTx env value)

/-- The doc `CreateDocs` builds from a constructor before it stamps the sequence. -/
def constructedDoc (now : Nat) (identity : Doc) (path : Path)
    (attributes : Option (List (String × Value))) (sequence : Nat) : Doc :=
  { path := some path
    attributes := attributes
    metadata := some
      { createdAt := some now, updatedAt := some now, createdBy := none,
        updatedBy := identity.path, version := 0, sequence := sequence } }

/-- The loop of the closure of `CreateDocs`.  The constructor at position `i` takes its
uuid and the clock reading of its `setDoc` from `steps i`.  Writing the uuid through a
nil `constructor.Path` faults. -/
def createDocsLoop (env : Env) (now : Nat) (steps : Nat → Step) (ctx : Ctx)
    (identity : Doc) :
    Nat → List DocConstructor → Graph → List Doc → Res (List Doc) × Graph
  | _, [], tx, docs => (.ok docs, tx)
  | i, constructor :: rest, tx, docs =>
    match constructor.path with
    | none => (.panic, tx)
    | some cpath =>
      let path : Path := ensurePath (steps i) (some cpath)
      match bucketOrCreate tx.db.docs path.gtype with
      | .error e => (.err e, tx)
      | .ok (bucket, docs1) =>
        let tx1 : Graph :=
          { tx with db := { tx.db with docs := docs1.insert path.gtype bucket.NextSequence.2 } }
        match setDoc env (steps i) ctx tx1
            (constructedDoc now identity path constructor.attributes bucket.NextSequence.1) with
        | (.ok doc, tx2) =>
          createDocsLoop env now steps ctx identity (i + 1) rest tx2 (docs ++ [doc])
        | (.err e, tx2) => (.err e, tx2)
        | (.panic, tx2) => (.panic, tx2)

/-- The change `CreateDocs` publishes. -/
def createDocsChange (now : Nat) (ctx : Ctx) (identity : Doc) (docs : List Doc) : Change :=
  { method := ctx.method, identity := some identity, timestamp := some now,
    docChanges := docs.map (fun d => { before := none, after := some d }),
    connectionChanges := [] }

/-- The method `CreateDocs`; `now` is the clock reading at entry. -/
def CreateDocs (env : Env) (now : Nat) (steps : Nat → Step) (ctx : Ctx) (g : Graph)
    (constructors : List DocConstructor) : Res (List Doc) × Graph × List Effect :=
  match ctx.identity with
  | none => (.err .unauthenticated, g, [])
  | some identity =>
    if ctx.done then (.err .cancelled, g, [])
    else
      match dbUpdateT g (fun tx =>
          ((createDocsLoop env now steps ctx identity 0 constructors tx []).1,
            (createDocsLoop env now steps ctx identity 0 constructors tx []).2, [])) with
      | (.ok docs, g', effects) =>
        (.ok (env.sortDocs docs), g',
          effects ++ [Effect.publish changeChannel (createDocsChange now ctx identity docs)])
      | (.err e, g', effects) => (.err e, g', effects)
      | (.panic, g', effects) => (.panic, g', effects)

/-- The method `CreateDoc`: `CreateDocs` on the one constructor, then the first doc of
the result. -/
def CreateDoc (env : Env) (now : Nat) (steps : Nat → Step) (ctx : Ctx) (g : Graph)
    (constructor : DocConstructor) : Res Doc × Graph × List Effect :=
  match CreateDocs env now steps ctx g [constructor] with
  | (.ok (doc :: _), g', effects) => (.ok doc, g', effects)
  | (.ok [], g', effects) => (.panic, g', effects)
  | (.err e, g', effects) => (.err e, g', effects)
  | (.panic, g', effects) => (.panic, g', effects)

/-- The closure `DelDoc` runs inside `db.Update`: read the doc, then `delDoc`. -/
def delDocTx (env : Env) (ctx : Ctx) (path : Option Path) (tx : Graph) :
    Res Doc × Graph × List Effect :=
  match getDoc env ctx tx.db path with
  | .err e => (.err e, tx, [])
  | .panic => (.panic, tx, [])
  | .ok n =>
    match delDoc env ctx tx path with
    | (.ok (), tx') => (.ok n, tx', [])
    | (.err e, tx') => (.err e, tx', [])
    | (.panic, tx') => (.panic, tx', [])

/-- The change `DelDoc` publishes. -/
def delDocChange (now : Nat) (ctx : Ctx) (n : Doc) : Change :=
  { method := ctx.method, identity := ctx.identity, timestamp := some now,
    docChanges := [{ before := some n, after := none }], connectionChanges := [] }

/-- The method `DelDoc`; `now` is the clock reading of the published change. -/
def DelDoc (env : Env) (now : Nat) (ctx : Ctx) (g : Graph) (path : Option Path) :
    Res Unit × Graph × List Effect :=
  match dbUpdateT g (delDocTx env ctx path) with
  | (.ok n, g', effects) =>
    (.ok (), g', effects ++ [Effect.publish changeChannel (delDocChange now ctx n)])
  | (.err e, g', effects) => (.err e, g', effects)
  | (.panic, g', effects) => (.panic, g', effects)

/-- A filter over the connections of one doc (`apipb.ConnectionFilter`). -/
structure ConnectionFilter where
  docPath : Option Path
  gtype : String
  expressions : List String
  limit : Int
  deriving DecidableEq, Repr

/-- The filter of `Me` (`apipb.MeFilter`): its two parts are pointers and may be nil. -/
structure MeFilter where
  connectionsFrom : Option Filter
  connectionsTo : Option Filter
  deriving DecidableEq, Repr

/-- One connection of a doc with its two endpoint docs (`apipb.ConnectionDetail`), with the
fields `Me` fills. -/
structure ConnectionDetail where
  path : Option Path
  attributes : Option (List (String × Value))
  from_ : Option Doc
  to_ : Option Doc
  metadata : Option Metadata
  deriving DecidableEq, Repr

/-- A doc with its connections (`apipb.DocDetail`). -/
structure DocDetail where
  path : Option Path
  attributes : Option (List (String × Value))
  metadata : Option Metadata
  connectionsTo : List ConnectionDetail
  connectionsFrom : List ConnectionDetail
  deriving DecidableEq, Repr

/-- Modelled from the spec: `ConnectionVM.Programs`, whose file is not part of the
sources; it is taken to do for connection expressions what `DocVM.Programs` does for doc
expressions. -/
def ConnectionVM.Programs (env : Env) : List String → Option (List (Graphik.Program Connection))
  | [] => some []
  | exp :: rest =>
    if exp = "" then ConnectionVM.Programs env rest
    else
      match ConnectionVM.Program env exp with
      | none => none
      | some program =>
        match ConnectionVM.Programs env rest with
        | none => none
        | some programs => some (program :: programs)

/-- The callback of `ConnectionsFrom` and `ConnectionsTo`: unless the filter names the
wildcard, a connection of another gtype is skipped; an evaluation error skips the
connection; a connection that passes is appended; the scan goes on while fewer than
`limit` connections are collected. -/
def connectionsStep (filter : ConnectionFilter) (programs : List (Program Connection))
    (connections : List Connection) (connection : Connection) :
    Option Bool × List Connection :=
  if filter.gtype ≠ "*" ∧ (connection.path.map (fun p => p.gtype)).getD "" ≠ filter.gtype then
    (some true, connections)
  else
    match ConnectionVM.Eval connection (programs.map some) with
    | .err _ => (some true, connections)
    | .panic => (none, connections)
    | .ok true =>
      (some (decide (((connections ++ [connection]).length : Int) < filter.limit)),
        connections ++ [connection])
    | .ok false => (some (decide ((connections.length : Int) < filter.limit)), connections)

/-- The method `ConnectionsFrom`. -/
def ConnectionsFrom (env : Env) (ctx : Ctx) (g : Graph) (filter : ConnectionFilter) :
    Res (List Connection) :=
  match ConnectionVM.Programs env filter.expressions with
  | none => .err .compile
  | some programs =>
    match rangeFrom env ctx (fun _ => g) filter.docPath (connectionsStep filter programs)
        [] with
    | (.ok (), connections) => .ok (env.sortConnections connections)
    | (.err e, _) => .err e
    | (.panic, _) => .panic

/-- The method `ConnectionsTo`. -/
def ConnectionsTo (env : Env) (ctx : Ctx) (g : Graph) (filter : ConnectionFilter) :
    Res (List Connection) :=
  match ConnectionVM.Programs env filter.expressions with
  | none => .err .compile
  | some programs =>
    match rangeTo env ctx (fun _ => g) filter.docPath (connectionsStep filter programs)
        [] with
    | (.ok (), connections) => .ok (env.sortConnections connections)
    | (.err e, _) => .err e
    | (.panic, _) => .panic

/-- The loop of `Me` over the connections a filter selected: each connection is paired
with its `To` doc and its `From` doc, read in that order. -/
def connectionDetails (env : Env) (ctx : Ctx) (tx : Store) :
    List Connection → List ConnectionDetail → Res (List ConnectionDetail)
  | [], details => .ok details
  | f :: rest, details =>
    match getDoc env ctx tx f.to_ with
    | .err e => .err e
    | .panic => .panic
    | .ok toDoc =>
      match getDoc env ctx tx f.from_ with
      | .err e => .err e
      | .panic => .panic
      | .ok fromDoc =>
        connectionDetails env ctx tx rest
          (details ++ [{ path := f.path, attributes := f.attributes, from_ := some fromDoc,
                         to_ := some toDoc, metadata := f.metadata }])

/-- The getter `GetGtype` on a possibly nil filter. -/
def Filter.getGtype (f : Option Filter) : String := (f.map (fun x => x.gtype)).getD ""

/-- The getter `GetExpressions` on a possibly nil filter. -/
def Filter.getExpressions (f : Option Filter) : List String :=
  (f.map (fun x => x.expressions)).getD []

/-- The getter `GetLimit` on a possibly nil filter. -/
def Filter.getLimit (f : Option Filter) : Int := (f.map (fun x => x.limit)).getD 0

/-- The method `Me`.  The outgoing connections are selected when the part
`ConnectionsFrom` of the filter is set, the incoming ones when the part `ConnectionsTo`
is set; both selections take gtype, expressions and limit from `GetConnectionsFrom()`.
Reading a field of a nil filter faults. -/
def Me (env : Env) (ctx : Ctx) (g : Graph) (filter : Option MeFilter) : Res DocDetail :=
  match ctx.identity with
  | none => .err .unauthenticated
  | some identity =>
    match filter with
    | none => .panic
    | some filter =>
      let outgoing : Res (List ConnectionDetail) :=
        match filter.connectionsFrom with
        | none => .ok []
        | some _ =>
          match ConnectionsFrom env ctx g
              { docPath := identity.path
                gtype := Filter.getGtype filter.connectionsFrom
                expressions := Filter.getExpressions filter.connectionsFrom
                limit := Filter.getLimit filter.connectionsFrom } with
          | .err e => .err e
          | .panic => .panic
          | .ok connections => connectionDetails env ctx g.db connections []
      match outgoing with
      | .err e => .err e
      | .panic => .panic
      | .ok detailsFrom =>
        let incoming : Res (List ConnectionDetail) :=
          match filter.connectionsTo with
          | none => .ok []
          | some _ =>
            match ConnectionsTo env ctx g
                { docPath := identity.path
                  gtype := Filter.getGtype filter.connectionsFrom
                  expressions := Filter.getExpressions filter.connectionsFrom
                  limit := Filter.getLimit filter.connectionsFrom } with
            | .err e => .err e
            | .panic => .panic
            | .ok connections => connectionDetails env ctx g.db connections []
        match incoming with
        | .err e => .err e
        | .panic => .panic
        | .ok detailsTo =>
          .ok { path := identity.path, attributes := identity.attributes,
                metadata := identity.metadata, connectionsTo := detailsTo,
                connectionsFrom := detailsFrom }

/-! ## Start-up scan and cursor scans (`graph/graph.go`, `database/db.go`) -/

/-- The names `ConnectionTypes` returns: the sub-buckets of `connections`, sorted. -/
def connectionTypes (tx : Store) : List String := sortStrings tx.connections.keys

/-- The call `bucket.ForEach` of `rangeConnections`: each value is decoded and handed to
`fn`; when `fn` returns false the callback returns `DONE`, which `rangeConnections` turns
into a nil error. -/
def forEachConnection {σ : Type} (env : Env) (ctx : Ctx) (fn : σ → Connection → σ × Bool) :
    List (String × Bytes) → σ → Res Unit × σ
  | [], s => (.ok (), s)
  | (_, v) :: rest, s =>
    if ctx.done then (.err .cancelled, s)
    else
      match protoUnmarshalConnection env v with
      | none => (.err .unmarshal, s)
      | some connection =>
        match fn s connection with
        | (s', true) => forEachConnection env ctx fn rest s'
        | (s', false) => (.ok (), s')

/-- The method `rangeConnections` called with a gtype other than the wildcard. -/
def rangeConnectionsType {σ : Type} (env : Env) (ctx : Ctx) (tx : Store) (gType : String)
    (fn : σ → Connection → σ × Bool) (s : σ) : Res Unit × σ :=
  if ctx.done then (.err .cancelled, s)
  else
    match tx.connections.lookup gType with
    | none => (.err .notFound, s)
    | some bucket => forEachConnection env ctx fn bucket.kv.entries s

/-- The loop of `rangeConnections` over the connection types under the wildcard.  A type
that is itself named `*` makes the call recurse without end, which is modelled as a
fault. -/
def rangeConnectionsAll {σ : Type} (env : Env) (ctx : Ctx) (tx : Store)
    (fn : σ → Connection → σ × Bool) : List String → σ → Res Unit × σ
  | [], s => (.ok (), s)
  | connectionType :: rest, s =>
    if connectionType = anyType then (.panic, s)
    else
      match rangeConnectionsType env ctx tx connectionType fn s with
      | (.ok (), s') => rangeConnectionsAll env ctx tx fn rest s'
      | (.err e, s') => (.err e, s')
      | (.panic, s') => (.panic, s')

/-- The method `rangeConnections`. -/
def rangeConnections {σ : Type} (env : Env) (ctx : Ctx) (tx : Store) (gType : String)
    (fn : σ → Connection → σ × Bool) (s : σ) : Res Unit × σ :=
  if ctx.done then (.err .cancelled, s)
  else if gType = anyType then rangeConnectionsAll env ctx tx fn (connectionTypes tx) s
  else rangeConnectionsType env ctx tx gType fn s

/-- The two adjacency maps while `NewGraph` fills them.  A slice holds the `Path` pointer of
each scanned record, which is nil when the record carries no path. -/
structure Adjacency where
  connectionsTo : Bucket (List (Option Path))
  connectionsFrom : Bucket (List (Option Path))
  deriving DecidableEq

/-- The statement `m[key] = append(m[key], p)` on a map of pointer slices. -/
def appendPointer (m : Bucket (List (Option Path))) (key : String) (p : Option Path) :
    Bucket (List (Option Path)) :=
  m.insert key ((m.lookup key).getD [] ++ [p])

/-- The callback `NewGraph` hands to `rangeConnections`: the path of the record is
appended to `connectionsFrom` under its `From` and to `connectionsTo` under its `To`;
the flag `Directed` is not read. -/
def newGraphStep (a : Adjacency) (e : Connection) : Adjacency × Bool :=
  ({ connectionsFrom := appendPointer a.connectionsFrom (optPathString e.from_) e.path
     connectionsTo := appendPointer a.connectionsTo (optPathString e.to_) e.path }, true)

/-- The start-up scan of `NewGraph` over the database file it opened: the adjacency maps
start empty and are filled by one pass of `rangeConnections` over every connection
type. -/
def NewGraph (env : Env) (ctx : Ctx) (db : Store) : Res Adjacency :=
  match rangeConnections env ctx db anyType newGraphStep
      { connectionsTo := Bucket.empty, connectionsFrom := Bucket.empty } with
  | (.ok (), a) => .ok a
  | (.err e, _) => .err e
  | (.panic, _) => .panic

/-- The position `Cursor.Seek(seek)` moves to in a bucket: the entries from the first key
that is not below `seek` on, the key `seek` itself included when it is present. -/
def seekEntries (bucket : Sub) (seek : String) : List (String × Bytes) :=
  bucket.kv.entries.dropWhile (fun kv => strLess kv.1 seek)

/-- The cursor loop of `rangeSeekDocs`: each value is decoded, its key becomes `lastKey`
and the doc is handed to `fn`; the loop ends with `DONE` when `fn` returns false. -/
def rangeSeekDocsLoop {σ : Type} (env : Env) (ctx : Ctx) (fn : σ → Doc → σ × Bool) :
    List (String × Bytes) → String → σ → (String × Res Unit) × σ
  | [], lastKey, s => ((lastKey, .ok ()), s)
  | (k, v) :: rest, lastKey, s =>
    if ctx.done then ((lastKey, .err .cancelled), s)
    else
      match protoUnmarshalDoc env v with
      | none => ((lastKey, .err .unmarshal), s)
      | some doc =>
        match fn s doc with
        | (s', true) => rangeSeekDocsLoop env ctx fn rest k s'
        | (s', false) => ((k, .ok ()), s')

/-- The method `rangeSeekDocs`: the scan runs over the bucket of the index when an index
is named and over the bucket of the gtype otherwise; it returns the last key it
examined. -/
def rangeSeekDocs {σ : Type} (env : Env) (ctx : Ctx) (tx : Store) (gType seek index : String)
    (fn : σ → Doc → σ × Bool) (s : σ) : (String × Res Unit) × σ :=
  if ctx.done then ((seek, .err .cancelled), s)
  else
    match (if index ≠ "" then tx.indexDocs.lookup index else tx.docs.lookup gType) with
    | none => (("", .err .notFound), s)
    | some bucket => rangeSeekDocsLoop env ctx fn (seekEntries bucket seek) "" s

/-- The cursor loop of `rangeSeekConnections`. -/
def rangeSeekConnectionsLoop {σ : Type} (env : Env) (ctx : Ctx)
    (fn : σ → Connection → σ × Bool) :
    List (String × Bytes) → String → σ → (String × Res Unit) × σ
  | [], lastKey, s => ((lastKey, .ok ()), s)
  | (k, v) :: rest, lastKey, s =>
    if ctx.done then ((lastKey, .err .cancelled), s)
    else
      match protoUnmarshalConnection env v with
      | none => ((lastKey, .err .unmarshal), s)
      | some connection =>
        match fn s connection with
        | (s', true) => rangeSeekConnectionsLoop env ctx fn rest k s'
        | (s', false) => ((k, .ok ()), s')

/-- The method `rangeSeekConnections`. -/
def rangeSeekConnections {σ : Type} (env : Env) (ctx : Ctx) (tx : Store)
    (gType seek index : String) (fn : σ → Connection → σ × Bool) (s : σ) :
    (String × Res Unit) × σ :=
  if ctx.done then ((seek, .err .cancelled), s)
  else
    match (if index ≠ "" then tx.indexConnections.lookup index
        else tx.connections.lookup gType) with
    | none => (("", .err .notFound), s)
    | some bucket => rangeSeekConnectionsLoop env ctx fn (seekEntries bucket seek) "" s

/-! ## A concrete environment for examples

A length-prefixed wire format stands in for protobuf and a two-expression compiler
stands in for cel-go, so that the operations can be run on concrete inputs. -/

namespace Wire

/-- Encode a string: its length, then its characters. -/
def putString (s : String) : Bytes := s.data.length :: s.data.map Char.toNat

/-- Decode a string. -/
def getString : Bytes → Option (String × Bytes)
  | [] => none
  | n :: rest =>
    if rest.length < n then none
    else some (String.mk ((rest.take n).map Char.ofNat), rest.drop n)

/-- Encode an optional field. -/
def putOption {α : Type} (f : α → Bytes) : Option α → Bytes
  | none => [0]
  | some a => 1 :: f a

/-- Decode an optional field. -/
def getOption {α : Type} (f : Bytes → Option (α × Bytes)) : Bytes → Option (Option α × Bytes)
  | 0 :: rest => some (none, rest)
  | 1 :: rest =>
    match f rest with
    | some (a, r) => some (some a, r)
    | none => none
  | _ => none

/-- Encode a number. -/
def putNat (n : Nat) : Bytes := [n]

/-- Decode a number. -/
def getNat : Bytes → Option (Nat × Bytes)
  | [] => none
  | n :: rest => some (n, rest)

/-- Encode a path. -/
def putPath (p : Path) : Bytes := putString p.gtype ++ putString p.gid

/-- Decode a path. -/
def getPath (b : Bytes) : Option (Path × Bytes) :=
  match getString b with
  | none => none
  | some (gtype, r) =>
    match getString r with
    | none => none
    | some (gid, r') => some ({ gtype := gtype, gid := gid }, r')

/-- Encode an attribute value. -/
def putValue : Value → Bytes
  | .null => [0]
  | .number n => [1, if n < 0 then 1 else 0, n.natAbs]
  | .string s => 2 :: putString s
  | .bool b => [3, if b then 1 else 0]
  | .nested j => 4 :: putString j

/-- Decode an attribute value. -/
def getValue : Bytes → Option (Value × Bytes)
  | 0 :: rest => some (.null, rest)
  | 1 :: sign :: n :: rest =>
    some (.number (if sign = 1 then Int.negOfNat n else Int.ofNat n), rest)
  | 2 :: rest =>
    match getString rest with
    | some (s, r) => some (.string s, r)
    | none => none
  | 3 :: b :: rest => some (.bool (b = 1), rest)
  | 4 :: rest =>
    match getString rest with
    | some (s, r) => some (.nested s, r)
    | none => none
  | _ => none

/-- Encode one attribute. -/
def putField (kv : String × Value) : Bytes := putString kv.1 ++ putValue kv.2

/-- Decode one attribute. -/
def getField (b : Bytes) : Option ((String × Value) × Bytes) :=
  match getString b with
  | none => none
  | some (k, r) =>
    match getValue r with
    | none => none
    | some (v, r') => some ((k, v), r')

/-- Decode `n` attributes. -/
def getFields : Nat → Bytes → Option (List (String × Value) × Bytes)
  | 0, b => some ([], b)
  | n + 1, b =>
    match getField b with
    | none => none
    | some (kv, r) =>
      match getFields n r with
      | none => none
      | some (kvs, r') => some (kv :: kvs, r')

/-- Encode an attribute map: the number of attributes, then each of them. -/
def putStruct (fields : List (String × Value)) : Bytes :=
  fields.length :: (fields.map putField).flatten

/-- Decode an attribute map. -/
def getStruct : Bytes → Option (List (String × Value) × Bytes)
  | [] => none
  | n :: rest => getFields n rest

/-- Encode metadata. -/
def putMetadata (m : Metadata) : Bytes :=
  putOption putNat m.createdAt ++ putOption putNat m.updatedAt ++
    putOption putPath m.createdBy ++ putOption putPath m.updatedBy ++
    [m.version, m.sequence]

/-- Decode metadata. -/
def getMetadata (b : Bytes) : Option (Metadata × Bytes) :=
  match getOption getNat b with
  | none => none
  | some (createdAt, r1) =>
    match getOption getNat r1 with
    | none => none
    | some (updatedAt, r2) =>
      match getOption getPath r2 with
      | none => none
      | some (createdBy, r3) =>
        match getOption getPath r3 with
        | some (updatedBy, version :: sequence :: r4) =>
          some ({ createdAt := createdAt, updatedAt := updatedAt, createdBy := createdBy,
                  updatedBy := updatedBy, version := version, sequence := sequence }, r4)
        | _ => none

/-- Encode a doc; the leading tag keeps the encoding of a doc non-empty. -/
def putDoc (d : Doc) : Bytes :=
  7 :: (putOption putPath d.path ++ putOption putStruct d.attributes ++
    putOption putMetadata d.metadata)

/-- Decode a doc. -/
def readDoc : Bytes → Option Doc
  | 7 :: b =>
    match getOption getPath b with
    | none => none
    | some (path, r1) =>
      match getOption getStruct r1 with
      | none => none
      | some (attributes, r2) =>
        match getOption getMetadata r2 with
        | some (metadata, []) =>
          some { path := path, attributes := attributes, metadata := metadata }
        | _ => none
  | _ => none

/-- Encode a connection. -/
def putConnection (c : Connection) : Bytes :=
  9 :: (putOption putPath c.path ++ putOption putStruct c.attributes ++
    putOption putMetadata c.metadata ++ [if c.directed then 1 else 0] ++
    putOption putPath c.from_ ++ putOption putPath c.to_)

/-- Decode a connection. -/
def readConnection : Bytes → Option Connection
  | 9 :: b =>
    match getOption getPath b with
    | none => none
    | some (path, r1) =>
      match getOption getStruct r1 with
      | none => none
      | some (attributes, r2) =>
        match getOption getMetadata r2 with
        | some (metadata, directed :: r3) =>
          match getOption getPath r3 with
          | none => none
          | some (from_, r4) =>
            match getOption getPath r4 with
            | some (to_, []) =>
              some { path := path, attributes := attributes, metadata := metadata,
                     directed := (directed = 1), from_ := from_, to_ := to_ }
            | _ => none
        | _ => none
  | _ => none

/-- Encode an index descriptor. -/
def putIndex (i : Index) : Bytes :=
  11 :: (putString i.name ++ putString i.gtype ++ putString i.expression ++
    [if i.docs then 1 else 0, if i.connections then 1 else 0, i.sequence])

/-- Decode an index descriptor. -/
def readIndex : Bytes → Option Index
  | 11 :: b =>
    match getString b with
    | none => none
    | some (name, r1) =>
      match getString r1 with
      | none => none
      | some (gtype, r2) =>
        match getString r2 with
        | some (expression, [docs, connections, sequence]) =>
          some { name := name, gtype := gtype, expression := expression,
                 docs := (docs = 1), connections := (connections = 1), sequence := sequence }
        | _ => none
  | _ => none

end Wire

/-- The program of `doc.attributes.weight > 20.0`, a comparison of doubles (a number of
an attribute map is a double, and the literal is written as one): a doc without the
attribute raises "no such key", a weight that is no number raises "no such overload". -/
def weightOver20 : Program Doc := fun d =>
  match fieldOf d.attributes "weight" with
  | none => .noSuchKey
  | some (.number n) => .bool (decide (n > 20))
  | some _ => .fail "no such overload"

/-- A compiler that knows two doc expressions and one connection expression. -/
def demoEnv : Env :=
  { marshalDoc := fun d => some (Wire.putDoc d)
    unmarshalDoc := Wire.readDoc
    marshalConnection := fun c => some (Wire.putConnection c)
    unmarshalConnection := Wire.readConnection
    compileDoc := fun e =>
      if e = "doc.attributes.weight > 20.0" then some weightOver20
      else if e = "true" then some (fun _ => .bool true)
      else none
    compileConnection := fun e =>
      if e = "true" then some (fun _ => .bool true) else none
    marshalIndex := fun i => some (Wire.putIndex i)
    unmarshalIndex := Wire.readIndex
    sortDocs := fun docs => docs
    sortDocs_perm := fun docs => List.Perm.refl docs
    sortConnections := fun connections => connections
    sortConnections_perm := fun connections => List.Perm.refl connections }

/-- A live context without identity. -/
def demoCtx : Ctx := { done := false, identity := none, method := "" }

/-- The clock reading and uuid of the example calls. -/
def demoStep : Step := { now := 100, uuid := "u-1" }

/-- An empty graph whose connection bucket `owner` exists, as `CreateConnections`
leaves it before it calls `setConnections`. -/
def demoGraph : Graph :=
  { db := { Store.empty with connections := Bucket.insert Bucket.empty "owner" Sub.empty }
    connectionsTo := Bucket.empty
    connectionsFrom := Bucket.empty
    indexes := []
    authorizers := []
    rootUsers := [] }

/-- The doc `dog/charlie`. -/
def charlie : Doc :=
  { path := some { gtype := "dog", gid := "charlie" }
    attributes := some [("name", .string "Charlie")]
    metadata := some Metadata.zero }

/-- The doc `human/alice`. -/
def alice : Doc :=
  { path := some { gtype := "human", gid := "alice" }
    attributes := some [("name", .string "Alice")]
    metadata := some Metadata.zero }

/-- The connection `owner/e1` from `dog/charlie` to `human/alice`. -/
def ownerEdge (directed : Bool) : Connection :=
  { path := some { gtype := "owner", gid := "e1" }
    attributes := none
    metadata := some Metadata.zero
    directed := directed
    from_ := some { gtype := "dog", gid := "charlie" }
    to_ := some { gtype := "human", gid := "alice" } }

/-- The graph after writing `dog/charlie` alone. -/
def oneDoc : Graph := (setDoc demoEnv demoStep demoCtx demoGraph charlie).2

/-- The graph after writing `dog/charlie` and `human/alice`. -/
def twoDocs : Graph := (setDoc demoEnv demoStep demoCtx oneDoc alice).2

/-- The graph after writing the two docs and the connection between them. -/
def linked (directed : Bool) : Graph :=
  (setConnection demoEnv demoStep demoCtx twoDocs (ownerEdge directed)).2

/-- The path `dog/charlie`. -/
def charliePath : Path := { gtype := "dog", gid := "charlie" }

/-- The path `human/alice`. -/
def alicePath : Path := { gtype := "human", gid := "alice" }

/-- The path `owner/e1`. -/
def ownerPath : Path := { gtype := "owner", gid := "e1" }

/-- The record `setConnection` stores for `ownerEdge`. -/
def storedOwnerEdge (directed : Bool) : Connection :=
  { ownerEdge directed with
    metadata := some
      { Metadata.zero with createdAt := some 100, updatedAt := some 100, version := 1 } }

/-- The index `heavy` of the docs whose weight exceeds 20. -/
def heavy : Index :=
  { name := "heavy", gtype := "dog", expression := "doc.attributes.weight > 20.0",
    docs := true, connections := false, sequence := 1 }

/-- A graph in which the index `heavy` is stored, has its bucket and is cached. -/
def indexedGraph : Graph :=
  { demoGraph with
    db := { demoGraph.db with indexDocs := Bucket.insert Bucket.empty "heavy" Sub.empty }
    indexes := [heavy] }

/-- The doc `dog/charlie` with a weight, carrying the given metadata version. -/
def charlieWeighing (w : Int) (version : Nat) : Doc :=
  { path := some charliePath
    attributes := some [("weight", .number w)]
    metadata := some { Metadata.zero with version := version } }

/-- The indexed graph after writing `dog/charlie` with weight 25. -/
def heavyCharlie : Graph :=
  (setDoc demoEnv demoStep demoCtx indexedGraph (charlieWeighing 25 0)).2

/-- The indexed graph after writing `dog/charlie` with weight 25 and then with weight 5. -/
def lightCharlie : Graph :=
  (setDoc demoEnv demoStep demoCtx heavyCharlie (charlieWeighing 5 1)).2

/-- An authorizer that denies every request. -/
def denyAll : Authorizer :=
  { name := "deny", expression := "false", program := some (fun _ => ProgResult.bool false) }

/-- A graph with the root user `root@x` and the authorizer `denyAll`. -/
def guardedGraph : Graph :=
  { demoGraph with rootUsers := ["root@x"], authorizers := [denyAll] }

/-- The token payload of the caller `mallory@x`. -/
def malloryPayload : List (String × Value) := [("email", .string "mallory@x")]

/-- The identity doc of `mallory@x` with the given attributes. -/
def malloryDoc (attributes : List (String × Value)) : Doc :=
  { path := some { gtype := userType, gid := "mallory@x" }
    attributes := some attributes
    metadata := some Metadata.zero }

/-- The guarded graph after the identity doc of `mallory@x` was written with the given
attributes, as a patch of that doc does. -/
def malloryGraph (attributes : List (String × Value)) : Graph :=
  (setDoc demoEnv demoStep demoCtx guardedGraph (malloryDoc attributes)).2

/-- The identity doc `setDoc` stored for `mallory@x`. -/
def storedMallory (attributes : List (String × Value)) : Doc :=
  { malloryDoc attributes with
    metadata := some
      { Metadata.zero with createdAt := some 100, updatedAt := some 100, version := 1 } }

/-- The identity doc `createIdentity` writes for `mallory@x` at first sight. -/
def freshMallory : Doc :=
  { path := some { gtype := userType, gid := "mallory@x" }
    attributes := some malloryPayload
    metadata := some
      { createdAt := some 100, updatedAt := some 100
        createdBy := some { gtype := userType, gid := "mallory@x" }
        updatedBy := some { gtype := userType, gid := "mallory@x" }
        version := 1, sequence := 1 } }

/-- A program that raises a runtime error other than "no such key" on every doc. -/
def divisionByZero : Program Doc := fun _ => ProgResult.fail "division by zero"

/-- The same clock reading and uuid for every position of a batch. -/
def demoSteps : Nat → Step := fun _ => demoStep

/-- A connection `owner/e2` from `dog/charlie` to `human/bob`, a doc that is not stored. -/
def danglingEdge : Connection :=
  { path := some { gtype := "owner", gid := "e2" }
    attributes := none
    metadata := some Metadata.zero
    directed := true
    from_ := some { gtype := "dog", gid := "charlie" }
    to_ := some { gtype := "human", gid := "bob" } }

/-- The doc `dog/charlie` without attributes, as a constructor without attributes
creates it. -/
def bareCharlie : Doc :=
  { path := some charliePath, attributes := none, metadata := some Metadata.zero }

/-- The graph after writing `dog/charlie` without attributes. -/
def bareGraph : Graph := (setDoc demoEnv demoStep demoCtx demoGraph bareCharlie).2

/-- A patch that sets the weight of `dog/charlie` to 25. -/
def weightPatch : Patch :=
  { path := some charliePath, attributes := some [("weight", Value.number 25)] }

/-- A live context of the authenticated caller `mallory@x`. -/
def authCtx : Ctx := { done := false, identity := some freshMallory, method := "CreateDoc" }

/-- A constructor for `dog/charlie` named Charlie. -/
def charlieConstructor : DocConstructor :=
  { path := some charliePath, attributes := some [("name", Value.string "Charlie")] }

/-- A constructor whose ref has the empty gtype. -/
def untypedConstructor : DocConstructor :=
  { path := some { gtype := "", gid := "x" }, attributes := none }

/-- The doc `cat/tom` of weight 25. -/
def tom : Doc :=
  { path := some { gtype := "cat", gid := "tom" }
    attributes := some [("weight", Value.number 25)]
    metadata := some Metadata.zero }

/-- The graph after `dog/charlie` of weight 25 was written and committed, no index being
defined. -/
def weighedGraph : Graph :=
  (setDoc demoEnv demoStep demoCtx demoGraph (charlieWeighing 25 0)).2

/-- The empty graph after `setIndex` of `heavy` was run and committed: the descriptor is
stored and `index_docs/heavy` exists, but the cache, refreshed from the state committed
before, does not hold the index yet. -/
def indexStored : Graph := (setIndex demoEnv demoCtx demoGraph.db demoGraph heavy).2

/-- The graph after `setIndex` of `heavy` was run and committed a second time: now the
cache holds the index. -/
def indexCached : Graph := (setIndex demoEnv demoCtx indexStored.db indexStored heavy).2

/-- The graph with the index `heavy` (of gtype `dog`) cached, after `cat/tom` was
written. -/
def tomIndexed : Graph := (setDoc demoEnv demoStep demoCtx indexCached tom).2

/-- The graph with the index `heavy` cached through `setIndex`, after `dog/charlie` was
written with weight 25. -/
def heavyIndexed : Graph :=
  (setDoc demoEnv demoStep demoCtx indexCached (charlieWeighing 25 0)).2

/-- The graph with the index `heavy` cached through `setIndex`, after `dog/charlie` was
written with weight 25 and then with weight 5. -/
def lightIndexed : Graph :=
  (setDoc demoEnv demoStep demoCtx heavyIndexed (charlieWeighing 5 1)).2

/-- The doc `dog/charlie` carrying `human/alice` as its last updater. -/
def updatedByAlice : Doc :=
  { path := some charliePath
    attributes := none
    metadata := some { Metadata.zero with updatedBy := some alicePath } }

/-- The record a first `setDoc` with `demoStep` stores for a doc built with the zero
metadata. -/
def storedDoc (d : Doc) : Doc :=
  { d with
    metadata := some
      { Metadata.zero with createdAt := some 100, updatedAt := some 100, version := 1 } }

/-- A patch that marks `owner/e1` as the primary owner. -/
def ownerPatch : Patch :=
  { path := some ownerPath, attributes := some [("primary_owner", Value.bool true)] }

/-- The record stored when the caller `mallory@x` writes `updatedByAlice`. -/
def stampedByMallory : Doc :=
  { path := some charliePath
    attributes := none
    metadata := some
      { createdAt := some 100, updatedAt := some 100
        createdBy := some { gtype := userType, gid := "mallory@x" }
        updatedBy := some { gtype := userType, gid := "mallory@x" }
        version := 1, sequence := 0 } }

/-- A connection of gtype `owner` from `dog/charlie` to `human/alice` with the given gid. -/
def ownerEdgeNamed (gid : String) (directed : Bool) : Connection :=
  { ownerEdge directed with path := some { gtype := "owner", gid := gid } }

/-- The graph after writing the two docs and the undirected connection `owner/z`. -/
def oneUndirected : Graph :=
  (setConnection demoEnv demoStep demoCtx twoDocs (ownerEdgeNamed "z" false)).2

/-- The graph after writing the undirected connections `owner/z` and then `owner/a`
between the two docs. -/
def twoUndirected : Graph :=
  (setConnection demoEnv demoStep demoCtx oneUndirected (ownerEdgeNamed "a" false)).2

/-- A connection `likes/e1` between the two docs; no connection of gtype `likes` was
written before, so the bucket `connections/likes` does not exist. -/
def likesEdge : Connection :=
  { ownerEdge true with path := some { gtype := "likes", gid := "e1" } }

/-- A directed connection `owner/e1` from `dog/charlie` to itself. -/
def selfLoop : Connection := { ownerEdge true with to_ := some charliePath }

/-- The graph after writing `dog/charlie` and the self-loop on it. -/
def looped : Graph := (setConnection demoEnv demoStep demoCtx oneDoc selfLoop).2

/-- The graph after the directed connection `owner/e1` between the two docs was written
and then deleted with `delConnection`. -/
def unlinked : Graph := (delConnection demoEnv demoCtx (linked true) (some ownerPath)).2

/-- The graph after the directed connection `owner/e1` was written and then written again
as it is stored. -/
def rewritten : Graph :=
  (setConnection demoEnv demoStep demoCtx (linked true) (storedOwnerEdge true)).2

/-- The doc `dog/rex`. -/
def rex : Doc :=
  { path := some { gtype := "dog", gid := "rex" }
    attributes := some [("name", .string "Rex")]
    metadata := some Metadata.zero }

/-- The graph after writing `dog/charlie` and `dog/rex`. -/
def twoDogs : Graph := (setDoc demoEnv demoStep demoCtx oneDoc rex).2

/-- The path `user/mallory@x`. -/
def malloryPath : Path := { gtype := userType, gid := "mallory@x" }

/-- A directed connection `owner/e1` from `dog/charlie` to `user/mallory@x`. -/
def malloryEdge : Connection :=
  { path := some ownerPath, attributes := none, metadata := some Metadata.zero,
    directed := true, from_ := some charliePath, to_ := some malloryPath }

/-- The graph after writing `dog/charlie`, the identity doc of `mallory@x` and the
connection from the one to the other. -/
def malloryOwns : Graph :=
  (setConnection demoEnv demoStep demoCtx
    (setDoc demoEnv demoStep demoCtx oneDoc (malloryDoc malloryPayload)).2 malloryEdge).2

/-- The record `setConnection` with `demoStep` stores for a connection built with the
zero metadata. -/
def storedConnection (c : Connection) : Connection :=
  { c with
    metadata := some
      { Metadata.zero with createdAt := some 100, updatedAt := some 100, version := 1 } }

/-- The detail `Me` builds for `owner/e1` between `dog/charlie` and `user/mallory@x`. -/
def malloryDetail : ConnectionDetail :=
  { path := some ownerPath, attributes := none
    from_ := some (storedDoc charlie), to_ := some (storedMallory malloryPayload)
    metadata := (storedConnection malloryEdge).metadata }

/-- The connection `owner/e1` to `human/alice` that names no `from` doc. -/
def fromlessEdge : Connection := { ownerEdge true with from_ := none }

/-- The connection `owner/e1` from `dog/charlie` that names no `to` doc. -/
def tolessEdge : Connection := { ownerEdge true with to_ := none }

/-! ## Vocabulary of the statements -/

/-- Whether a record lies under `p` in the docs bucket. -/
def docStored (tx : Store) (p : Path) : Bool :=
  match tx.docs.lookup p.gtype with
  | none => false
  | some bucket => (bucket.Get p.gid).isSome

/-- The version a read of the doc under `p` shows, `GetMetadata().GetVersion()` of the
doc `getDoc` returns (0 when the doc has no metadata); `none` when the read fails. -/
def storedVersion (env : Env) (ctx : Ctx) (tx : Store) (p : Path) : Option Nat :=
  match getDoc env ctx tx (some p) with
  | .ok d => some ((d.metadata.map (fun m => m.version)).getD 0)
  | _ => none

/-- The sequence number `NextSequence` hands out in the doc bucket of `gtype`, a bucket
that does not exist yet being created first. -/
def nextDocSequence (tx : Store) (gtype : String) : Nat :=
  ((tx.docs.lookup gtype).getD Sub.empty).sequence + 1

/-- The doc a create by the caller `u` yields: stamped at entry (`now`) and at the write
(`st.now`), created and updated by `u`, at version 1. -/
def createdDoc (now : Nat) (st : Step) (u : Doc) (path : Path)
    (attributes : Option (List (String × Value))) (sequence : Nat) : Doc :=
  { path := some path
    attributes := attributes
    metadata := some
      { createdAt := some now, updatedAt := some st.now, createdBy := u.path,
        updatedBy := u.path, version := 1, sequence := sequence } }

/-! ## Theorems -/

/-! ### Buckets -/

theorem Bucket.lookup_insert_self {β : Type} (b : Bucket β) (k : String) (v : β) :
    (b.insert k v).lookup k = some v := by
  induction b with
  | nil => simp [Bucket.insert, Bucket.lookup]
  | cons hd tl ih =>
    obtain ⟨k', v'⟩ := hd
    simp only [Bucket.insert]
    split
    · simp [Bucket.lookup]
    · split
      · simp [Bucket.lookup]
      · simp [Bucket.lookup, *]

theorem Bucket.lookup_insert_ne {β : Type} (b : Bucket β) (k k' : String) (v : β)
    (h : k' ≠ k) : (b.insert k v).lookup k' = b.lookup k' := by
  induction b with
  | nil => simp [Bucket.insert, Bucket.lookup, h]
  | cons hd tl ih =>
    obtain ⟨k₀, v₀⟩ := hd
    simp only [Bucket.insert]
    split
    · rename_i hk
      subst hk
      simp [Bucket.lookup, h]
    · split
      · simp [Bucket.lookup, h]
      · simp [Bucket.lookup, ih]

theorem Bucket.lookup_erase_self {β : Type} (b : Bucket β) (k : String) :
    (b.erase k).lookup k = none := by
  induction b with
  | nil => simp [Bucket.erase, Bucket.lookup]
  | cons hd tl ih =>
    obtain ⟨k₀, v₀⟩ := hd
    simp only [Bucket.erase]
    split
    · exact ih
    · simp [Bucket.lookup, *]

theorem Sub.Put_ok {b b' : Sub} {key : String} {value : Bytes}
    (h : b.Put key value = Except.ok b') : b'.Get key = some value := by
  unfold Sub.Put at h
  repeat' split at h
  all_goals cases h
  simp [Sub.Get, Bucket.lookup_insert_self]

/-! ### The index loops leave the primary buckets alone -/

theorem setIndexedDoc_ok {ctx : Ctx} {tx tx' : Store} {index gid : String} {doc : Bytes}
    (h : setIndexedDoc ctx tx index gid doc = Except.ok tx') :
    ∃ b b', tx.indexDocs.lookup index = some b ∧ b.Put gid doc = Except.ok b' ∧
      tx' = { tx with indexDocs := tx.indexDocs.insert index b' } := by
  unfold setIndexedDoc at h
  split at h
  · cases h
  · split at h
    · cases h
    · rename_i b hb
      split at h
      · cases h
      · rename_i b' hb'
        cases h
        exact ⟨b, b', hb, hb', rfl⟩

theorem setIndexedConnection_ok {ctx : Ctx} {tx tx' : Store} {index gid : String}
    {connection : Bytes}
    (h : setIndexedConnection ctx tx index gid connection = Except.ok tx') :
    ∃ b b', tx.indexConnections.lookup index = some b ∧
      b.Put gid connection = Except.ok b' ∧
      tx' = { tx with indexConnections := tx.indexConnections.insert index b' } := by
  unfold setIndexedConnection at h
  split at h
  · cases h
  · split at h
    · cases h
    · rename_i b hb
      split at h
      · cases h
      · rename_i b' hb'
        cases h
        exact ⟨b, b', hb, hb', rfl⟩

theorem setDocIndexStep_docs (env : Env) (ctx : Ctx) (doc : Doc) (gid : String)
    (bits : Bytes) (tx : Store) (i : Index) :
    (setDocIndexStep env ctx doc gid bits tx i).1.docs = tx.docs := by
  unfold setDocIndexStep
  repeat' split
  all_goals first | rfl | skip
  rename_i h
  obtain ⟨b, b', _, _, rfl⟩ := setIndexedDoc_ok h
  rfl

theorem setConnectionIndexStep_connections (env : Env) (ctx : Ctx) (c : Connection)
    (gid : String) (bits : Bytes) (tx : Store) (i : Index) :
    (setConnectionIndexStep env ctx c gid bits tx i).1.connections = tx.connections := by
  unfold setConnectionIndexStep
  repeat' split
  all_goals first | rfl | skip
  rename_i h
  obtain ⟨b, b', _, _, rfl⟩ := setIndexedConnection_ok h
  rfl

theorem rangeIndexes_setDoc_docs (env : Env) (ctx : Ctx) (doc : Doc) (gid : String)
    (bits : Bytes) (indexes : List Index) :
    ∀ tx : Store,
      (rangeIndexes (setDocIndexStep env ctx doc gid bits) indexes tx).docs = tx.docs := by
  induction indexes with
  | nil => intro tx; rfl
  | cons i rest ih =>
    intro tx
    have h := setDocIndexStep_docs env ctx doc gid bits tx i
    unfold rangeIndexes
    cases hfi : setDocIndexStep env ctx doc gid bits tx i with
    | mk s' b =>
      rw [hfi] at h
      cases b with
      | true => simpa [ih s'] using h
      | false => simpa using h

theorem rangeIndexes_setConnection_connections (env : Env) (ctx : Ctx) (c : Connection)
    (gid : String) (bits : Bytes) (indexes : List Index) :
    ∀ tx : Store,
      (rangeIndexes (setConnectionIndexStep env ctx c gid bits) indexes tx).connections =
        tx.connections := by
  induction indexes with
  | nil => intro tx; rfl
  | cons i rest ih =>
    intro tx
    have h := setConnectionIndexStep_connections env ctx c gid bits tx i
    unfold rangeIndexes
    cases hfi : setConnectionIndexStep env ctx c gid bits tx i with
    | mk s' b =>
      rw [hfi] at h
      cases b with
      | true => simpa [ih s'] using h
      | false => simpa using h

/-! ### What a successful write leaves behind -/

theorem createBucketIfNotExists_ok {parent parent' : Bucket Sub} {name : String} {b : Sub}
    (h : createBucketIfNotExists parent name = Except.ok (b, parent')) :
    parent'.lookup name = some b := by
  unfold createBucketIfNotExists at h
  split at h
  · cases h
  · split at h
    · rename_i b0 hb0
      cases h
      exact hb0
    · cases h
      exact Bucket.lookup_insert_self _ _ _

theorem setDoc_ok {env : Env} {st : Step} {ctx : Ctx} {g g' : Graph} {doc d : Doc}
    (h : setDoc env st ctx g doc = (Res.ok d, g')) :
    ctx.done = false ∧
      d = { doc with path := some (ensurePath st doc.path),
                     metadata := updateMeta st ctx doc.metadata } ∧
      ∃ bits bucket', env.marshalDoc d = some bits ∧
        g'.db.docs.lookup (ensurePath st doc.path).gtype = some bucket' ∧
        bucket'.Get (ensurePath st doc.path).gid = some bits := by
  unfold setDoc at h
  split at h
  · cases h
  · rename_i hd
    simp only [] at h
    split at h
    · cases h
    · rename_i bits hbits
      split at h
      · cases h
      · rename_i bucket docs1 hcreate
        split at h
        · cases h
        · rename_i bucket' hput
          simp only [Prod.mk.injEq, Res.ok.injEq] at h
          obtain ⟨hdoc, hg⟩ := h
          subst hdoc
          subst hg
          refine ⟨by simpa using hd, rfl, bits, bucket', hbits, ?_, Sub.Put_ok hput⟩
          simp only [rangeIndexes_setDoc_docs, Bucket.lookup_insert_self]

theorem setConnection_ok {env : Env} {st : Step} {ctx : Ctx} {g g' : Graph}
    {c c' : Connection} (h : setConnection env st ctx g c = (Res.ok c', g')) :
    ctx.done = false ∧
      c' = { c with path := some (ensurePath st c.path),
                    metadata := updateMeta st ctx c.metadata } ∧
      ∃ bits bucket', env.marshalConnection c' = some bits ∧
        g'.db.connections.lookup (ensurePath st c.path).gtype = some bucket' ∧
        bucket'.Get (ensurePath st c.path).gid = some bits := by
  unfold setConnection at h
  split at h
  · cases h
  · rename_i hd
    split at h
    · cases h
    · split at h
      · cases h
      · split at h
        · cases h
        · split at h
          · cases h
          · split at h
            · cases h
            · split at h
              · cases h
              · simp only [] at h
                split at h
                · cases h
                · rename_i bits hbits
                  split at h
                  · cases h
                  · split at h
                    · cases h
                    · rename_i bucket' hput
                      simp only [Prod.mk.injEq, Res.ok.injEq] at h
                      obtain ⟨hc, hg⟩ := h
                      subst hc
                      subst hg
                      refine ⟨by simpa using hd, rfl, bits, bucket', hbits, ?_, Sub.Put_ok hput⟩
                      simp only [rangeIndexes_setConnection_connections,
                        Bucket.lookup_insert_self]

theorem getDoc_after_setDoc {env : Env} {st : Step} {ctx : Ctx} {g : Graph} {doc d : Doc}
    (h : (setDoc env st ctx g doc).1 = Res.ok d)
    (hrt : ∀ bits, env.marshalDoc d = some bits → protoUnmarshalDoc env bits = some d) :
    getDoc env ctx (setDoc env st ctx g doc).2.db d.path = Res.ok d := by
  obtain ⟨hd, hdoc, bits, bucket', hbits, hlook, hget⟩ :=
    setDoc_ok (Prod.ext h rfl : setDoc env st ctx g doc = (Res.ok d, _))
  have hdecode := hrt bits hbits
  have hpath : d.path = some (ensurePath st doc.path) := by rw [hdoc]
  have hne : bits.length ≠ 0 := by
    intro h0
    rw [protoUnmarshalDoc, if_pos h0] at hdecode
    rw [← Option.some.inj hdecode] at hpath
    simp [Doc.zero] at hpath
  unfold getDoc
  simp [hd, hpath, hlook, hget, hne, hdecode]

theorem getConnection_after_setConnection {env : Env} {st : Step} {ctx : Ctx} {g : Graph}
    {c c' : Connection} (h : (setConnection env st ctx g c).1 = Res.ok c')
    (hrt : ∀ bits, env.marshalConnection c' = some bits →
      protoUnmarshalConnection env bits = some c') :
    getConnection env ctx (setConnection env st ctx g c).2.db c'.path = Res.ok c' := by
  obtain ⟨hd, hc, bits, bucket', hbits, hlook, hget⟩ :=
    setConnection_ok (Prod.ext h rfl : setConnection env st ctx g c = (Res.ok c', _))
  have hdecode := hrt bits hbits
  have hpath : c'.path = some (ensurePath st c.path) := by rw [hc]
  have hne : bits.length ≠ 0 := by
    intro h0
    rw [protoUnmarshalConnection, if_pos h0] at hdecode
    rw [← Option.some.inj hdecode] at hpath
    simp [Connection.zero] at hpath
  unfold getConnection
  simp [hd, hpath, hlook, hget, hne, hdecode]

theorem updateMeta_version {st : Step} {ctx : Ctx} {m : Metadata} :
    ∃ m', updateMeta st ctx (some m) = some m' ∧ m'.version = (m.version + 1) % 2 ^ 64 :=
  ⟨_, rfl, rfl⟩

/-! ### Identity resolution -/

theorem setDoc_static (env : Env) (st : Step) (ctx : Ctx) (g : Graph) (doc : Doc) :
    (setDoc env st ctx g doc).2.rootUsers = g.rootUsers ∧
      (setDoc env st ctx g doc).2.authorizers = g.authorizers := by
  unfold setDoc
  split
  · exact ⟨rfl, rfl⟩
  · simp only []
    split
    · exact ⟨rfl, rfl⟩
    · split
      · exact ⟨rfl, rfl⟩
      · split <;> exact ⟨rfl, rfl⟩

theorem setDoc_attributes {env : Env} {st : Step} {ctx : Ctx} {g : Graph} {doc d : Doc}
    (h : (setDoc env st ctx g doc).1 = Res.ok d) : d.attributes = doc.attributes := by
  obtain ⟨_, hdoc, _⟩ := setDoc_ok (Prod.ext h rfl : setDoc env st ctx g doc = (Res.ok d, _))
  rw [hdoc]

theorem dbUpdate_fst {α : Type} (g : Graph) (fn : Graph → Res α × Graph) :
    (dbUpdate g fn).1 = (fn g).1 := by
  unfold dbUpdate
  cases h : fn g with
  | mk r g' => cases r <;> rfl

theorem dbUpdate_static {α : Type} (g : Graph) (fn : Graph → Res α × Graph) :
    (dbUpdate g fn).2.rootUsers = (fn g).2.rootUsers ∧
      (dbUpdate g fn).2.authorizers = (fn g).2.authorizers := by
  unfold dbUpdate
  cases h : fn g with
  | mk r g' => cases r <;> exact ⟨rfl, rfl⟩

theorem createIdentityTx_static (env : Env) (st : Step) (ctx : Ctx) (newDock : Doc)
    (gtype : String) (tx : Graph) :
    (createIdentityTx env st ctx newDock gtype tx).2.rootUsers = tx.rootUsers ∧
      (createIdentityTx env st ctx newDock gtype tx).2.authorizers = tx.authorizers := by
  unfold createIdentityTx createIdentityWrite
  split
  · split
    · exact ⟨rfl, rfl⟩
    · exact setDoc_static _ _ _ _ _
  · exact setDoc_static _ _ _ _ _

theorem createIdentityTx_attributes {env : Env} {st : Step} {ctx : Ctx} {newDock d : Doc}
    {gtype : String} {tx : Graph}
    (h : (createIdentityTx env st ctx newDock gtype tx).1 = Res.ok d) :
    d.attributes = newDock.attributes := by
  unfold createIdentityTx createIdentityWrite at h
  split at h
  · split at h
    · cases h
    · exact (setDoc_attributes h).trans rfl
  · exact (setDoc_attributes h).trans rfl

theorem createIdentity_static (env : Env) (st : Step) (ctx : Ctx) (g : Graph)
    (constructor : DocConstructor) :
    (createIdentity env st ctx g constructor).2.rootUsers = g.rootUsers ∧
      (createIdentity env st ctx g constructor).2.authorizers = g.authorizers := by
  unfold createIdentity
  split
  · exact ⟨rfl, rfl⟩
  · exact ⟨(dbUpdate_static _ _).1.trans (createIdentityTx_static _ _ _ _ _ _).1,
      (dbUpdate_static _ _).2.trans (createIdentityTx_static _ _ _ _ _ _).2⟩

theorem createIdentity_attributes {env : Env} {st : Step} {ctx : Ctx} {g : Graph}
    {constructor : DocConstructor} {d : Doc}
    (h : (createIdentity env st ctx g constructor).1 = Res.ok d) :
    d.attributes = constructor.attributes := by
  unfold createIdentity at h
  split at h
  · cases h
  · rw [dbUpdate_fst] at h
    exact createIdentityTx_attributes h

theorem userToContext_static (env : Env) (st : Step) (ctx : Ctx) (g : Graph)
    (payload : List (String × Value)) :
    (userToContext env st ctx g payload).2.rootUsers = g.rootUsers ∧
      (userToContext env st ctx g payload).2.authorizers = g.authorizers := by
  unfold userToContext
  split
  · split
    · exact ⟨rfl, rfl⟩
    · have h := createIdentity_static env st ctx g
        { path := some { gtype := userType, gid := ‹String› }, attributes := some payload }
      split <;> simp_all
  · exact ⟨rfl, rfl⟩

theorem userToContext_ok {env : Env} {st : Step} {ctx ctx' : Ctx} {g : Graph}
    {payload : List (String × Value)} {user : Doc}
    (h : (userToContext env st ctx g payload).1 = Res.ok (ctx', user)) :
    ∃ email, mapGet payload "email" = some (Value.string email) ∧
      ctx' = { ctx with identity := some user } ∧
      (getDoc env ctx g.db (some { gtype := userType, gid := email }) = Res.ok user ∨
        ((∀ d, getDoc env ctx g.db (some { gtype := userType, gid := email }) ≠ Res.ok d) ∧
          user.attributes = some payload)) := by
  unfold userToContext at h
  split at h
  · rename_i email hemail
    refine ⟨email, hemail, ?_⟩
    split at h
    · rename_i doc hdoc
      simp only [Res.ok.injEq, Prod.mk.injEq] at h
      obtain ⟨h1, h2⟩ := h
      subst h2
      exact ⟨h1.symm, Or.inl hdoc⟩
    · rename_i hnot
      split at h
      · rename_i doc g' hc
        simp only [Res.ok.injEq, Prod.mk.injEq] at h
        obtain ⟨h1, h2⟩ := h
        subst h2
        refine ⟨h1.symm, Or.inr ⟨fun d hd => hnot d hd, ?_⟩⟩
        have := createIdentity_attributes (congrArg Prod.fst hc)
        simpa using this
      · cases h
      · cases h
  · cases h

theorem isGraphikAdmin_congr {g g' : Graph} (h : g'.rootUsers = g.rootUsers) (user : Doc) :
    isGraphikAdmin g' user = isGraphikAdmin g user := by
  unfold isGraphikAdmin
  rw [h]

theorem evalLoop_err {α : Type} (x : α) :
    ∀ (programs : List (Option (Program α))) (passes : Bool) (e : Err),
      evalLoop x programs passes = Res.err e → ∃ msg, e = Err.eval msg := by
  intro programs
  induction programs with
  | nil => intro passes e h; simp [evalLoop] at h
  | cons p rest ih =>
    intro passes e h
    cases p with
    | none => simp [evalLoop] at h
    | some program =>
      simp only [evalLoop] at h
      split at h
      · cases h
      · rename_i msg _
        cases h
        exact ⟨msg, rfl⟩
      · exact ih _ _ h
      · exact ih _ _ h
      · exact ih _ _ h

theorem vmEval_err {α : Type} (x : α) (programs : List (Option (Program α))) (e : Err)
    (h : vmEval x programs = Res.err e) : ∃ msg, e = Err.eval msg := by
  unfold vmEval at h
  split at h
  · cases h
  · cases h
  · exact evalLoop_err x _ _ e h

theorem check_of_identity {env : Env} {st : Step} {ctx ctx' : Ctx} {g : Graph}
    {method : String} {req : ReqBody} {payload : List (String × Value)} {user : Doc}
    (hid : (userToContext env st { ctx with method := method } g payload).1 =
      Res.ok (ctx', user)) :
    (check env st ctx g method req payload).1 =
      if isGraphikAdmin g user then Res.ok ctx'
      else
        match buildRequest st method user req with
        | none => Res.err Err.internal
        | some request =>
          match AuthVM.Eval request (authorizerPrograms g) with
          | .err e => Res.err e
          | .panic => Res.panic
          | .ok false => Res.err Err.permissionDenied
          | .ok true => Res.ok ctx' := by
  have hst := userToContext_static env st { ctx with method := method } g payload
  unfold check
  cases hu : userToContext env st { ctx with method := method } g payload with
  | mk r g' =>
    rw [hu] at hid hst
    simp only at hid hst
    subst hid
    have hadm : isGraphikAdmin g' user = isGraphikAdmin g user := isGraphikAdmin_congr hst.1 user
    have hprog : authorizerPrograms g' = authorizerPrograms g := by
      unfold authorizerPrograms
      rw [hst.2]
    simp only [hadm, hprog]
    split
    · rfl
    · split
      · rfl
      · split <;> rfl

/-! ### Claims -/

theorem setConnection_refuses_missing_endpoint (env : Env) (st : Step) (ctx : Ctx)
    (g : Graph) (c : Connection) (f : Path) (hf : c.from_ = some f)
    (h : docStored g.db f = false ∨ ∃ t, c.to_ = some t ∧ docStored g.db t = false) :
    (∃ e, (setConnection env st ctx g c).1 = Res.err e) ∧
      (setConnection env st ctx g c).2 = g := by
  unfold setConnection
  by_cases hd : ctx.done = true
  · simp [hd]
  · simp only [hd, hf]
    unfold docStored Sub.Get at h
    cases h1 : g.db.docs.lookup f.gtype with
    | none => simp
    | some fb =>
      cases h2 : fb.kv.lookup f.gid with
      | none => simp [Sub.Get, h2]
      | some v =>
        obtain ⟨t, ht, h3⟩ : ∃ t, c.to_ = some t ∧ docStored g.db t = false := by
          rcases h with h | h
          · simp [h1, h2] at h
          · obtain ⟨t, ht, h3⟩ := h
            exact ⟨t, ht, by unfold docStored Sub.Get; exact h3⟩
        unfold docStored Sub.Get at h3
        cases h4 : g.db.docs.lookup t.gtype with
        | none => simp [Sub.Get, h2, ht, h4]
        | some tb =>
          cases h5 : tb.kv.lookup t.gid with
          | none => simp [Sub.Get, h2, ht, h4, h5]
          | some w => simp [h4, h5] at h3

/-- C1, evaluated at failing inputs: `dog/charlie` is stored and `human/alice` is not.  A
connection to `human/alice` that names no `from` doc makes `setConnection` fault on the
read of `connection.From.Gtype` instead of returning an error, and so does a connection
from `dog/charlie` that names no `to` doc; the state is left as it was.  The connection
that names both is refused with the error of the missing `to` doc. -/
theorem setConnection_faults_on_nil_endpoint :
    docStored oneDoc.db charliePath = true ∧
      docStored oneDoc.db alicePath = false ∧
      fromlessEdge.from_ = none ∧ fromlessEdge.to_ = some alicePath ∧
      (setConnection demoEnv demoStep demoCtx oneDoc fromlessEdge).1 = Res.panic ∧
      tolessEdge.from_ = some charliePath ∧ tolessEdge.to_ = none ∧
      (setConnection demoEnv demoStep demoCtx oneDoc tolessEdge).1 = Res.panic ∧
      (setConnection demoEnv demoStep demoCtx oneDoc fromlessEdge).2.db = oneDoc.db ∧
      (setConnection demoEnv demoStep demoCtx oneDoc tolessEdge).2.db = oneDoc.db ∧
      (setConnection demoEnv demoStep demoCtx oneDoc (ownerEdge true)).1 =
        Res.err Err.toMissing := by
  refine ⟨?_, ?_, ?_, ?_, ?_, ?_, ?_, ?_, ?_, ?_, ?_⟩ <;> decide

/-- C2, evaluated at a failing input.  The state is built by `setDoc` and
`setConnection`: docs `dog/charlie` and `human/alice` and the undirected connection
`owner/e1` between them.  `delDoc` of `dog/charlie` deletes the connection while it ranges
over `connectionsFrom`, meets its path again in `connectionsTo`, reads the zero
connection there and faults on its nil path; the transaction is rolled back and the
connection from `dog/charlie` is still stored. -/
theorem delDoc_faults_on_undirected :
    linked false =
        (setConnection demoEnv demoStep demoCtx
          (setDoc demoEnv demoStep demoCtx
            (setDoc demoEnv demoStep demoCtx demoGraph charlie).2 alice).2
          (ownerEdge false)).2 ∧
      (dbUpdate (linked false) (fun g => delDoc demoEnv demoCtx g (some charliePath))).1 =
        Res.panic ∧
      getConnection demoEnv demoCtx
          (dbUpdate (linked false) (fun g => delDoc demoEnv demoCtx g (some charliePath))).2.db
          (some ownerPath) = Res.ok (storedOwnerEdge false) ∧
      (storedOwnerEdge false).from_ = some charliePath := by
  refine ⟨rfl, ?_, ?_, rfl⟩ <;> decide

/-- C3, evaluated at a failing input: `delConnection` of the stored directed connection
`owner/e1` succeeds and removes the record, but its path is still listed in
`connectionsFrom` of its `from` doc and in `connectionsTo` of its `to` doc. -/
theorem delConnection_keeps_adjacency :
    (delConnection demoEnv demoCtx (linked true) (some ownerPath)).1 = Res.ok () ∧
      getConnection demoEnv demoCtx
          (delConnection demoEnv demoCtx (linked true) (some ownerPath)).2.db (some ownerPath) =
        Res.err Err.notFound ∧
      ownerPath ∈ pathsAt (delConnection demoEnv demoCtx (linked true) (some ownerPath)).2.connectionsFrom
          charliePath.String ∧
      ownerPath ∈ pathsAt (delConnection demoEnv demoCtx (linked true) (some ownerPath)).2.connectionsTo
          alicePath.String := by
  refine ⟨?_, ?_, ?_, ?_⟩ <;> decide

/-- C4: a successful `setDoc` (`setConnection`) is read back by `getDoc`
(`getConnection`) on the path of the returned entity, in the state the write left, as an
entity equal to the returned one, when the decoder inverts the encoder on that entity. -/
theorem set_then_get (env : Env) (st : Step) (ctx : Ctx) (g : Graph) :
    (∀ (doc d : Doc), (setDoc env st ctx g doc).1 = Res.ok d →
        (∀ bits, env.marshalDoc d = some bits → protoUnmarshalDoc env bits = some d) →
        getDoc env ctx (setDoc env st ctx g doc).2.db d.path = Res.ok d) ∧
      (∀ (c c' : Connection), (setConnection env st ctx g c).1 = Res.ok c' →
        (∀ bits, env.marshalConnection c' = some bits →
          protoUnmarshalConnection env bits = some c') →
        getConnection env ctx (setConnection env st ctx g c).2.db c'.path = Res.ok c') := by
  exact ⟨fun _ _ h hrt => getDoc_after_setDoc h hrt,
    fun _ _ h hrt => getConnection_after_setConnection h hrt⟩

/-- C4 at concrete inputs: `dog/charlie` written to the empty graph, and `owner/e1`
written between the two docs. -/
theorem set_then_get_witness :
    getDoc demoEnv demoCtx (setDoc demoEnv demoStep demoCtx demoGraph charlie).2.db
        (some charliePath) =
      Res.ok { charlie with
        metadata := some
          { Metadata.zero with createdAt := some 100, updatedAt := some 100, version := 1 } } ∧
      getConnection demoEnv demoCtx (linked true).db (some ownerPath) =
        Res.ok (storedOwnerEdge true) :=
  ⟨(set_then_get demoEnv demoStep demoCtx demoGraph).1 charlie
      { charlie with
        metadata := some
          { Metadata.zero with createdAt := some 100, updatedAt := some 100, version := 1 } }
      (by decide) (fun bits hb => by cases hb; decide),
    (set_then_get demoEnv demoStep demoCtx twoDocs).2 (ownerEdge true) (storedOwnerEdge true)
      (by decide) (fun bits hb => by cases hb; decide)⟩

/-- C5: with a live context, `getDoc` (`getConnection`) answers `ErrNotFound` exactly
when the bucket of the gtype is absent or holds no bytes under the gid (the code tests
`len(bits) == 0`); when it holds bytes, the answer is what decoding them gives: the
decoded entity, or the decoding error. -/
theorem get_notFound_iff (env : Env) (ctx : Ctx) (tx : Store) (p : Path)
    (hlive : ctx.done = false) :
    (getDoc env ctx tx (some p) = Res.err Err.notFound ↔
        (tx.docs.lookup p.gtype = none ∨
          ∃ b, tx.docs.lookup p.gtype = some b ∧ (b.Get p.gid).getD [] = [])) ∧
      (∀ b bits, tx.docs.lookup p.gtype = some b → b.Get p.gid = some bits → bits ≠ [] →
        getDoc env ctx tx (some p) =
          match protoUnmarshalDoc env bits with
          | some doc => Res.ok doc
          | none => Res.err Err.unmarshal) ∧
      (getConnection env ctx tx (some p) = Res.err Err.notFound ↔
        (tx.connections.lookup p.gtype = none ∨
          ∃ b, tx.connections.lookup p.gtype = some b ∧ (b.Get p.gid).getD [] = [])) ∧
      (∀ b bits, tx.connections.lookup p.gtype = some b → b.Get p.gid = some bits →
        bits ≠ [] →
        getConnection env ctx tx (some p) =
          match protoUnmarshalConnection env bits with
          | some connection => Res.ok connection
          | none => Res.err Err.unmarshal) := by
  refine ⟨?_, ?_, ?_, ?_⟩
  · unfold getDoc
    simp only [hlive]
    cases hb : tx.docs.lookup p.gtype with
    | none => simp
    | some b =>
      by_cases hbits : (b.Get p.gid).getD [] = []
      · simp [hbits]
      · have hlen : ¬ ((b.Get p.gid).getD []).length = 0 := by
          simpa [List.length_eq_zero] using hbits
        simp only [Bool.false_eq_true, if_false, hlen, hbits, reduceCtorEq, false_or,
          Option.some.injEq, exists_eq_left', iff_false]
        split <;> simp
  · intro b bits hb hget hne
    have hlen : ¬ bits.length = 0 := by simpa [List.length_eq_zero] using hne
    unfold getDoc
    simp only [hlive, hb, hget, hlen, Option.getD_some, Bool.false_eq_true, if_false]
    cases protoUnmarshalDoc env bits <;> rfl
  · unfold getConnection
    simp only [hlive]
    cases hb : tx.connections.lookup p.gtype with
    | none => simp
    | some b =>
      by_cases hbits : (b.Get p.gid).getD [] = []
      · simp [hbits]
      · have hlen : ¬ ((b.Get p.gid).getD []).length = 0 := by
          simpa [List.length_eq_zero] using hbits
        simp only [Bool.false_eq_true, if_false, hlen, hbits, reduceCtorEq, false_or,
          Option.some.injEq, exists_eq_left', iff_false]
        split <;> simp
  · intro b bits hb hget hne
    have hlen : ¬ bits.length = 0 := by simpa [List.length_eq_zero] using hne
    unfold getConnection
    simp only [hlive, hb, hget, hlen, Option.getD_some, Bool.false_eq_true, if_false]
    cases protoUnmarshalConnection env bits <;> rfl

/-- C5 at a concrete input: nothing lies under `dog/charlie` in the empty graph. -/
theorem get_notFound_iff_witness :
    demoCtx.done = false ∧
      getDoc demoEnv demoCtx demoGraph.db (some charliePath) = Res.err Err.notFound :=
  ⟨rfl, (get_notFound_iff demoEnv demoCtx demoGraph.db charliePath rfl).1.mpr
    (Or.inl (by decide))⟩

/-- C6, evaluated at a failing input.  `setIndex` of `heavy` (docs=true, expression
`doc.attributes.weight > 20.0`) is run and committed twice, which creates
`index_docs/heavy` and puts the index in the cache.  `dog/charlie` is written with weight
25, on which the expression is true, and its bytes are put under `charlie` in
`index_docs/heavy`.  It is then written with weight 5.  The second write succeeds, the
expression is false on the doc it wrote, and the key `charlie` is still in
`index_docs/heavy`, holding the bytes of the first write. -/
theorem setDoc_keeps_stale_index_entry :
    heavy.expression = "doc.attributes.weight > 20.0" ∧ heavy.docs = true ∧
      (setIndex demoEnv demoCtx demoGraph.db demoGraph heavy).1 = Res.ok heavy ∧
      (setIndex demoEnv demoCtx indexStored.db indexStored heavy).1 =
        Res.ok { heavy with sequence := 2 } ∧
      indexCached.indexes = [heavy] ∧
      (setDoc demoEnv demoStep demoCtx indexCached (charlieWeighing 25 0)).1 =
        Res.ok (storedDoc (charlieWeighing 25 0)) ∧
      DocVM.Eval (storedDoc (charlieWeighing 25 0))
          [DocVM.Program demoEnv heavy.expression] = Res.ok true ∧
      (heavyIndexed.db.indexDocs.lookup "heavy").bind (fun b => b.Get "charlie") =
        some (Wire.putDoc (storedDoc (charlieWeighing 25 0))) ∧
      (setDoc demoEnv demoStep demoCtx heavyIndexed (charlieWeighing 5 1)).1 =
        Res.ok
          { charlieWeighing 5 1 with
            metadata := some
              { Metadata.zero with createdAt := some 100, updatedAt := some 100, version := 2 } } ∧
      DocVM.Eval
          { charlieWeighing 5 1 with
            metadata := some
              { Metadata.zero with createdAt := some 100, updatedAt := some 100, version := 2 } }
          [DocVM.Program demoEnv heavy.expression] = Res.ok false ∧
      (lightIndexed.db.indexDocs.lookup "heavy").bind (fun b => b.Get "charlie") =
        some (Wire.putDoc (storedDoc (charlieWeighing 25 0))) := by
  refine ⟨?_, ?_, ?_, ?_, ?_, ?_, ?_, ?_, ?_, ?_, ?_⟩ <;> decide

/-- C7, refuted at a concrete input: `dog/charlie` is stored with version 2 (created,
then written back once); a further successful `setDoc` of a freshly built
`dog/charlie`, as a create of the same ref issues, stores version 1. -/
theorem version_can_decrease :
    storedVersion demoEnv demoCtx lightCharlie.db charliePath = some 2 ∧
      (setDoc demoEnv demoStep demoCtx lightCharlie (charlieWeighing 25 0)).1 =
        Res.ok
          { charlieWeighing 25 0 with
            metadata := some
              { Metadata.zero with createdAt := some 100, updatedAt := some 100, version := 1 } } ∧
      storedVersion demoEnv demoCtx
          (setDoc demoEnv demoStep demoCtx lightCharlie (charlieWeighing 25 0)).2.db
          charliePath = some 1 := by
  refine ⟨?_, ?_, ?_⟩ <;> decide

/-- C7, amended: a successful `setDoc` (`setConnection`) of an entity that carries
metadata stores, under the path of the returned entity, the version of the written
entity plus one modulo 2^64; unless the written version is 2^64 - 1 the stored version
is strictly greater than the written one.  (The decoder is assumed to invert the encoder
on the returned entity.) -/
theorem version_follows_written_entity (env : Env) (st : Step) (ctx : Ctx) (g : Graph) :
    (∀ (doc d : Doc) (m : Metadata), doc.metadata = some m →
        (setDoc env st ctx g doc).1 = Res.ok d →
        (∀ bits, env.marshalDoc d = some bits → protoUnmarshalDoc env bits = some d) →
        ∃ m', getDoc env ctx (setDoc env st ctx g doc).2.db d.path = Res.ok d ∧
          d.metadata = some m' ∧ m'.version = (m.version + 1) % 2 ^ 64 ∧
          (m.version + 1 < 2 ^ 64 → m.version < m'.version)) ∧
      (∀ (c c' : Connection) (m : Metadata), c.metadata = some m →
        (setConnection env st ctx g c).1 = Res.ok c' →
        (∀ bits, env.marshalConnection c' = some bits →
          protoUnmarshalConnection env bits = some c') →
        ∃ m', getConnection env ctx (setConnection env st ctx g c).2.db c'.path = Res.ok c' ∧
          c'.metadata = some m' ∧ m'.version = (m.version + 1) % 2 ^ 64 ∧
          (m.version + 1 < 2 ^ 64 → m.version < m'.version)) := by
  constructor
  · intro doc d m hm h hrt
    obtain ⟨_, hdoc, _⟩ := setDoc_ok (Prod.ext h rfl : setDoc env st ctx g doc = (Res.ok d, _))
    obtain ⟨m', hm', hv⟩ := @updateMeta_version st ctx m
    refine ⟨m', getDoc_after_setDoc h hrt, ?_, hv, ?_⟩
    · rw [hdoc, hm]; exact hm'
    · intro hlt
      rw [hv, Nat.mod_eq_of_lt hlt]
      exact Nat.lt_succ_self _
  · intro c c' m hm h hrt
    obtain ⟨_, hc, _⟩ :=
      setConnection_ok (Prod.ext h rfl : setConnection env st ctx g c = (Res.ok c', _))
    obtain ⟨m', hm', hv⟩ := @updateMeta_version st ctx m
    refine ⟨m', getConnection_after_setConnection h hrt, ?_, hv, ?_⟩
    · rw [hc, hm]; exact hm'
    · intro hlt
      rw [hv, Nat.mod_eq_of_lt hlt]
      exact Nat.lt_succ_self _

/-- C7, amended, at a concrete input: `dog/charlie` carrying version 1 is stored with
version 2. -/
theorem version_follows_written_entity_witness :
    ∃ m', getDoc demoEnv demoCtx lightCharlie.db (some charliePath) =
          Res.ok
            { charlieWeighing 5 1 with
              metadata := some
                { Metadata.zero with createdAt := some 100, updatedAt := some 100, version := 2 } } ∧
        some
            { Metadata.zero with createdAt := some 100, updatedAt := some 100, version := 2 } =
          some m' ∧
        m'.version = (1 + 1) % 2 ^ 64 ∧ (1 + 1 < 2 ^ 64 → 1 < m'.version) :=
  (version_follows_written_entity demoEnv demoStep demoCtx heavyCharlie).1
    (charlieWeighing 5 1)
    { charlieWeighing 5 1 with
      metadata := some
        { Metadata.zero with createdAt := some 100, updatedAt := some 100, version := 2 } }
    { Metadata.zero with version := 1 } rfl (by decide) (fun bits hb => by cases hb; decide)

theorem isGraphikAdmin_iff (g : Graph) (user : Doc) :
    isGraphikAdmin g user = true ↔
      ∃ fields, user.attributes = some fields ∧
        getStringValue (mapGet fields "email") ∈ g.rootUsers := by
  unfold isGraphikAdmin
  cases user.attributes with
  | none => simp
  | some fields => simp

/-- C8, refuted at a concrete input.  The root users are `root@x` alone, the one
authorizer denies everything, and the payload carries the email `mallory@x`, which is no
root user.  The identity resolves to the stored doc `user/mallory@x`, whose attribute
`email` holds `root@x`.  `Eval` over the request of the call with the registered program
returns false without error, and yet `check` admits the caller. -/
theorem check_admits_caller_outside_root_users :
    mapGet malloryPayload "email" = some (Value.string "mallory@x") ∧
      "mallory@x" ∉ (malloryGraph [("email", Value.string "root@x")]).rootUsers ∧
      (userToContext demoEnv demoStep { demoCtx with method := "GetDoc" }
          (malloryGraph [("email", Value.string "root@x")]) malloryPayload).1 =
        Res.ok
          ({ demoCtx with
              method := "GetDoc"
              identity := some (storedMallory [("email", Value.string "root@x")]) },
            storedMallory [("email", Value.string "root@x")]) ∧
      AuthVM.Eval
          { method := "GetDoc"
            user := some (storedMallory [("email", Value.string "root@x")])
            timestamp := 100
            request := none }
          ((malloryGraph [("email", Value.string "root@x")]).authorizers.map
            (fun a => a.program)) = Res.ok false ∧
      (check demoEnv demoStep demoCtx (malloryGraph [("email", Value.string "root@x")])
          "GetDoc" ReqBody.notMessage malloryPayload).1 =
        Res.ok
          { demoCtx with
            method := "GetDoc"
            identity := some (storedMallory [("email", Value.string "root@x")]) } := by
  refine ⟨?_, ?_, ?_, ?_, ?_⟩ <;> decide

/-- C8, amended: when the payload carries an email and the identity resolves to the doc
`user`, `check` answers `PermissionDenied` exactly when the attributes of `user` hold no
root user under `email` and `Eval` returns false without error over the request made of
the method, `user`, the clock reading and the JSON map of the request message (none for
a value that is no message), with the program of every registered authorizer.  A caller
whose attributes hold a root user under `email` is admitted whatever the authorizers
are; a caller who is none and whose request message has no JSON map is answered
`Internal`; and with no authorizer registered every other caller is admitted.  The
context handed on carries the method and `user`.  The doc `user` is the one read under
`user/<email>` when one can be read there; when none can and the call created it, the
string under `email` in its attributes is the email of the payload. -/
theorem check_denies_iff (env : Env) (st : Step) (ctx : Ctx) (g : Graph) (method : String)
    (req : ReqBody) (payload : List (String × Value)) (ctx' : Ctx) (user : Doc)
    (hid : (userToContext env st { ctx with method := method } g payload).1 =
      Res.ok (ctx', user)) :
    (∃ email, mapGet payload "email" = some (Value.string email)) ∧
      ctx' = { ctx with method := method, identity := some user } ∧
      ((check env st ctx g method req payload).1 = Res.err Err.permissionDenied ↔
        (¬ ∃ fields, user.attributes = some fields ∧
            getStringValue (mapGet fields "email") ∈ g.rootUsers) ∧
          ∃ body,
            (req = ReqBody.notMessage ∧ body = none ∨
              ∃ m, req = ReqBody.message (some m) ∧ body = some m) ∧
            AuthVM.Eval
                { method := method, user := some user, timestamp := st.now, request := body }
                (g.authorizers.map (fun a => a.program)) = Res.ok false) ∧
      ((∃ fields, user.attributes = some fields ∧
          getStringValue (mapGet fields "email") ∈ g.rootUsers) →
        (check env st ctx g method req payload).1 = Res.ok ctx') ∧
      ((¬ ∃ fields, user.attributes = some fields ∧
          getStringValue (mapGet fields "email") ∈ g.rootUsers) →
        req = ReqBody.message none →
        (check env st ctx g method req payload).1 = Res.err Err.internal) ∧
      (g.authorizers = [] → req ≠ ReqBody.message none →
        (check env st ctx g method req payload).1 = Res.ok ctx') ∧
      (∀ email, mapGet payload "email" = some (Value.string email) →
        (∀ d, getDoc env { ctx with method := method } g.db
            (some { gtype := userType, gid := email }) = Res.ok d → user = d) ∧
        ((∀ d, getDoc env { ctx with method := method } g.db
            (some { gtype := userType, gid := email }) ≠ Res.ok d) →
          ((∃ fields, user.attributes = some fields ∧
              getStringValue (mapGet fields "email") ∈ g.rootUsers) ↔
            email ∈ g.rootUsers))) := by
  obtain ⟨email, hemail, hctx, hcase⟩ := userToContext_ok hid
  have hcheck := @check_of_identity env st ctx ctx' g method req payload user hid
  have hroot := isGraphikAdmin_iff g user
  refine ⟨⟨email, hemail⟩, hctx, ?_, ?_, ?_, ?_, ?_⟩
  rotate_right
  · intro email' hemail'
    rw [hemail] at hemail'
    cases hemail'
    constructor
    · intro d hd
      rcases hcase with hread | ⟨hnone, _⟩
      · rw [hread] at hd
        cases hd
        rfl
      · exact absurd hd (hnone d)
    · intro hnone
      rcases hcase with hread | ⟨_, hattrs⟩
      · exact absurd hread (hnone user)
      · rw [hattrs]
        simp [hemail, getStringValue]
  · rw [hcheck]
    cases hadm : isGraphikAdmin g user with
    | true =>
      have h := hroot.mp hadm
      simp [h]
    | false =>
      have hnot : ¬ ∃ fields, user.attributes = some fields ∧
          getStringValue (mapGet fields "email") ∈ g.rootUsers := by
        intro h
        rw [hroot.mpr h] at hadm
        cases hadm
      simp only [Bool.false_eq_true, if_false, hnot, not_false_eq_true, true_and]
      cases req with
      | notMessage =>
        simp only [buildRequest, authorizerPrograms, true_and, reduceCtorEq, false_and,
          exists_false, or_false, exists_eq_left]
        cases heval : AuthVM.Eval
            { method := method, user := some user, timestamp := st.now, request := none }
            (g.authorizers.map (fun a => a.program)) with
        | ok b => cases b <;> simp
        | err e =>
          obtain ⟨msg, rfl⟩ := vmEval_err _ _ _ heval
          simp
        | panic => simp
      | message json =>
        cases json with
        | none => simp [buildRequest]
        | some m =>
          simp only [buildRequest, authorizerPrograms, reduceCtorEq, false_and, false_or,
            ReqBody.message.injEq, Option.some.injEq]
          cases heval : AuthVM.Eval
              { method := method, user := some user, timestamp := st.now, request := some m }
              (g.authorizers.map (fun a => a.program)) with
          | ok b => cases b <;> simp [heval]
          | err e =>
            obtain ⟨msg, rfl⟩ := vmEval_err _ _ _ heval
            simp [heval]
          | panic => simp [heval]
  · intro h
    rw [hcheck, hroot.mpr h]
    rfl
  · intro hnot hreq
    have hadm : isGraphikAdmin g user = false := by
      cases hb : isGraphikAdmin g user with
      | true => exact absurd (hroot.mp hb) hnot
      | false => rfl
    rw [hcheck, hadm, hreq]
    rfl
  · intro hnone hreq
    rw [hcheck]
    split
    · rfl
    · cases req with
      | notMessage => simp [buildRequest, authorizerPrograms, hnone, AuthVM.Eval, vmEval]
      | message json =>
        cases json with
        | none => exact absurd rfl hreq
        | some m => simp [buildRequest, authorizerPrograms, hnone, AuthVM.Eval, vmEval]

/-- C8, amended, at a concrete input: the stored identity doc of `mallory@x` holds
`mallory@x` under `email`, which is no root user, and the one authorizer denies
everything, so her `GetDoc` is answered `PermissionDenied`. -/
theorem check_denies_iff_witness :
    (userToContext demoEnv demoStep { demoCtx with method := "GetDoc" }
          (malloryGraph malloryPayload) malloryPayload).1 =
        Res.ok ({ demoCtx with method := "GetDoc", identity := some (storedMallory malloryPayload) },
          storedMallory malloryPayload) ∧
      (check demoEnv demoStep demoCtx (malloryGraph malloryPayload) "GetDoc"
          ReqBody.notMessage malloryPayload).1 = Res.err Err.permissionDenied :=
  ⟨by decide,
    (check_denies_iff demoEnv demoStep demoCtx (malloryGraph malloryPayload) "GetDoc"
      ReqBody.notMessage malloryPayload
      { demoCtx with method := "GetDoc", identity := some (storedMallory malloryPayload) }
      (storedMallory malloryPayload) (by decide)).2.2.1.mpr
      ⟨by
          rintro ⟨fields, hf, hmem⟩
          cases hf
          revert hmem
          decide,
        none, Or.inl ⟨rfl, rfl⟩, by decide⟩⟩

/-- C9, refuted at a concrete input.  The root users are `root@x` alone and the one
authorizer denies everything.  The verified payload says `mallory@x`.  When the stored
identity doc `user/mallory@x` holds `root@x` in its attribute `email`, `check` admits the
caller without consulting the authorizer; when it holds `mallory@x`, the same call is
denied: the decision follows the stored attribute, not the email claim. -/
theorem root_decision_follows_stored_attribute :
    mapGet malloryPayload "email" = some (Value.string "mallory@x") ∧
      "mallory@x" ∉ (malloryGraph [("email", Value.string "root@x")]).rootUsers ∧
      (check demoEnv demoStep demoCtx (malloryGraph [("email", Value.string "root@x")])
          "GetDoc" ReqBody.notMessage malloryPayload).1 =
        Res.ok
          { demoCtx with
            method := "GetDoc"
            identity := some (storedMallory [("email", Value.string "root@x")]) } ∧
      (check demoEnv demoStep demoCtx (malloryGraph [("email", Value.string "mallory@x")])
          "GetDoc" ReqBody.notMessage malloryPayload).1 = Res.err Err.permissionDenied := by
  refine ⟨?_, ?_, ?_, ?_⟩ <;> decide

/-- C9, amended: `check` treats the caller as root, admitting the request without
evaluating the authorizers, exactly when the identity doc it resolved has a field map
whose string under `email` is a root user; otherwise the outcome is the one the
authorizers give.  When no identity doc could be read under `user/<email>` and this call
created it, that string is the email claim of the payload. -/
theorem root_decision_reads_identity_attributes (env : Env) (st : Step) (ctx : Ctx)
    (g : Graph) (method : String) (req : ReqBody) (payload : List (String × Value))
    (ctx' : Ctx) (user : Doc)
    (hid : (userToContext env st { ctx with method := method } g payload).1 =
      Res.ok (ctx', user)) :
    (isGraphikAdmin g user = true ↔
        ∃ fields, user.attributes = some fields ∧
          getStringValue (mapGet fields "email") ∈ g.rootUsers) ∧
      (isGraphikAdmin g user = true →
        (check env st ctx g method req payload).1 = Res.ok ctx') ∧
      (isGraphikAdmin g user = false →
        ∀ request, buildRequest st method user req = some request →
          (check env st ctx g method req payload).1 =
            match AuthVM.Eval request (authorizerPrograms g) with
            | .err e => Res.err e
            | .panic => Res.panic
            | .ok false => Res.err Err.permissionDenied
            | .ok true => Res.ok ctx') ∧
      (∀ email, mapGet payload "email" = some (Value.string email) →
        (∀ d, getDoc env { ctx with method := method } g.db
            (some { gtype := userType, gid := email }) ≠ Res.ok d) →
        (isGraphikAdmin g user = true ↔ email ∈ g.rootUsers)) := by
  refine ⟨?_, ?_, ?_, ?_⟩
  · unfold isGraphikAdmin
    cases user.attributes with
    | none => simp
    | some fields => simp
  · intro hadm
    rw [check_of_identity hid, hadm]
    rfl
  · intro hadm request hreq
    rw [check_of_identity hid, hadm, hreq]
    rfl
  · intro email hemail hnone
    obtain ⟨email', hemail', _, hcase⟩ := userToContext_ok hid
    rw [hemail] at hemail'
    cases hemail'
    rcases hcase with hread | ⟨_, hattrs⟩
    · exact absurd hread (hnone user)
    · unfold isGraphikAdmin
      rw [hattrs]
      simp [hemail, getStringValue]

/-- C9, amended, at a concrete input: the identity doc of `mallory@x` is absent from the
guarded graph, the call creates it from the payload, and the caller is no root user. -/
theorem root_decision_reads_identity_attributes_witness :
    (userToContext demoEnv demoStep { demoCtx with method := "GetDoc" } guardedGraph
          malloryPayload).1 =
        Res.ok ({ demoCtx with method := "GetDoc", identity := some freshMallory },
          freshMallory) ∧
      getDoc demoEnv { demoCtx with method := "GetDoc" } guardedGraph.db
          (some { gtype := userType, gid := "mallory@x" }) = Res.err Err.notFound ∧
      (isGraphikAdmin guardedGraph freshMallory = true ↔
        "mallory@x" ∈ guardedGraph.rootUsers) :=
  have hread : getDoc demoEnv { demoCtx with method := "GetDoc" } guardedGraph.db
      (some { gtype := userType, gid := "mallory@x" }) = Res.err Err.notFound := by decide
  ⟨by decide, hread,
    (root_decision_reads_identity_attributes demoEnv demoStep demoCtx guardedGraph "GetDoc"
      ReqBody.notMessage malloryPayload
      { demoCtx with method := "GetDoc", identity := some freshMallory } freshMallory
      (by decide)).2.2.2 "mallory@x" (by decide)
      (fun d hd => by rw [hread] at hd; cases hd)⟩

/-- C10: for a list of compiled programs none of which raises a runtime error other
than "no such key", `DocVM.Eval` returns a boolean without error, and that boolean is
true exactly when every program returns the boolean true on the doc; on the empty list
it returns true. -/
theorem DocVM_Eval_true_iff (doc : Doc) (programs : List (Program Doc))
    (hsoft : ∀ p ∈ programs, ∀ msg, p doc ≠ ProgResult.fail msg) :
    (∃ b, DocVM.Eval doc (programs.map some) = Res.ok b) ∧
      (DocVM.Eval doc (programs.map some) = Res.ok true ↔
        ∀ p ∈ programs, p doc = ProgResult.bool true) ∧
      DocVM.Eval doc [] = Res.ok true := by
  have key : ∀ (ps : List (Program Doc)) (passes : Bool),
      (∀ p ∈ ps, ∀ msg, p doc ≠ ProgResult.fail msg) →
      (∃ b, evalLoop doc (ps.map some) passes = Res.ok b) ∧
        (evalLoop doc (ps.map some) passes = Res.ok true ↔
          passes = true ∧ ∀ p ∈ ps, p doc = ProgResult.bool true) := by
    intro ps
    induction ps with
    | nil => intro passes _; simp [evalLoop]
    | cons p rest ih =>
      intro passes h
      have hrest : ∀ q ∈ rest, ∀ msg, q doc ≠ ProgResult.fail msg :=
        fun q hq => h q (List.mem_cons_of_mem _ hq)
      have hp := h p (List.mem_cons_self _ _)
      simp only [List.map_cons, evalLoop]
      cases hr : p doc with
      | bool b =>
        cases b with
        | true =>
          obtain ⟨h1, h2⟩ := ih passes hrest
          refine ⟨h1, ?_⟩
          simp [h2, hr]
        | false =>
          obtain ⟨h1, h2⟩ := ih false hrest
          refine ⟨h1, ?_⟩
          simp [h2, hr]
      | nonBool =>
        obtain ⟨h1, h2⟩ := ih false hrest
        refine ⟨h1, ?_⟩
        simp [h2, hr]
      | noSuchKey => simp [hr]
      | fail msg => exact absurd hr (hp msg)
  refine ⟨?_, ?_, rfl⟩
  · cases programs with
    | nil => exact ⟨true, rfl⟩
    | cons p rest => exact (key (p :: rest) true hsoft).1
  · cases programs with
    | nil => simp [DocVM.Eval, vmEval]
    | cons p rest =>
      have h := (key (p :: rest) true hsoft).2
      simpa [DocVM.Eval, vmEval] using h

/-- C10 at a concrete input: the program of `doc.attributes.weight > 20.0` and the
constant true on a doc of weight 25. -/
theorem DocVM_Eval_true_iff_witness :
    (∀ p ∈ [weightOver20, fun _ => ProgResult.bool true],
        p (charlieWeighing 25 0) = ProgResult.bool true) ∧
      DocVM.Eval (charlieWeighing 25 0)
          ([weightOver20, fun _ => ProgResult.bool true].map some) = Res.ok true :=
  have hall : ∀ p ∈ [weightOver20, fun _ => ProgResult.bool true],
      p (charlieWeighing 25 0) = ProgResult.bool true := by
    intro p hp
    simp only [List.mem_cons, List.mem_singleton, List.not_mem_nil, or_false] at hp
    rcases hp with rfl | rfl <;> decide
  ⟨hall,
    (DocVM_Eval_true_iff (charlieWeighing 25 0) [weightOver20, fun _ => ProgResult.bool true]
      (fun p hp msg h => by rw [hall p hp] at h; cases h)).2.1.mpr hall⟩

/-! ### Claims C11 to C20 -/

theorem evalLoop_first_error {α : Type} (x : α) (p : Program α) (msg : String)
    (post : List (Program α)) (hp : p x = ProgResult.fail msg) :
    ∀ (pre : List (Program α)) (passes : Bool),
      (∀ q ∈ pre, q x ≠ ProgResult.noSuchKey ∧ ∀ m, q x ≠ ProgResult.fail m) →
      evalLoop x ((pre ++ p :: post).map some) passes = Res.err (Err.eval msg) := by
  intro pre
  induction pre with
  | nil => intro passes _; simp [evalLoop, hp]
  | cons q rest ih =>
    intro passes h
    have hq := h q (List.mem_cons_self _ _)
    have hrest : ∀ r ∈ rest, r x ≠ ProgResult.noSuchKey ∧ ∀ m, r x ≠ ProgResult.fail m :=
      fun r hr => h r (List.mem_cons_of_mem _ hr)
    simp only [List.cons_append, List.map_cons, evalLoop]
    cases hr : q x with
    | bool b => cases b <;> exact ih _ hrest
    | nonBool => exact ih _ hrest
    | noSuchKey => exact absurd hr hq.1
    | fail m => exact absurd hr (hq.2 m)

/-- C11, refuted at a concrete input: on `dog/charlie`, which has no weight, the program
of `doc.attributes.weight > 20.0` raises "no such key" and the next program raises a
division by zero; `DocVM.Eval` returns false without error. -/
theorem DocVM_Eval_soft_miss_hides_error :
    weightOver20 charlie = ProgResult.noSuchKey ∧
      divisionByZero charlie = ProgResult.fail "division by zero" ∧
      DocVM.Eval charlie ([weightOver20, divisionByZero].map some) = Res.ok false := by
  refine ⟨?_, ?_, ?_⟩ <;> decide

/-- C11, amended: when a program of the list raises a runtime error that is not "no such
key" and no program before it in the list raises any error, `DocVM.Eval` returns that
error and no boolean. -/
theorem DocVM_Eval_first_error (doc : Doc) (pre post : List (Program Doc))
    (p : Program Doc) (msg : String) (hp : p doc = ProgResult.fail msg)
    (hpre : ∀ q ∈ pre, q doc ≠ ProgResult.noSuchKey ∧ ∀ m, q doc ≠ ProgResult.fail m) :
    DocVM.Eval doc ((pre ++ p :: post).map some) = Res.err (Err.eval msg) := by
  have h := evalLoop_first_error doc p msg post hp pre true hpre
  cases pre with
  | nil => simpa [DocVM.Eval, vmEval] using h
  | cons q rest => simpa [DocVM.Eval, vmEval] using h

/-- C11, amended, at a concrete input: the constant true runs first, then the division
by zero, whose error is returned. -/
theorem DocVM_Eval_first_error_witness :
    divisionByZero charlie = ProgResult.fail "division by zero" ∧
      DocVM.Eval charlie
          (([fun _ => ProgResult.bool true] ++ divisionByZero :: [weightOver20]).map some) =
        Res.err (Err.eval "division by zero") :=
  ⟨rfl,
    DocVM_Eval_first_error charlie [fun _ => ProgResult.bool true] [weightOver20]
      divisionByZero "division by zero" rfl
      (by
        intro q hq
        simp only [List.mem_singleton] at hq
        subst hq
        exact ⟨by simp, by simp⟩)⟩

/-- C12, evaluated at a failing input: the batch holds `owner/e1` between the two stored
docs and then `owner/e2`, whose `to` doc is missing.  `setConnections` returns the error
and the database is rolled back, so `owner/e1` is not stored; but its path, appended by
the first `setConnection`, is still in `connectionsFrom` of `dog/charlie` and in
`connectionsTo` of `human/alice`, which were empty before the call. -/
theorem setConnections_error_keeps_adjacency :
    (setConnections demoEnv demoSteps demoCtx twoDocs [ownerEdge true, danglingEdge]).1 =
        Res.err Err.toMissing ∧
      (setConnections demoEnv demoSteps demoCtx twoDocs [ownerEdge true, danglingEdge]).2.db =
        twoDocs.db ∧
      getConnection demoEnv demoCtx
          (setConnections demoEnv demoSteps demoCtx twoDocs [ownerEdge true, danglingEdge]).2.db
          (some ownerPath) = Res.err Err.notFound ∧
      pathsAt twoDocs.connectionsFrom charliePath.String = [] ∧
      pathsAt twoDocs.connectionsTo alicePath.String = [] ∧
      pathsAt
          (setConnections demoEnv demoSteps demoCtx twoDocs
            [ownerEdge true, danglingEdge]).2.connectionsFrom charliePath.String =
        [ownerPath] ∧
      pathsAt
          (setConnections demoEnv demoSteps demoCtx twoDocs
            [ownerEdge true, danglingEdge]).2.connectionsTo alicePath.String =
        [ownerPath] := by
  refine ⟨?_, ?_, ?_, ?_, ?_, ?_, ?_⟩ <;> decide

/-- C13, evaluated at failing inputs: with `dog/charlie` and `human/alice` stored, a
search over the wildcard gtype with limit 1 returns both docs; with `dog/charlie` alone
stored, a search over `dog` with limit 0 returns it. -/
theorem SearchDocs_exceeds_limit :
    SearchDocs demoEnv demoCtx twoDocs { gtype := anyType, expressions := [], limit := 1 } =
        Res.ok [storedDoc charlie, storedDoc alice] ∧
      ([storedDoc charlie, storedDoc alice].length : Int) > 1 ∧
      SearchDocs demoEnv demoCtx oneDoc { gtype := "dog", expressions := [], limit := 0 } =
        Res.ok [storedDoc charlie] ∧
      ([storedDoc charlie].length : Int) > 0 := by
  refine ⟨?_, ?_, ?_, ?_⟩ <;> decide

/-- C14, evaluated at a failing input: `dog/charlie` is stored without attributes, as a
constructor without attributes leaves it.  `PatchDoc` with a weight faults on the write
into the nil field map; the transaction is rolled back and the stored doc is unchanged. -/
theorem PatchDoc_faults_without_attributes :
    getDoc demoEnv demoCtx bareGraph.db (some charliePath) = Res.ok (storedDoc bareCharlie) ∧
      (PatchDoc demoEnv demoStep demoCtx bareGraph weightPatch).1 = Res.panic ∧
      getDoc demoEnv demoCtx (PatchDoc demoEnv demoStep demoCtx bareGraph weightPatch).2.1.db
          (some charliePath) = Res.ok (storedDoc bareCharlie) := by
  refine ⟨?_, ?_, ?_⟩ <;> decide

theorem dbUpdateT_fst {α : Type} (g : Graph) (fn : Graph → Res α × Graph × List Effect) :
    (dbUpdateT g fn).1 = (fn g).1 := by
  unfold dbUpdateT
  rcases h : fn g with ⟨r, g', effects⟩
  cases r <;> rfl

theorem patchConnectionTx_not_ok (env : Env) (value : Patch) (tx : Graph) (c : Connection) :
    (patchConnectionTx env value tx).1 ≠ Res.ok c := by
  unfold patchConnectionTx
  split
  · simp
  · split
    · simp
    · split <;> simp

/-- C15, evaluated: `PatchConnection` never returns a connection, whatever the store and
the patch; on the stored connection `owner/e1` it faults, with a patch that carries a
field and with one that carries none. -/
theorem PatchConnection_never_succeeds :
    (∀ (env : Env) (g : Graph) (value : Patch) (c : Connection),
        (PatchConnection env g value).1 ≠ Res.ok c) ∧
      getConnection demoEnv demoCtx (linked true).db (some ownerPath) =
        Res.ok (storedOwnerEdge true) ∧
      (PatchConnection demoEnv (linked true) ownerPatch).1 = Res.panic ∧
      (PatchConnection demoEnv (linked true) { path := some ownerPath, attributes := none }).1 =
        Res.panic := by
  refine ⟨?_, ?_, ?_, ?_⟩
  · intro env g value c
    unfold PatchConnection
    rw [dbUpdateT_fst]
    exact patchConnectionTx_not_ok env value g c
  · decide
  · decide
  · decide

theorem Sub.Put_eq_ok (b : Sub) (key : String) (value : Bytes)
    (h1 : key.utf8ByteSize ≠ 0) (h2 : key.utf8ByteSize ≤ maxKeySize)
    (h3 : value.length ≤ maxValueSize) :
    b.Put key value = Except.ok { b with kv := b.kv.insert key value } := by
  unfold Sub.Put
  rw [if_neg h1, if_neg (Nat.not_lt.mpr h2), if_neg (Nat.not_lt.mpr h3)]

theorem bucketOrCreate_eq_ok (parent : Bucket Sub) (name : String)
    (h : name.utf8ByteSize ≠ 0) :
    ∃ parent', bucketOrCreate parent name =
        Except.ok ((parent.lookup name).getD Sub.empty, parent') := by
  unfold bucketOrCreate createBucketIfNotExists
  cases hl : parent.lookup name with
  | some b => exact ⟨parent, rfl⟩
  | none => exact ⟨parent.insert name Sub.empty, by simp [h]⟩

theorem ensurePath_idem (st : Step) (p : Option Path) :
    ensurePath st (some (ensurePath st p)) = ensurePath st p := by
  unfold ensurePath
  simp only [Option.getD_some]
  split <;> simp_all

theorem ensurePath_some (st : Step) (p : Path) :
    ensurePath st (some p) =
      { gtype := p.gtype, gid := if p.gid = "" then st.uuid else p.gid } := by
  unfold ensurePath
  simp only [Option.getD_some]
  split <;> simp_all

theorem setDoc_succeeds {env : Env} {st : Step} {ctx : Ctx} (g : Graph) (doc : Doc)
    {bits : Bytes} (hlive : ctx.done = false)
    (hbits : env.marshalDoc
      { doc with path := some (ensurePath st doc.path),
                 metadata := updateMeta st ctx doc.metadata } = some bits)
    (hgtype : (ensurePath st doc.path).gtype.utf8ByteSize ≠ 0)
    (hgid : (ensurePath st doc.path).gid.utf8ByteSize ≠ 0)
    (hgid' : (ensurePath st doc.path).gid.utf8ByteSize ≤ maxKeySize)
    (hsize : bits.length ≤ maxValueSize) :
    (setDoc env st ctx g doc).1 =
      Res.ok { doc with path := some (ensurePath st doc.path),
                        metadata := updateMeta st ctx doc.metadata } := by
  obtain ⟨parent', hb⟩ := bucketOrCreate_eq_ok g.db.docs _ hgtype
  unfold setDoc
  simp only [hlive, Bool.false_eq_true, if_false, hbits, hb,
    Sub.Put_eq_ok _ _ _ hgid hgid' hsize]

theorem constructedDoc_written (now : Nat) (st : Step) (ctx : Ctx) (u : Doc) (p : Path)
    (attributes : Option (List (String × Value))) (sequence : Nat)
    (hu : ctx.identity = some u) :
    ({ constructedDoc now u (ensurePath st (some p)) attributes sequence with
        path := some (ensurePath st
          (constructedDoc now u (ensurePath st (some p)) attributes sequence).path),
        metadata := updateMeta st ctx
          (constructedDoc now u (ensurePath st (some p)) attributes sequence).metadata } : Doc) =
      createdDoc now st u (ensurePath st (some p)) attributes sequence := by
  simp [constructedDoc, createdDoc, updateMeta, hu, ensurePath_idem]

theorem createDocsLoop_single {env : Env} {now : Nat} {steps : Nat → Step} {ctx : Ctx}
    {u : Doc} (tx : Graph) {constructor : DocConstructor} {p : Path} {bits : Bytes}
    (hp : constructor.path = some p) (hu : ctx.identity = some u)
    (hlive : ctx.done = false) (hgtype : p.gtype.utf8ByteSize ≠ 0)
    (hgid : (ensurePath (steps 0) (some p)).gid.utf8ByteSize ≠ 0)
    (hgid' : (ensurePath (steps 0) (some p)).gid.utf8ByteSize ≤ maxKeySize)
    (hbits : env.marshalDoc
      (createdDoc now (steps 0) u (ensurePath (steps 0) (some p)) constructor.attributes
        (nextDocSequence tx.db p.gtype)) = some bits)
    (hsize : bits.length ≤ maxValueSize) :
    (createDocsLoop env now steps ctx u 0 [constructor] tx []).1 =
      Res.ok [createdDoc now (steps 0) u (ensurePath (steps 0) (some p))
        constructor.attributes (nextDocSequence tx.db p.gtype)] := by
  have hg : (ensurePath (steps 0) (some p)).gtype = p.gtype := by
    rw [ensurePath_some]
  have hgtype' : (ensurePath (steps 0) (some p)).gtype.utf8ByteSize ≠ 0 := by
    rw [hg]; exact hgtype
  obtain ⟨parent', hb⟩ := bucketOrCreate_eq_ok tx.db.docs _ hgtype'
  have hseq : ((tx.db.docs.lookup (ensurePath (steps 0) (some p)).gtype).getD
      Sub.empty).NextSequence.1 = nextDocSequence tx.db p.gtype := by
    rw [hg]; rfl
  unfold createDocsLoop
  simp only [hp, hb, hseq]
  have hwrite := constructedDoc_written now (steps 0) ctx u p constructor.attributes
    (nextDocSequence tx.db p.gtype) hu
  have hset : ∀ tx1 : Graph,
      (setDoc env (steps 0) ctx tx1
        (constructedDoc now u (ensurePath (steps 0) (some p)) constructor.attributes
          (nextDocSequence tx.db p.gtype))).1 =
        Res.ok (createdDoc now (steps 0) u (ensurePath (steps 0) (some p))
          constructor.attributes (nextDocSequence tx.db p.gtype)) := by
    intro tx1
    have h := @setDoc_succeeds env (steps 0) ctx tx1
      (constructedDoc now u (ensurePath (steps 0) (some p)) constructor.attributes
        (nextDocSequence tx.db p.gtype)) bits
      hlive (by rw [hwrite]; exact hbits)
      (by simpa [constructedDoc, ensurePath_idem] using hgtype')
      (by simpa [constructedDoc, ensurePath_idem] using hgid)
      (by simpa [constructedDoc, ensurePath_idem] using hgid')
      hsize
    rw [hwrite] at h
    exact h
  split
  · rename_i doc tx2 heq
    have h := congrArg Prod.fst heq
    rw [hset] at h
    simp only [Res.ok.injEq] at h
    subst h
    simp [createDocsLoop]
  · rename_i e tx2 heq
    have h := congrArg Prod.fst heq
    rw [hset] at h
    cases h
  · rename_i tx2 heq
    have h := congrArg Prod.fst heq
    rw [hset] at h
    cases h

/-- C16, refuted at a concrete input: a constructor with the non-nil ref `/x`, whose gtype
is empty, issued by the authenticated caller `mallory@x`, is refused with the bucket-name
error of bbolt. -/
theorem CreateDoc_refuses_empty_gtype :
    untypedConstructor.path = some { gtype := "", gid := "x" } ∧
      authCtx.identity = some freshMallory ∧
      (CreateDoc demoEnv 100 demoSteps authCtx demoGraph untypedConstructor).1 =
        Res.err Err.bucketNameRequired := by
  refine ⟨rfl, rfl, ?_⟩
  decide

/-- C16, amended: for a constructor with a non-nil ref whose gtype is not empty, issued by
an authenticated caller on a live context, whose gid (the given one, or the generated
uuid when the given one is empty) is a key bbolt accepts and whose doc the codec encodes
within the value bound, `CreateDoc` succeeds; the doc it returns has the gtype and the
attributes of the constructor, the gid of the constructor when that is not empty and the
generated one otherwise, and version 1. -/
theorem CreateDoc_succeeds (env : Env) (now : Nat) (steps : Nat → Step) (ctx : Ctx)
    (g : Graph) (constructor : DocConstructor) (p : Path) (u : Doc) (bits : Bytes)
    (hp : constructor.path = some p) (hu : ctx.identity = some u)
    (hlive : ctx.done = false) (hgtype : p.gtype.utf8ByteSize ≠ 0)
    (hgid : (ensurePath (steps 0) (some p)).gid.utf8ByteSize ≠ 0)
    (hgid' : (ensurePath (steps 0) (some p)).gid.utf8ByteSize ≤ maxKeySize)
    (hbits : env.marshalDoc
      (createdDoc now (steps 0) u (ensurePath (steps 0) (some p)) constructor.attributes
        (nextDocSequence g.db p.gtype)) = some bits)
    (hsize : bits.length ≤ maxValueSize) :
    ∃ d, (CreateDoc env now steps ctx g constructor).1 = Res.ok d ∧
      d.path = some { gtype := p.gtype, gid := if p.gid = "" then (steps 0).uuid else p.gid } ∧
      d.attributes = constructor.attributes ∧
      d.metadata.map (fun m => m.version) = some 1 := by
  refine ⟨createdDoc now (steps 0) u (ensurePath (steps 0) (some p)) constructor.attributes
    (nextDocSequence g.db p.gtype), ?_, ?_, rfl, rfl⟩
  · have hloop := @createDocsLoop_single env now steps ctx u g constructor p bits hp hu
      hlive hgtype hgid hgid' hbits hsize
    have hsort := List.perm_singleton.mp (env.sortDocs_perm
      [createdDoc now (steps 0) u (ensurePath (steps 0) (some p)) constructor.attributes
        (nextDocSequence g.db p.gtype)])
    unfold CreateDoc CreateDocs dbUpdateT
    simp only [hu, hlive, Bool.false_eq_true, if_false, hloop, hsort]
  · simp [createdDoc, ensurePath_some]

/-- C16, amended, at a concrete input: the caller `mallory@x` creates `dog/charlie`. -/
theorem CreateDoc_succeeds_witness :
    ∃ d, (CreateDoc demoEnv 100 demoSteps authCtx demoGraph charlieConstructor).1 = Res.ok d ∧
      d.path = some { gtype := "dog", gid := if "charlie" = "" then "u-1" else "charlie" } ∧
      d.attributes = charlieConstructor.attributes ∧
      d.metadata.map (fun m => m.version) = some 1 :=
  CreateDoc_succeeds demoEnv 100 demoSteps authCtx demoGraph charlieConstructor charliePath
    freshMallory
    (Wire.putDoc (createdDoc 100 demoStep freshMallory charliePath
      charlieConstructor.attributes 1))
    rfl rfl rfl (by decide) (by decide) (by decide) (by decide) (by decide)

theorem graph_with_own_db (g : Graph) : ({ g with db := g.db } : Graph) = g := by
  cases g
  rfl

theorem delDoc_ok_docs {env : Env} {ctx : Ctx} {g g' : Graph} {path : Option Path}
    (h : delDoc env ctx g path = (Res.ok (), g')) :
    ∃ doc, getDoc env ctx g.db path = Res.ok doc ∧
      ∃ bucket : Sub,
        g'.db.docs.lookup (doc.path.getD { gtype := "", gid := "" }).gtype =
          some (bucket.Delete (doc.path.getD { gtype := "", gid := "" }).gid) := by
  unfold delDoc at h
  split at h
  · cases h
  · cases h
  · cases h
  · rename_i doc p hget
    refine ⟨doc, hget, ?_⟩
    · split at h
      · cases h
      · split at h
        · cases h
        · simp only [] at h
          split at h
          · cases h
          · rename_i bucket hb
            simp only [Prod.mk.injEq, true_and] at h
            subst h
            exact ⟨bucket, by simp [Bucket.lookup_insert_self]⟩

theorem Sub.Get_Delete (b : Sub) (key : String) : (b.Delete key).Get key = none := by
  simp [Sub.Get, Sub.Delete, Bucket.lookup_erase_self]

theorem DelDoc_ok {env : Env} {now : Nat} {ctx : Ctx} {g : Graph} {path : Option Path}
    (h : (DelDoc env now ctx g path).1 = Res.ok ()) :
    (delDoc env ctx g path).1 = Res.ok () ∧
      (DelDoc env now ctx g path).2.1 = (delDoc env ctx g path).2 := by
  unfold DelDoc dbUpdateT delDocTx at h ⊢
  cases hget : getDoc env ctx g.db path with
  | err e => simp [hget] at h
  | panic => simp [hget] at h
  | ok n =>
    simp only [hget] at h ⊢
    rcases hdel : delDoc env ctx g path with ⟨r, g'⟩
    cases r with
    | ok u => simp [hdel]
    | err e => simp [hdel] at h
    | panic => simp [hdel] at h

/-- C17: when the doc stored under `r` carries the ref `r` and `DelDoc` of `r` succeeds,
a `GetDoc` of `r` by an authenticated caller on a live context, run on the state
`DelDoc` left, fails with `ErrNotFound`; and on a live context `DelDoc` of a ref under
which nothing is stored fails with `ErrNotFound` and leaves the state as it was. -/
theorem DelDoc_then_GetDoc (env : Env) (now : Nat) (ctx : Ctx) (g : Graph) (r : Path) :
    (∀ d, getDoc env ctx g.db (some r) = Res.ok d → d.path = some r →
        (DelDoc env now ctx g (some r)).1 = Res.ok () →
        ∀ ctx2 : Ctx, ctx2.done = false → ctx2.identity.isSome = true →
          GetDoc env ctx2 (DelDoc env now ctx g (some r)).2.1 (some r) =
            Res.err Err.notFound) ∧
      (ctx.done = false →
        (g.db.docs.lookup r.gtype = none ∨
          ∃ b, g.db.docs.lookup r.gtype = some b ∧ (b.Get r.gid).getD [] = []) →
        (DelDoc env now ctx g (some r)).1 = Res.err Err.notFound ∧
          (DelDoc env now ctx g (some r)).2.1 = g) := by
  constructor
  · intro d hd hpath hok ctx2 hlive hauth
    obtain ⟨hdel, hstate⟩ := DelDoc_ok hok
    obtain ⟨doc, hget, bucket, hlook⟩ :=
      delDoc_ok_docs (Prod.ext hdel rfl : delDoc env ctx g (some r) = (Res.ok (), _))
    rw [hd] at hget
    cases hget
    rw [hpath] at hlook
    simp only [Option.getD_some] at hlook
    unfold GetDoc
    cases hid : ctx2.identity with
    | none => simp [hid] at hauth
    | some u =>
      simp only [hlive, Bool.false_eq_true, if_false]
      unfold getDoc
      simp [hlive, hstate, hlook, Sub.Get_Delete]
  · intro hlive habsent
    have hget : getDoc env ctx g.db (some r) = Res.err Err.notFound := by
      unfold getDoc
      rcases habsent with h | ⟨b, hb, hbits⟩
      · simp [hlive, h]
      · simp [hlive, hb, hbits]
    unfold DelDoc dbUpdateT delDocTx
    simp [hget, graph_with_own_db]

/-- C17 at concrete inputs: `dog/charlie`, stored without connections, is deleted and then
no longer found; deleting it from the empty graph fails with `ErrNotFound`. -/
theorem DelDoc_then_GetDoc_witness :
    getDoc demoEnv demoCtx oneDoc.db (some charliePath) = Res.ok (storedDoc charlie) ∧
      (DelDoc demoEnv 100 demoCtx oneDoc (some charliePath)).1 = Res.ok () ∧
      GetDoc demoEnv authCtx (DelDoc demoEnv 100 demoCtx oneDoc (some charliePath)).2.1
          (some charliePath) = Res.err Err.notFound ∧
      (DelDoc demoEnv 100 demoCtx demoGraph (some charliePath)).1 = Res.err Err.notFound ∧
      (DelDoc demoEnv 100 demoCtx demoGraph (some charliePath)).2.1 = demoGraph :=
  ⟨by decide, by decide,
    (DelDoc_then_GetDoc demoEnv 100 demoCtx oneDoc charliePath).1 (storedDoc charlie)
      (by decide) rfl (by decide) authCtx rfl rfl,
    (DelDoc_then_GetDoc demoEnv 100 demoCtx demoGraph charliePath).2 rfl
      (Or.inl (by decide))⟩

theorem updateMeta_fields (st : Step) (ctx : Ctx) (m : Metadata) :
    ∃ m', updateMeta st ctx (some m) = some m' ∧
      m'.createdAt = (if m.createdAt.isSome then m.createdAt else some st.now) ∧
      m'.createdBy =
        (if m.createdBy.isSome then m.createdBy else ctx.identity.bind (fun u => u.path)) ∧
      m'.updatedBy =
        (match ctx.identity with
          | some u => u.path
          | none => m.updatedBy) := by
  refine ⟨_, rfl, ?_, ?_, ?_⟩
  · cases h : m.createdAt <;> simp
  · cases h : m.createdBy <;> simp
  · cases h : ctx.identity <;> simp

/-- C18, refuted at a concrete input: the context holds no identity and the doc carries
`human/alice` as its last updater; the successful `setDoc` stores `human/alice` as
`updated_by`, not the (absent) ref of the caller. -/
theorem updatedBy_kept_without_identity :
    demoCtx.identity = none ∧
      updatedByAlice.metadata.bind (fun m => m.updatedBy) = some alicePath ∧
      getDoc demoEnv demoCtx (setDoc demoEnv demoStep demoCtx demoGraph updatedByAlice).2.db
          (some charliePath) =
        Res.ok
          { updatedByAlice with
            metadata := some
              { Metadata.zero with
                createdAt := some 100, updatedAt := some 100, version := 1,
                updatedBy := some alicePath } } := by
  refine ⟨rfl, rfl, ?_⟩
  decide

/-- C18, amended: a successful `setDoc` (`setConnection`) of an entity with metadata `m`
stores metadata in which `created_at` and `created_by` are those of `m` when `m` has them
set, and otherwise the clock reading and the ref of the identity in the context (none
when there is no identity); `updated_by` is the ref of the identity when the context
holds one, and is left as `m` had it when the context holds none.  (The decoder is
assumed to invert the encoder on the returned entity.) -/
theorem metadata_stamping (env : Env) (st : Step) (ctx : Ctx) (g : Graph) :
    (∀ (doc d : Doc) (m : Metadata), doc.metadata = some m →
        (setDoc env st ctx g doc).1 = Res.ok d →
        (∀ bits, env.marshalDoc d = some bits → protoUnmarshalDoc env bits = some d) →
        ∃ m', getDoc env ctx (setDoc env st ctx g doc).2.db d.path = Res.ok d ∧
          d.metadata = some m' ∧
          m'.createdAt = (if m.createdAt.isSome then m.createdAt else some st.now) ∧
          m'.createdBy =
            (if m.createdBy.isSome then m.createdBy
              else ctx.identity.bind (fun u => u.path)) ∧
          m'.updatedBy =
            (match ctx.identity with
              | some u => u.path
              | none => m.updatedBy)) ∧
      (∀ (c c' : Connection) (m : Metadata), c.metadata = some m →
        (setConnection env st ctx g c).1 = Res.ok c' →
        (∀ bits, env.marshalConnection c' = some bits →
          protoUnmarshalConnection env bits = some c') →
        ∃ m', getConnection env ctx (setConnection env st ctx g c).2.db c'.path = Res.ok c' ∧
          c'.metadata = some m' ∧
          m'.createdAt = (if m.createdAt.isSome then m.createdAt else some st.now) ∧
          m'.createdBy =
            (if m.createdBy.isSome then m.createdBy
              else ctx.identity.bind (fun u => u.path)) ∧
          m'.updatedBy =
            (match ctx.identity with
              | some u => u.path
              | none => m.updatedBy)) := by
  constructor
  · intro doc d m hm h hrt
    obtain ⟨_, hdoc, _⟩ := setDoc_ok (Prod.ext h rfl : setDoc env st ctx g doc = (Res.ok d, _))
    obtain ⟨m', hm', h1, h2, h3⟩ := updateMeta_fields st ctx m
    refine ⟨m', getDoc_after_setDoc h hrt, ?_, h1, h2, h3⟩
    rw [hdoc, hm]
    exact hm'
  · intro c c' m hm h hrt
    obtain ⟨_, hc, _⟩ :=
      setConnection_ok (Prod.ext h rfl : setConnection env st ctx g c = (Res.ok c', _))
    obtain ⟨m', hm', h1, h2, h3⟩ := updateMeta_fields st ctx m
    refine ⟨m', getConnection_after_setConnection h hrt, ?_, h1, h2, h3⟩
    rw [hc, hm]
    exact hm'

/-- C18, amended, at a concrete input: the caller `mallory@x` writes `dog/charlie`, which
carried `human/alice` as its last updater; the stored `updated_by` and `created_by` are
the ref of `mallory@x`. -/
theorem metadata_stamping_witness :
    ∃ m', getDoc demoEnv authCtx
          (setDoc demoEnv demoStep authCtx demoGraph updatedByAlice).2.db
          (some charliePath) = Res.ok (stampedByMallory) ∧
        stampedByMallory.metadata = some m' ∧
        m'.createdAt = some 100 ∧
        m'.createdBy = some { gtype := userType, gid := "mallory@x" } ∧
        m'.updatedBy = some { gtype := userType, gid := "mallory@x" } :=
  (metadata_stamping demoEnv demoStep authCtx demoGraph).1 updatedByAlice stampedByMallory
    { Metadata.zero with updatedBy := some alicePath } rfl (by decide)
    (fun bits hb => by cases hb; decide)

theorem createBucketDropErr_lookup (parent : Bucket Sub) (name : String)
    (h : name.utf8ByteSize ≠ 0) :
    (createBucketDropErr parent name).lookup name =
      some ((parent.lookup name).getD Sub.empty) := by
  unfold createBucketDropErr createBucketIfNotExists
  rw [if_neg h]
  cases hl : parent.lookup name with
  | some b => simp [hl]
  | none => simp [Bucket.lookup_insert_self]

theorem Sub.Put_ok_key {b b' : Sub} {key : String} {value : Bytes}
    (h : b.Put key value = Except.ok b') : key.utf8ByteSize ≠ 0 := by
  unfold Sub.Put at h
  split at h
  · cases h
  · assumption

/-- C19, refuted at a concrete input: `dog/charlie` of weight 25 is stored and the
expression `doc.attributes.weight > 20.0` of the index `heavy` over docs is true on it;
`setIndex` of `heavy` succeeds and creates `index_docs/heavy`, which holds no entry at
all. -/
theorem setIndex_does_not_backfill :
    heavy.expression = "doc.attributes.weight > 20.0" ∧ heavy.docs = true ∧
      getDoc demoEnv demoCtx weighedGraph.db (some charliePath) =
        Res.ok (storedDoc (charlieWeighing 25 0)) ∧
      DocVM.Eval (storedDoc (charlieWeighing 25 0))
          [DocVM.Program demoEnv heavy.expression] = Res.ok true ∧
      (setIndex demoEnv demoCtx weighedGraph.db weighedGraph heavy).1 = Res.ok heavy ∧
      (setIndex demoEnv demoCtx weighedGraph.db weighedGraph heavy).2.db.indexDocs.lookup
          "heavy" = some Sub.empty := by
  refine ⟨?_, ?_, ?_, ?_, ?_, ?_⟩ <;> decide

theorem setIndex_ok {env : Env} {ctx : Ctx} {committed : Store} {g g' : Graph}
    {i j : Index} (h : setIndex env ctx committed g i = (Res.ok j, g'))
    (hdocs : i.docs = true) :
    g'.db.indexDocs.lookup i.name = some ((g.db.indexDocs.lookup i.name).getD Sub.empty) ∧
      g'.db.docs = g.db.docs := by
  unfold setIndex at h
  split at h
  · cases h
  · simp only [] at h
    split at h
    · cases h
    · split at h
      · cases h
      · rename_i bucket' hput
        have hname : i.name.utf8ByteSize ≠ 0 := Sub.Put_ok_key hput
        split at h
        · cases h
        · simp only [Prod.mk.injEq, Res.ok.injEq] at h
          obtain ⟨_, hg⟩ := h
          subst hg
          simp only [hdocs, if_true]
          refine ⟨?_, ?_⟩
          · rw [createBucketDropErr_lookup _ _ hname]
            split <;> rfl
          · split <;> rfl

/-- C19, amended: after `setIndex` of a descriptor with docs=true succeeds, the bucket
`index_docs/<name>` exists; `setIndex` writes no entry into it, so a bucket it created is
empty and a bucket that existed holds what it held; the stored docs are not read or
changed. -/
theorem setIndex_creates_bucket_only (env : Env) (ctx : Ctx) (committed : Store)
    (g : Graph) (i j : Index) (hdocs : i.docs = true)
    (h : (setIndex env ctx committed g i).1 = Res.ok j) :
    (setIndex env ctx committed g i).2.db.indexDocs.lookup i.name =
        some ((g.db.indexDocs.lookup i.name).getD Sub.empty) ∧
      (setIndex env ctx committed g i).2.db.docs = g.db.docs :=
  setIndex_ok (Prod.ext h rfl : setIndex env ctx committed g i = (Res.ok j, _)) hdocs

/-- C19, amended, at a concrete input: the bucket `index_docs/heavy` did not exist in the
graph that stores `dog/charlie`, and is empty after `setIndex`. -/
theorem setIndex_creates_bucket_only_witness :
    heavy.docs = true ∧
      (setIndex demoEnv demoCtx weighedGraph.db weighedGraph heavy).2.db.indexDocs.lookup
          heavy.name = some ((weighedGraph.db.indexDocs.lookup heavy.name).getD Sub.empty) ∧
      (setIndex demoEnv demoCtx weighedGraph.db weighedGraph heavy).2.db.docs =
        weighedGraph.db.docs :=
  ⟨rfl, setIndex_creates_bucket_only demoEnv demoCtx weighedGraph.db weighedGraph heavy heavy
    rfl (by decide)⟩

/-- C20, evaluated at a failing input.  `setIndex` of `heavy` (docs=true, gtype `dog`,
expression `doc.attributes.weight > 20.0`) is run and committed twice, which puts the
index in the cache; `setDoc` of `cat/tom` of weight 25, on which the expression is true,
puts its bytes under `tom` in `index_docs/heavy`, since `setDoc` does not look at the
gtype of an index.  `delDoc` of `cat/tom` succeeds and removes the doc, but it skips the
index because its gtype is not `cat`: the entry written for `cat/tom` is still there. -/
theorem delDoc_leaves_foreign_index_entry :
    heavy.expression = "doc.attributes.weight > 20.0" ∧ heavy.docs = true ∧
      heavy.gtype = "dog" ∧
      (setIndex demoEnv demoCtx demoGraph.db demoGraph heavy).1 = Res.ok heavy ∧
      (setIndex demoEnv demoCtx indexStored.db indexStored heavy).1 =
        Res.ok { heavy with sequence := 2 } ∧
      indexCached.indexes = [heavy] ∧
      (indexCached.db.indexDocs.lookup "heavy").bind (fun b => b.Get "tom") = none ∧
      (setDoc demoEnv demoStep demoCtx indexCached tom).1 = Res.ok (storedDoc tom) ∧
      DocVM.Eval (storedDoc tom) [DocVM.Program demoEnv heavy.expression] = Res.ok true ∧
      (tomIndexed.db.indexDocs.lookup "heavy").bind (fun b => b.Get "tom") =
        some (Wire.putDoc (storedDoc tom)) ∧
      (delDoc demoEnv demoCtx tomIndexed (some { gtype := "cat", gid := "tom" })).1 =
        Res.ok () ∧
      getDoc demoEnv demoCtx
          (delDoc demoEnv demoCtx tomIndexed (some { gtype := "cat", gid := "tom" })).2.db
          (some { gtype := "cat", gid := "tom" }) = Res.err Err.notFound ∧
      ((delDoc demoEnv demoCtx tomIndexed
            (some { gtype := "cat", gid := "tom" })).2.db.indexDocs.lookup "heavy").bind
          (fun b => b.Get "tom") = some (Wire.putDoc (storedDoc tom)) := by
  refine ⟨?_, ?_, ?_, ?_, ?_, ?_, ?_, ?_, ?_, ?_, ?_, ?_, ?_⟩ <;> decide

/-! ### Claims C21 to C30 -/

/-- C21, evaluated at a failing input: the undirected connection `owner/e1` from
`dog/charlie` to `human/alice` is stored.  `setConnection` put its ref in all four slots;
the start-up scan of `NewGraph` over the same database puts it in
`connectionsFrom[dog/charlie]` and `connectionsTo[human/alice]` only, and leaves
`connectionsTo[dog/charlie]` and `connectionsFrom[human/alice]` without entry. -/
theorem NewGraph_misses_undirected_slots :
    getConnection demoEnv demoCtx (linked false).db (some ownerPath) =
        Res.ok (storedOwnerEdge false) ∧
      (storedOwnerEdge false).directed = false ∧
      pathsAt (linked false).connectionsTo charliePath.String = [ownerPath] ∧
      pathsAt (linked false).connectionsFrom alicePath.String = [ownerPath] ∧
      NewGraph demoEnv demoCtx (linked false).db =
        Res.ok
          { connectionsTo := [(alicePath.String, [some ownerPath])]
            connectionsFrom := [(charliePath.String, [some ownerPath])] } := by
  refine ⟨?_, ?_, ?_, ?_, ?_⟩ <;> decide

/-- C22, evaluated at a failing input: the undirected connections `owner/z` and then
`owner/a` from `dog/charlie` to `human/alice` are written, both with success.
`setConnection` sorts `connectionsFrom[dog/charlie]` and `connectionsTo[human/alice]`
but not the two slots it appends to for an undirected connection, so
`connectionsTo[dog/charlie]` and `connectionsFrom[human/alice]` hold `owner/z` before
`owner/a`, against the order of the string forms. -/
theorem setConnection_leaves_undirected_slots_unsorted :
    (setConnection demoEnv demoStep demoCtx twoDocs (ownerEdgeNamed "z" false)).1 =
        Res.ok (storedConnection (ownerEdgeNamed "z" false)) ∧
      (setConnection demoEnv demoStep demoCtx oneUndirected (ownerEdgeNamed "a" false)).1 =
        Res.ok (storedConnection (ownerEdgeNamed "a" false)) ∧
      pathsAt twoUndirected.connectionsFrom charliePath.String =
        [{ gtype := "owner", gid := "a" }, { gtype := "owner", gid := "z" }] ∧
      pathsAt twoUndirected.connectionsTo charliePath.String =
        [{ gtype := "owner", gid := "z" }, { gtype := "owner", gid := "a" }] ∧
      pathsAt twoUndirected.connectionsFrom alicePath.String =
        [{ gtype := "owner", gid := "z" }, { gtype := "owner", gid := "a" }] ∧
      strLess (Path.String { gtype := "owner", gid := "a" })
        (Path.String { gtype := "owner", gid := "z" }) = true := by
  refine ⟨?_, ?_, ?_, ?_, ?_, ?_⟩ <;> decide

theorem mem_insertPath (p q : Path) (l : List Path) :
    q ∈ insertPath p l ↔ q = p ∨ q ∈ l := by
  induction l with
  | nil => simp [insertPath]
  | cons a rest ih =>
    simp only [insertPath]
    split
    · simp
    · simp only [List.mem_cons, ih]
      tauto

theorem mem_sortPaths (q : Path) (l : List Path) : q ∈ sortPaths l ↔ q ∈ l := by
  induction l with
  | nil => simp [sortPaths]
  | cons a rest ih =>
    have h : sortPaths (a :: rest) = insertPath a (sortPaths rest) := rfl
    rw [h, mem_insertPath, ih]
    simp

theorem mem_pathsAt_appendPath_self (m : Bucket (List Path)) (k : String) (p : Path) :
    p ∈ pathsAt (appendPath m k p) k := by
  simp [pathsAt, appendPath, Bucket.lookup_insert_self]

theorem mem_pathsAt_appendPath_of_mem (m : Bucket (List Path)) (k k' : String) (p q : Path)
    (h : q ∈ pathsAt m k') : q ∈ pathsAt (appendPath m k p) k' := by
  by_cases hk : k' = k
  · subst hk
    simp only [pathsAt, appendPath, Bucket.lookup_insert_self, Option.getD_some,
      List.mem_append]
    exact Or.inl h
  · simpa [pathsAt, appendPath, Bucket.lookup_insert_ne _ _ _ _ hk] using h

theorem mem_pathsAt_sortAt (m : Bucket (List Path)) (k k' : String) (q : Path) :
    q ∈ pathsAt (sortAt m k) k' ↔ q ∈ pathsAt m k' := by
  unfold sortAt
  cases hl : m.lookup k with
  | none => simp
  | some paths =>
    by_cases hk : k' = k
    · subst hk
      simp [pathsAt, Bucket.lookup_insert_self, hl, mem_sortPaths]
    · simp [pathsAt, Bucket.lookup_insert_ne _ _ _ _ hk]

theorem setConnection_ok_maps {env : Env} {st : Step} {ctx : Ctx} {g g' : Graph}
    {c c' : Connection} (h : setConnection env st ctx g c = (Res.ok c', g')) :
    ∃ f t, c.from_ = some f ∧ c.to_ = some t ∧
      g'.connectionsFrom =
        sortAt
          (if c.directed then appendPath g.connectionsFrom f.String (ensurePath st c.path)
            else appendPath (appendPath g.connectionsFrom f.String (ensurePath st c.path))
              t.String (ensurePath st c.path)) f.String ∧
      g'.connectionsTo =
        sortAt
          (if c.directed then appendPath g.connectionsTo t.String (ensurePath st c.path)
            else appendPath (appendPath g.connectionsTo t.String (ensurePath st c.path))
              f.String (ensurePath st c.path)) t.String := by
  unfold setConnection at h
  split at h
  · cases h
  · split at h
    · cases h
    · rename_i f hf
      split at h
      · cases h
      · split at h
        · cases h
        · split at h
          · cases h
          · rename_i t ht
            split at h
            · cases h
            · split at h
              · cases h
              · simp only [] at h
                split at h
                · cases h
                · split at h
                  · cases h
                  · split at h
                    · cases h
                    · simp only [Prod.mk.injEq, Res.ok.injEq] at h
                      obtain ⟨_, hg⟩ := h
                      subst hg
                      exact ⟨f, t, hf, ht, rfl, rfl⟩

/-- C23: when `setConnection` of an undirected connection from `f` to `t` succeeds, the
ref of the stored connection (the given one, with a generated gid when it had none) is a
member of `connectionsFrom[f]`, `connectionsTo[t]`, `connectionsTo[f]` and
`connectionsFrom[t]` of the state it leaves. -/
theorem setConnection_undirected_four_slots (env : Env) (st : Step) (ctx : Ctx) (g : Graph)
    (c c' : Connection) (f t : Path) (hdir : c.directed = false)
    (hf : c.from_ = some f) (ht : c.to_ = some t)
    (h : (setConnection env st ctx g c).1 = Res.ok c') :
    ∃ p, c'.path = some p ∧
      p ∈ pathsAt (setConnection env st ctx g c).2.connectionsFrom f.String ∧
      p ∈ pathsAt (setConnection env st ctx g c).2.connectionsTo t.String ∧
      p ∈ pathsAt (setConnection env st ctx g c).2.connectionsTo f.String ∧
      p ∈ pathsAt (setConnection env st ctx g c).2.connectionsFrom t.String := by
  have hpair : setConnection env st ctx g c = (Res.ok c', (setConnection env st ctx g c).2) :=
    Prod.ext h rfl
  obtain ⟨_, hc, _⟩ := setConnection_ok hpair
  obtain ⟨f', t', hf', ht', hfrom, hto⟩ := setConnection_ok_maps hpair
  rw [hf] at hf'
  rw [ht] at ht'
  cases hf'
  cases ht'
  refine ⟨ensurePath st c.path, by rw [hc], ?_, ?_, ?_, ?_⟩
  · rw [hfrom, mem_pathsAt_sortAt]
    simp only [hdir, Bool.false_eq_true, if_false]
    exact mem_pathsAt_appendPath_of_mem _ _ _ _ _ (mem_pathsAt_appendPath_self _ _ _)
  · rw [hto, mem_pathsAt_sortAt]
    simp only [hdir, Bool.false_eq_true, if_false]
    exact mem_pathsAt_appendPath_of_mem _ _ _ _ _ (mem_pathsAt_appendPath_self _ _ _)
  · rw [hto, mem_pathsAt_sortAt]
    simp only [hdir, Bool.false_eq_true, if_false]
    exact mem_pathsAt_appendPath_self _ _ _
  · rw [hfrom, mem_pathsAt_sortAt]
    simp only [hdir, Bool.false_eq_true, if_false]
    exact mem_pathsAt_appendPath_self _ _ _

/-- C23 at a concrete input: the undirected `owner/e1` from `dog/charlie` to `human/alice`
is in the four slots after `setConnection`. -/
theorem setConnection_undirected_four_slots_witness :
    ∃ p, (storedOwnerEdge false).path = some p ∧
      p ∈ pathsAt (linked false).connectionsFrom charliePath.String ∧
      p ∈ pathsAt (linked false).connectionsTo alicePath.String ∧
      p ∈ pathsAt (linked false).connectionsTo charliePath.String ∧
      p ∈ pathsAt (linked false).connectionsFrom alicePath.String :=
  setConnection_undirected_four_slots demoEnv demoStep demoCtx twoDocs (ownerEdge false)
    (storedOwnerEdge false) charliePath alicePath rfl rfl rfl (by decide)

/-- C24, evaluated at a failing input: `PatchDoc` of the stored `dog/charlie` succeeds, and
in its sequence of effects the change is published first and the transaction commits
after it, since the publish sits inside the closure of `db.Update`.  `CreateDocs` and
`DelDoc` on the same kind of input commit first and publish after. -/
theorem PatchDoc_publishes_before_commit :
    (PatchDoc demoEnv demoStep demoCtx oneDoc weightPatch).1 =
        Res.ok
          { path := some charliePath
            attributes := some [("name", Value.string "Charlie"), ("weight", Value.number 25)]
            metadata := some
              { Metadata.zero with
                createdAt := some 100, updatedAt := some 100, version := 2 } } ∧
      (PatchDoc demoEnv demoStep demoCtx oneDoc weightPatch).2.2 =
        [Effect.publish changeChannel
            (patchDocChange demoCtx
              { path := some charliePath
                attributes :=
                  some [("name", Value.string "Charlie"), ("weight", Value.number 25)]
                metadata := some
                  { Metadata.zero with
                    createdAt := some 100, updatedAt := some 100, version := 2 } }
              (some 100)),
          Effect.commit] ∧
      (CreateDocs demoEnv 100 demoSteps authCtx demoGraph [charlieConstructor]).2.2 =
        [Effect.commit,
          Effect.publish changeChannel
            (createDocsChange 100 authCtx freshMallory
              [createdDoc 100 demoStep freshMallory charliePath
                charlieConstructor.attributes 1])] ∧
      (DelDoc demoEnv 100 demoCtx oneDoc (some charliePath)).2.2 =
        [Effect.commit,
          Effect.publish changeChannel (delDocChange 100 demoCtx (storedDoc charlie))] := by
  refine ⟨?_, ?_, ?_, ?_⟩ <;> decide

theorem strLess_irrefl (a : String) : strLess a a = false := by
  simp [strLess]

theorem insertPath_replicate (p : Path) (n : Nat) :
    insertPath p (List.replicate n p) = List.replicate (n + 1) p := by
  induction n with
  | zero => rfl
  | succ n ih =>
    simp only [List.replicate_succ, insertPath, strLess_irrefl, Bool.false_eq_true, if_false]
    rw [ih]
    rfl

theorem sortPaths_replicate (p : Path) (n : Nat) :
    sortPaths (List.replicate n p) = List.replicate n p := by
  induction n with
  | zero => rfl
  | succ n ih =>
    have h : sortPaths (List.replicate (n + 1) p) =
        insertPath p (sortPaths (List.replicate n p)) := rfl
    rw [h, ih, insertPath_replicate]

theorem filter_matches_replicate (p : Path) (paths : List Path) :
    paths.filter (fun q => p.gid = q.gid && p.gtype = q.gtype) =
      List.replicate (paths.count p) p := by
  induction paths with
  | nil => rfl
  | cons a rest ih =>
    by_cases h : a = p
    · subst h
      simp [List.filter_cons, ih, List.replicate_succ]
    · have hne : ¬ (p.gid = a.gid ∧ p.gtype = a.gtype) := by
        intro ⟨h1, h2⟩
        apply h
        cases a
        cases p
        simp_all
      have hcount : (a :: rest).count p = rest.count p := by
        rw [List.count_cons]
        simp [h]
      simp only [List.filter_cons, hcount]
      rw [if_neg (by simpa using hne)]
      exact ih

/-- C25: `removeConnection p list` is the list of the entries of `list` that equal `p`, as
many copies of `p` as `list` holds; a ref is in the result exactly when it is in `list`
and has the gtype and gid of `p`, so every entry that differs from `p` is dropped; and the
result is in ascending order of the string form. -/
theorem removeConnection_retains_matches (p : Path) (paths : List Path) :
    removeConnection p paths = List.replicate (paths.count p) p ∧
      (∀ q, q ∈ removeConnection p paths ↔ (q ∈ paths ∧ q.gtype = p.gtype ∧ q.gid = p.gid)) ∧
      (removeConnection p paths).Pairwise (fun a b => strLess b.String a.String = false) := by
  have h : removeConnection p paths = List.replicate (paths.count p) p := by
    unfold removeConnection
    rw [filter_matches_replicate, sortPaths_replicate]
  refine ⟨h, ?_, ?_⟩
  · intro q
    rw [h, List.mem_replicate]
    constructor
    · rintro ⟨hc, rfl⟩
      exact ⟨List.count_pos_iff.mp (Nat.pos_of_ne_zero hc), rfl, rfl⟩
    · rintro ⟨hq, h1, h2⟩
      have hqp : q = p := by
        cases q
        cases p
        simp_all
      subst hqp
      exact ⟨Nat.pos_iff_ne_zero.mp (List.count_pos_iff.mpr hq), rfl⟩
  · rw [h, List.pairwise_replicate]
    exact Or.inr (strLess_irrefl _)

/-- C25 at a concrete input: of `owner/e1`, `owner/e2` and `owner/e1` the two copies of
the target `owner/e1` are kept and `owner/e2` is dropped. -/
theorem removeConnection_retains_matches_witness :
    removeConnection ownerPath [ownerPath, { gtype := "owner", gid := "e2" }, ownerPath] =
        [ownerPath, ownerPath] ∧
      ({ gtype := "owner", gid := "e2" } : Path) ∉
        removeConnection ownerPath [ownerPath, { gtype := "owner", gid := "e2" }, ownerPath] :=
  ⟨(removeConnection_retains_matches ownerPath
      [ownerPath, { gtype := "owner", gid := "e2" }, ownerPath]).1.trans (by decide),
    fun hmem =>
      absurd (((removeConnection_retains_matches ownerPath
        [ownerPath, { gtype := "owner", gid := "e2" }, ownerPath]).2.1 _).mp hmem).2.2
        (by decide)⟩

/-- C26, evaluated at a failing input: `dog/charlie` and `human/alice` are stored and no
connection of gtype `likes` was written, so `connections/likes` does not exist.
`setConnection` of `likes/e1` between the two docs faults: it calls
`CreateBucketIfNotExists` on the nil bucket it just looked up.  Nothing is stored.
`setDoc` on a gtype without bucket creates the bucket and succeeds. -/
theorem setConnection_faults_without_bucket :
    docStored twoDocs.db charliePath = true ∧
      docStored twoDocs.db alicePath = true ∧
      twoDocs.db.connections.lookup "likes" = none ∧
      (setConnection demoEnv demoStep demoCtx twoDocs likesEdge).1 = Res.panic ∧
      (setConnection demoEnv demoStep demoCtx twoDocs likesEdge).2.db = twoDocs.db ∧
      demoGraph.db.docs.lookup "dog" = none ∧
      (setDoc demoEnv demoStep demoCtx demoGraph charlie).1 = Res.ok (storedDoc charlie) := by
  refine ⟨?_, ?_, ?_, ?_, ?_, ?_, ?_⟩ <;> decide

/-- C27, evaluated at failing inputs, each a state built with `setDoc`, `setConnection`
and `delConnection` in which `dog/charlie` is stored.  With the self-loop `owner/e1` on
`dog/charlie`, with the connection `owner/e1` to `human/alice` written and then deleted
by `delConnection`, and with the undirected `owner/e1` to `human/alice`, `delDoc` of
`dog/charlie` faults: an adjacency list still names `owner/e1` after its record is gone,
the absent record is read as the zero connection and `delConnection` is called on its nil
ref.  With the directed `owner/e1` alone it runs to completion. -/
theorem delDoc_faults_on_stale_adjacency :
    (setConnection demoEnv demoStep demoCtx oneDoc selfLoop).1 =
        Res.ok (storedConnection selfLoop) ∧
      docStored looped.db charliePath = true ∧
      (delDoc demoEnv demoCtx looped (some charliePath)).1 = Res.panic ∧
      (delConnection demoEnv demoCtx (linked true) (some ownerPath)).1 = Res.ok () ∧
      getConnection demoEnv demoCtx unlinked.db (some ownerPath) = Res.err Err.notFound ∧
      pathsAt unlinked.connectionsFrom charliePath.String = [ownerPath] ∧
      docStored unlinked.db charliePath = true ∧
      (delDoc demoEnv demoCtx unlinked (some charliePath)).1 = Res.panic ∧
      docStored (linked false).db charliePath = true ∧
      (delDoc demoEnv demoCtx (linked false) (some charliePath)).1 = Res.panic ∧
      (delDoc demoEnv demoCtx (linked true) (some charliePath)).1 = Res.ok () := by
  refine ⟨?_, ?_, ?_, ?_, ?_, ?_, ?_, ?_, ?_, ?_, ?_⟩ <;> decide

/-- C28, evaluated at a failing input: the directed connection `owner/e1` from
`dog/charlie` to `human/alice` is written and then written again as it is stored, both
with success.  `setConnection` appends without looking for the ref, so
`connectionsFrom[dog/charlie]` and `connectionsTo[human/alice]` hold `owner/e1` twice. -/
theorem setConnection_duplicates_adjacency :
    (setConnection demoEnv demoStep demoCtx twoDocs (ownerEdge true)).1 =
        Res.ok (storedOwnerEdge true) ∧
      pathsAt (linked true).connectionsFrom charliePath.String = [ownerPath] ∧
      (setConnection demoEnv demoStep demoCtx (linked true) (storedOwnerEdge true)).1 =
        Res.ok
          { storedOwnerEdge true with
            metadata := some
              { Metadata.zero with
                createdAt := some 100, updatedAt := some 100, version := 2 } } ∧
      pathsAt rewritten.connectionsFrom charliePath.String = [ownerPath, ownerPath] ∧
      pathsAt rewritten.connectionsTo alicePath.String = [ownerPath, ownerPath] ∧
      ¬ (pathsAt rewritten.connectionsFrom charliePath.String).Nodup := by
  refine ⟨?_, ?_, ?_, ?_, ?_, ?_⟩ <;> decide

/-- C29, evaluated at a failing input: the bucket `docs/dog` holds `charlie` and `rex`.
A scan from the start whose callback records the doc and stops examines `charlie` and
returns the key `charlie`.  The follow-up scan with seek `charlie` examines `charlie` again
before `rex`: the cursor is placed on the key itself, which is not strictly greater.
The same holds for `rangeSeekConnections` on `connections/owner` with `a` and `z`. -/
theorem rangeSeekDocs_examines_returned_key_again :
    rangeSeekDocs demoEnv demoCtx twoDogs.db "dog" "" ""
          (fun (seen : List Doc) d => (seen ++ [d], false)) [] =
        (("charlie", Res.ok ()), [storedDoc charlie]) ∧
      rangeSeekDocs demoEnv demoCtx twoDogs.db "dog" "charlie" ""
          (fun (seen : List Doc) d => (seen ++ [d], true)) [] =
        (("rex", Res.ok ()), [storedDoc charlie, storedDoc rex]) ∧
      strLess "charlie" "charlie" = false ∧
      rangeSeekConnections demoEnv demoCtx twoUndirected.db "owner" "" ""
          (fun (seen : List Connection) c => (seen ++ [c], false)) [] =
        (("a", Res.ok ()), [storedConnection (ownerEdgeNamed "a" false)]) ∧
      rangeSeekConnections demoEnv demoCtx twoUndirected.db "owner" "a" ""
          (fun (seen : List Connection) c => (seen ++ [c], true)) [] =
        (("z", Res.ok ()),
          [storedConnection (ownerEdgeNamed "a" false),
            storedConnection (ownerEdgeNamed "z" false)]) := by
  refine ⟨?_, ?_, ?_, ?_, ?_⟩ <;> decide

/-- C30, evaluated at failing inputs: the caller `mallory@x` has the incoming connection
`owner/e1` from `dog/charlie`.  With the part `ConnectionsTo` set to gtype `owner` and
limit 10 and the part `ConnectionsFrom` not set, `Me` selects no incoming connection,
because it reads gtype and limit from the part `ConnectionsFrom`; `ConnectionsTo` with
the gtype and limit of the part selects `owner/e1`.  With the part `ConnectionsTo` set to
the gtype `friend` and the part `ConnectionsFrom` set to the wildcard, `Me` returns
`owner/e1` among the incoming connections. -/
theorem Me_reads_incoming_selection_from_outgoing_part :
    ConnectionsTo demoEnv authCtx malloryOwns
        { docPath := some malloryPath, gtype := "owner", expressions := [], limit := 10 } =
        Res.ok [storedConnection malloryEdge] ∧
      Me demoEnv authCtx malloryOwns
          (some { connectionsFrom := none
                  connectionsTo := some { gtype := "owner", expressions := [], limit := 10 } }) =
        Res.ok
          { path := freshMallory.path, attributes := freshMallory.attributes,
            metadata := freshMallory.metadata, connectionsTo := [], connectionsFrom := [] } ∧
      Me demoEnv authCtx malloryOwns
          (some { connectionsFrom := some { gtype := "*", expressions := [], limit := 10 }
                  connectionsTo := some { gtype := "friend", expressions := [], limit := 10 } }) =
        Res.ok
          { path := freshMallory.path, attributes := freshMallory.attributes,
            metadata := freshMallory.metadata, connectionsTo := [malloryDetail],
            connectionsFrom := [] } := by
  refine ⟨?_, ?_, ?_⟩ <;> decide

end Graphik
